import Mathlib

/-!
# srpmpacker: a shallow embedding of `toolkit/tools/srpmpacker/srpmpacker.go`

The Go program packs RPM spec files into source RPMs.  This development embeds the
sequential per-spec logic of the tool as pure Lean functions:

* Go maps (`map[string]T`) are key/value lists with in-place update (`GoMap`);
* Go `error` values are their messages (`Err`), `nil` is `none`;
* every call that leaves the program (file system, `rpmspec`, network, JSON helpers,
  path helpers) is a field of the record `Env`, so each theorem holds for every behaviour of
  the outside world; within one run a call with the same arguments gets the same answer;
* functions that act on the outside world also return the list of actions they performed
  (`Effect`), in program order.
-/

namespace SrpmPacker

/-! ## Go maps -/

/-- Go value of type `error`, identified with its message. -/
abbrev Err := String

/-- Go `map[string]β` as a list of bindings; keys are kept unique by `mapSet`. -/
abbrev GoMap (β : Type) := List (String × β)

/-- Map read `m[k]` in its two-result form: `none` when the key is absent. -/
def mapGet {β : Type} : GoMap β → String → Option β
  | [], _ => none
  | (k', v) :: rest, k => if k' = k then some v else mapGet rest k

/-- Map write `m[k] = v`: overwrites the binding of `k` in place or appends a new one. -/
def mapSet {β : Type} : GoMap β → String → β → GoMap β
  | [], k, v => [(k, v)]
  | (k', v') :: rest, k, v => if k' = k then (k, v) :: rest else (k', v') :: mapSet rest k v

/-- Keys of a map, in list order. -/
def mapKeys {β : Type} (m : GoMap β) : List String := m.map Prod.fst

/-- Model of `reflect.DeepEqual` on two non-nil maps: the same keys with equal values. -/
def mapDeepEqual {β : Type} [DecidableEq β] (a b : GoMap β) : Bool :=
  a.all (fun p => decide (mapGet b p.1 = mapGet a p.1)) &&
    b.all (fun p => decide (mapGet a p.1 = mapGet b p.1))

/-- Go `reflect.DeepEqual` on two values of type `map[string]string`, each given by whether
it is the nil map and by its bindings (a nil map has none): the two are both nil or both not
nil, and they have the same keys with equal values. -/
def reflectDeepEqual (aNil : Bool) (a : GoMap String) (bNil : Bool) (b : GoMap String) :
    Bool :=
  (aNil == bNil) && mapDeepEqual a b

/-! ## Data model (lines 36-96 of srpmpacker.go) -/

/-- Go `fileType`. -/
inductive fileType where
  | fileTypePatch
  | fileTypeSource
  deriving DecidableEq, Repr

/-- Go `signatureHandlingType`. -/
inductive signatureHandlingType where
  | signatureEnforce
  | signatureSkipCheck
  | signatureUpdate
  deriving DecidableEq, Repr

open fileType signatureHandlingType

/-- Go `sourceRetrievalConfiguration`.  The fields `caCerts` and `tlsCerts` are only handed
through to the downloader and are part of the download oracle here.  The Go field
`signatureLookup` is a map value that may be nil: `signatureLookup` holds its bindings and
`signatureLookupNil` tells whether it is the nil map, which reads as a map without binding
and differs from an empty map for `reflect.DeepEqual` only. -/
structure sourceRetrievalConfiguration where
  localSourceDir : String
  sourceURL : String
  signatureHandling : signatureHandlingType
  signatureLookup : GoMap String
  signatureLookupNil : Bool
  deriving DecidableEq, Repr

/-- Go `packResult`. -/
structure packResult where
  specFile : String
  srpmFile : String
  err : Option Err
  deriving DecidableEq, Repr

/-- Go `specState`. -/
structure specState where
  specFile : String
  srpmFile : String
  toPack : Bool
  err : Option Err
  deriving DecidableEq, Repr

/-- Go `fileSignaturesWrapper`: a JSON object with the single key `Signatures`. -/
structure fileSignaturesWrapper where
  FileSignatures : GoMap String
  deriving DecidableEq, Repr

/-- Outcome of `jsonutils.ReadJSONFile` on a signatures file: `loaded` when the file decodes
and its member `Signatures` is an object or is absent (the map made before the read then
stays), `loadedNil` when the file decodes and its member `Signatures` is `null` (the decoder
then sets the map to nil). -/
inductive JSONRead where
  | loaded (wrapper : fileSignaturesWrapper)
  | loadedNil
  | notExist (err : Err)
  | failed (err : Err)
  deriving DecidableEq, Repr

/-- Actions on the outside world, recorded in program order. -/
inductive Effect where
  | readJSONFile (path : String)
  | writeJSONFile (path : String) (wrapper : fileSignaturesWrapper)
  | mkdirAll (path : String)
  | removeAll (path : String)
  | copy (src dst : String)
  | downloadFile (url dst : String)
  | remove (path : String)
  | generateSRPMFromSPEC (specFile topDir : String)
  deriving DecidableEq, Repr

/-- The outside world: one field per external call made by the embedded functions. -/
structure Env where
  /-- Go `filepath.Base`. -/
  base : String → String
  /-- Go `filepath.Dir`. -/
  dir : String → String
  /-- Go `filepath.Join` (and `path.Join`) of two elements. -/
  join : String → String → String
  /-- Go `filepath.Glob`. -/
  glob : String → Except Err (List String)
  /-- Go `strings.EqualFold`. -/
  equalFold : String → String → Bool
  /-- Go `rpm.DefaultDefines`. -/
  defaultDefines : Bool → GoMap String
  /-- Go `rpm.DistTagDefine`. -/
  distTagDefine : String
  /-- Go `rpm.NoCompatibleArchError`. -/
  noCompatibleArchError : String
  /-- Go `rpm.QuerySPEC specFile sourceDir queryFormat defines rpm.QueryHeaderArgument`. -/
  querySPEC : String → String → String → GoMap String → Except Err (List String)
  /-- Go `rpm.SpecArchIsCompatible specFile sourceDir defines`. -/
  specArchIsCompatible : String → String → GoMap String → Except Err Bool
  /-- Go `os.Stat`, reduced to the modification time of the file. -/
  stat : String → Except Err Int
  /-- Go `directory.LastModifiedFile`: latest modification time and the file that has it. -/
  lastModifiedFile : String → Except Err (Int × String)
  /-- Go `jsonutils.ReadJSONFile` into a fresh `fileSignaturesWrapper`. -/
  readJSONFile : String → JSONRead
  /-- Go `jsonutils.WriteJSONFile` of a `fileSignaturesWrapper`. -/
  writeJSONFile : String → fileSignaturesWrapper → Option Err
  /-- Go `os.MkdirAll`. -/
  mkdirAll : String → Option Err
  /-- Go `os.RemoveAll`. -/
  removeAll : String → Option Err
  /-- Go `os.Remove`. -/
  remove : String → Option Err
  /-- Go `file.Copy src dst`. -/
  copy : String → String → Option Err
  /-- Go `file.IsFile`. -/
  isFile : String → Bool
  /-- Paths handed to the callback of `filepath.Walk root`, in walk order. -/
  walk : String → List String
  /-- Go `file.GenerateSHA256`. -/
  generateSHA256 : String → Except Err String
  /-- Go `network.JoinURL`. -/
  joinURL : String → String → String
  /-- Go `network.DownloadFile url dst caCerts tlsCerts`, by attempt number. -/
  downloadFile : String → String → Nat → Option Err
  /-- Go `rpm.GenerateSRPMFromSPEC specFile topDir defines`. -/
  generateSRPMFromSPEC : String → String → GoMap String → Option Err
  /-- Order in which a `range` loop visits the keys of a map (unspecified in Go):
  some rearrangement of the keys. -/
  rangeOrder : (keys : List String) → { l : List String // l.Perm keys }

/-! ## Signature verifier (lines 970-1002) -/

/-- Go `validateSignature`: returns the error and the updated `currentSignatures`. -/
def validateSignature (env : Env) (path : String) (srcConfig : sourceRetrievalConfiguration)
    (currentSignatures : GoMap String) : Option Err × GoMap String :=
  if srcConfig.signatureHandling = signatureSkipCheck then
    (none, currentSignatures)
  else
    let fileName := env.base path
    let found := (mapGet srcConfig.signatureLookup fileName).isSome
    let expectedSignature := (mapGet srcConfig.signatureLookup fileName).getD ""
    if !found && srcConfig.signatureHandling ≠ signatureUpdate then
      (some ("no signature for file (" ++ fileName ++ ") found. full path is (" ++ path ++ ")"),
        currentSignatures)
    else
      match env.generateSHA256 path with
      | .error e => (some e, currentSignatures)
      | .ok newSignature =>
        if env.equalFold expectedSignature newSignature then
          (none, mapSet currentSignatures fileName newSignature)
        else if srcConfig.signatureHandling = signatureUpdate then
          (none, mapSet currentSignatures fileName newSignature)
        else
          (some ("file (" ++ path ++ ") has mismatching signature: expected (" ++
            expectedSignature ++ ") - actual (" ++ newSignature ++ ")"), currentSignatures)

/-! ## Spec discovery (lines 290-322) -/

/-- Go `strings.HasPrefix s start`. -/
def hasPrefix (s start : String) : Bool := start.data.isPrefixOf s.data

/-- Search pattern of `findSPECFiles` for one pack-list entry. -/
def specSearch (env : Env) (specsDir specName : String) : String :=
  env.join specsDir ("**/" ++ specName ++ ".spec")

/-- Loop of `findSPECFiles` over a non-empty pack list; the second argument is `specFiles`
as accumulated so far. -/
def findSPECFilesLoop (env : Env) (specsDir : String) :
    List String → List String → List String × Option Err
  | [], specFiles => (specFiles, none)
  | specName :: rest, specFiles =>
    match env.glob (specSearch env specsDir specName) with
    | .error e => (specFiles, some e)
    | .ok specFile =>
      if specFile.length ≠ 1 then
        if hasPrefix specName "msopenjdk-11" then
          findSPECFilesLoop env specsDir rest specFiles
        else
          (specFiles, some ("unexpected number of matches (" ++ toString specFile.length ++
            ") for spec file (" ++ specName ++ ")"))
      else
        findSPECFilesLoop env specsDir rest (specFiles ++ [specFile.headD ""])

/-- Go `findSPECFiles`: the spec files to consider and the error. -/
def findSPECFiles (env : Env) (specsDir : String) (packList : List String) :
    List String × Option Err :=
  if packList.length = 0 then
    match env.glob (env.join specsDir "**/*.spec") with
    | .error e => ([], some e)
    | .ok specFiles => (specFiles, none)
  else
    findSPECFilesLoop env specsDir packList []

/-- Matches reported by the glob oracle for one pack-list entry (none when the glob fails). -/
def globMatches (env : Env) (specsDir specName : String) : List String :=
  match env.glob (specSearch env specsDir specName) with
  | .error _ => []
  | .ok specFile => specFile

/-- The unique match of a pack-list entry, when it has exactly one. -/
def uniqueMatch (env : Env) (specsDir specName : String) : Option String :=
  match globMatches env specsDir specName with
  | [m] => some m
  | _ => none

/-! ## Staleness analysis (lines 456-562) -/

/-- Query format of `specsToPackWorker`. -/
def srpmQueryFormat : String :=
  "%\x7bNAME\x7d-%\x7bVERSION\x7d-%\x7bRELEASE\x7d.src.rpm"

/-- Go `%v` rendering of a string slice. -/
def showSlice (xs : List String) : String := "[" ++ " ".intercalate xs ++ "]"

/-- Defines used by `specsToPackWorker`: the defaults with the dist tag set. -/
def stage1Defines (env : Env) (distTag : String) (runCheck : Bool) : GoMap String :=
  mapSet (env.defaultDefines runCheck) env.distTagDefine distTag

/-- Source directory used by `specsToPackWorker` for one spec file. -/
def stage1SourceDir (env : Env) (nestedSourcesDir : Bool) (specFile : String) : String :=
  if nestedSourcesDir then env.join (env.dir specFile) "SOURCES" else env.dir specFile

/-- Body of the loop of `specsToPackWorker` for one request that is not cancelled: the
`specState` sent on the result channel. -/
def specsToPackWorker (env : Env) (distTag outDir : String)
    (nestedSourcesDir repackAll runCheck : Bool) (specFile : String) : specState :=
  let result : specState := { specFile := specFile, srpmFile := "", toPack := false, err := none }
  let containingDir := env.dir specFile
  let defines := stage1Defines env distTag runCheck
  let sourceDir := stage1SourceDir env nestedSourcesDir specFile
  match env.querySPEC specFile sourceDir srpmQueryFormat defines with
  | .error err =>
    if err = env.noCompatibleArchError then result else { result with err := some err }
  | .ok specQueryResults =>
    if specQueryResults.length ≠ 1 then
      { result with err := some ("unexpected query results, wanted (1) results but got (" ++
          toString specQueryResults.length ++ "), results: " ++ showSlice specQueryResults) }
    else
      let producedSRPM := specQueryResults.headD ""
      let fullSRPMPath := env.join outDir producedSRPM
      if repackAll then
        { result with srpmFile := fullSRPMPath, toPack := true }
      else
        match env.specArchIsCompatible specFile sourceDir defines with
        | .error err => { result with srpmFile := fullSRPMPath, err := some err }
        | .ok isCompatible =>
          if !isCompatible then
            { result with srpmFile := fullSRPMPath }
          else
            match env.stat fullSRPMPath with
            | .error _ => { result with srpmFile := fullSRPMPath, toPack := true }
            | .ok srpmModTime =>
              match env.lastModifiedFile containingDir with
              | .error err =>
                { result with
                  srpmFile := fullSRPMPath
                  err := some ("failed to query modification time for SPEC (" ++ specFile ++
                    "). Error: " ++ err) }
              | .ok (specModTime, _) =>
                if specModTime > srpmModTime then
                  { result with srpmFile := fullSRPMPath, toPack := true }
                else
                  { result with srpmFile := fullSRPMPath }

/-- Decision of stage 1 as the spec words it, from the answers of the outside world: repack
everything, or the architecture is compatible and the SRPM is missing or older than the
newest file of the spec directory. -/
def stage1Decision (env : Env) (distTag outDir : String)
    (nestedSourcesDir repackAll runCheck : Bool) (specFile row : String) : Bool :=
  repackAll ||
    ((match env.specArchIsCompatible specFile (stage1SourceDir env nestedSourcesDir specFile)
          (stage1Defines env distTag runCheck) with
        | .error _ => false
        | .ok isCompatible => isCompatible) &&
      (match env.stat (env.join outDir row) with
        | .error _ => true
        | .ok srpmModTime =>
          match env.lastModifiedFile (env.dir specFile) with
          | .error _ => false
          | .ok (specModTime, _) => decide (specModTime > srpmModTime)))

/-! ## Signature manifest (lines 661-702, 764-780) -/

/-- Go `strings.TrimSuffix`. -/
def trimSuffix (s suffix : String) : String :=
  if suffix.data.isSuffixOf s.data then
    String.mk (s.data.take (s.data.length - suffix.data.length))
  else s

/-- Go `specPathToSignaturesPath`. -/
def specPathToSignaturesPath (env : Env) (specFilePath : String) : String :=
  let specName := trimSuffix (env.base specFilePath) ".spec"
  let signatureFileName := specName ++ "." ++ "signatures.json"
  let signatureFileDirPath := env.dir specFilePath
  env.join signatureFileDirPath signatureFileName

/-- Go `readSignatures`: the bindings of the map read, whether that map is nil, the error,
and the actions performed.  The map is made before the read (line 688); the callers drop the
configuration when the read fails, so the map returned with an error is taken as made. -/
def readSignatures (env : Env) (signaturesFilePath : String) :
    GoMap String × Bool × Option Err × List Effect :=
  match env.readJSONFile signaturesFilePath with
  | .loaded wrapper =>
    (wrapper.FileSignatures, false, none, [Effect.readJSONFile signaturesFilePath])
  | .loadedNil => ([], true, none, [Effect.readJSONFile signaturesFilePath])
  | .notExist _ => ([], false, none, [Effect.readJSONFile signaturesFilePath])
  | .failed e => ([], false, some e, [Effect.readJSONFile signaturesFilePath])

/-- Go `initializeSourceConfig`: the per-spec configuration, the error, the actions. -/
def initializeSourceConfig (env : Env) (templateSrcConfig : sourceRetrievalConfiguration)
    (signaturesFilePath : String) : sourceRetrievalConfiguration × Option Err × List Effect :=
  let srcConfig := { templateSrcConfig with localSourceDir := env.dir signaturesFilePath }
  if srcConfig.signatureHandling ≠ signatureSkipCheck then
    let r := readSignatures env signaturesFilePath
    ({ srcConfig with signatureLookup := r.1, signatureLookupNil := r.2.1 }, r.2.2.1, r.2.2.2)
  else
    (srcConfig, none, [])

/-- Go `updateSignaturesIfApplicable`: the error and the actions performed.  The map
`currentSignatures` is the one `packSingleSPEC` makes at line 732, which is not nil. -/
def updateSignaturesIfApplicable (env : Env) (signaturesFile : String)
    (srcConfig : sourceRetrievalConfiguration) (currentSignatures : GoMap String) :
    Option Err × List Effect :=
  if srcConfig.signatureHandling = signatureUpdate ∧
      reflectDeepEqual srcConfig.signatureLookupNil srcConfig.signatureLookup false
        currentSignatures = false then
    let outputSignatures : fileSignaturesWrapper := { FileSignatures := currentSignatures }
    (env.writeJSONFile signaturesFile outputSignatures,
      [Effect.writeJSONFile signaturesFile outputSignatures])
  else
    (none, [])

/-! ## Source hydrator (lines 799-968) -/

/-- Go `readSPECTagArray`. -/
def readSPECTagArray (env : Env) (specFile sourceDir tag : String) (defines : GoMap String) :
    Except Err (List String) :=
  env.querySPEC specFile sourceDir ("[%\x7b" ++ tag ++ "\x7d\\n]") defines

/-- Model of `filepath.Walk`: the callback is run on every path in walk order, and the walk
stops with the first error the callback returns. -/
def filepathWalk {σ : Type} (walkFn : σ → String → Option Err × σ) :
    List String → σ → Option Err × σ
  | [], s => (none, s)
  | path :: rest, s =>
    match walkFn s path with
    | (some e, s') => (some e, s')
    | (none, s') => filepathWalk walkFn rest s'

/-- Modelled from the spec: `retry.Run` of package `internal/retry`, whose source is not part
of the tree at hand.  The function is attempted up to `attempts` times and the first success
ends the run; the result is the last error and the number of attempts made. -/
def retryRun (f : Nat → Option Err) : (attempts tried : Nat) → Option Err → Option Err × Nat
  | 0, tried, last => (last, tried)
  | n + 1, tried, _ =>
    match f tried with
    | none => (none, tried + 1)
    | some e => retryRun f n (tried + 1) (some e)

/-- Mutable data of one hydration pass: `fileHydrationState`, `currentSignatures`, and the
actions performed so far. -/
structure HydrationState where
  fileHydrationState : GoMap Bool
  currentSignatures : GoMap String
  trace : List Effect
  deriving DecidableEq, Repr

/-- Signature step shared by both passes: `validateSignature` unless signatures are skipped
for this kind of file. -/
def checkSignature (env : Env) (skipSignatureHandling : Bool) (path : String)
    (srcConfig : sourceRetrievalConfiguration) (currentSignatures : GoMap String) :
    Option Err × GoMap String :=
  if !skipSignatureHandling then validateSignature env path srcConfig currentSignatures
  else (none, currentSignatures)

/-- Callback handed to `filepath.Walk` by `hydrateFromLocalSource`. -/
def hydrateLocalFile (env : Env) (newSourceDir : String)
    (srcConfig : sourceRetrievalConfiguration) (skipSignatureHandling : Bool)
    (s : HydrationState) (path : String) : Option Err × HydrationState :=
  if !env.isFile path then (none, s)
  else
    let fileName := env.base path
    match mapGet s.fileHydrationState fileName with
    | none => (none, s)
    | some true => (none, s)
    | some false =>
      let v := checkSignature env skipSignatureHandling path srcConfig s.currentSignatures
      match v.1 with
      | some _ => (none, { s with currentSignatures := v.2 })
      | none =>
        let dst := env.join newSourceDir fileName
        match env.copy path dst with
        | some _ =>
          (none, { s with currentSignatures := v.2, trace := s.trace ++ [Effect.copy path dst] })
        | none =>
          (none, { fileHydrationState := mapSet s.fileHydrationState fileName true
                   currentSignatures := v.2
                   trace := s.trace ++ [Effect.copy path dst] })

/-- Go `hydrateFromLocalSource`. -/
def hydrateFromLocalSource (env : Env) (newSourceDir : String)
    (srcConfig : sourceRetrievalConfiguration) (skipSignatureHandling : Bool)
    (s : HydrationState) : Option Err × HydrationState :=
  filepathWalk (hydrateLocalFile env newSourceDir srcConfig skipSignatureHandling)
    (env.walk srcConfig.localSourceDir) s

/-- Body of the loop of `hydrateFromRemoteSource` for one key of `fileHydrationState`. -/
def hydrateRemoteFile (env : Env) (newSourceDir : String)
    (srcConfig : sourceRetrievalConfiguration) (skipSignatureHandling : Bool)
    (s : HydrationState) (fileName : String) : HydrationState :=
  match mapGet s.fileHydrationState fileName with
  | none => s
  | some true => s
  | some false =>
    let destinationFile := env.join newSourceDir fileName
    let url := env.joinURL srcConfig.sourceURL fileName
    let r := retryRun (env.downloadFile url destinationFile) 3 0 none
    let tr := s.trace ++ List.replicate r.2 (Effect.downloadFile url destinationFile)
    match r.1 with
    | some _ => { s with trace := tr }
    | none =>
      let v := checkSignature env skipSignatureHandling destinationFile srcConfig
        s.currentSignatures
      match v.1 with
      | some _ =>
        { s with currentSignatures := v.2, trace := tr ++ [Effect.remove destinationFile] }
      | none =>
        { fileHydrationState := mapSet s.fileHydrationState fileName true
          currentSignatures := v.2
          trace := tr }

/-- Go `hydrateFromRemoteSource`. -/
def hydrateFromRemoteSource (env : Env) (newSourceDir : String)
    (srcConfig : sourceRetrievalConfiguration) (skipSignatureHandling : Bool)
    (s : HydrationState) : HydrationState :=
  (env.rangeOrder (mapKeys s.fileHydrationState)).val.foldl
    (hydrateRemoteFile env newSourceDir srcConfig skipSignatureHandling) s

/-- Spec tag queried for a kind of file. -/
def specTagOf : fileType → String
  | fileTypePatch => "PATCH"
  | fileTypeSource => "SOURCE"

/-- Whether missing files of this kind are downloaded. -/
def hydrateRemotelyOf : fileType → Bool
  | fileTypePatch => false
  | fileTypeSource => true

/-- Whether signatures are skipped for this kind of file. -/
def skipSignatureHandlingOf : fileType → Bool
  | fileTypePatch => true
  | fileTypeSource => false

/-- Initial `fileHydrationState`: every needed file is not hydrated yet. -/
def initialHydrationState (filesNeeded : List String) : GoMap Bool :=
  filesNeeded.foldl (fun m fileNeeded => mapSet m fileNeeded false) []

/-- Final loop of `hydrateFiles`: the error is replaced at every file left unhydrated. -/
def hydrationError (fileHydrationState : GoMap Bool) (order : List String)
    (err : Option Err) : Option Err :=
  order.foldl (fun err fileNeeded =>
    if mapGet fileHydrationState fileNeeded = some false then
      some ("unable to hydrate file: " ++ fileNeeded)
    else err) err

/-- Data of the two passes of `hydrateFiles` once the list of needed files is known: the
error left by the local pass and the state after the remote pass. -/
def hydratePasses (env : Env) (fileTypeToHydrate : fileType) (workingDir : String)
    (srcConfig : sourceRetrievalConfiguration) (currentSignatures : GoMap String)
    (filesNeeded : List String) : Option Err × HydrationState :=
  let newSourceDir := env.join workingDir "SOURCES"
  let s0 : HydrationState :=
    { fileHydrationState := initialHydrationState filesNeeded
      currentSignatures := currentSignatures
      trace := [] }
  let l := if srcConfig.localSourceDir ≠ "" then
      hydrateFromLocalSource env newSourceDir srcConfig
        (skipSignatureHandlingOf fileTypeToHydrate) s0
    else (none, s0)
  let s2 := if hydrateRemotelyOf fileTypeToHydrate ∧ srcConfig.sourceURL ≠ "" then
      hydrateFromRemoteSource env newSourceDir srcConfig
        (skipSignatureHandlingOf fileTypeToHydrate) l.2
    else l.2
  (l.1, s2)

/-- Result of `hydrateFiles`: the error, `currentSignatures` as left by the call, the final
`fileHydrationState` and the actions performed. -/
structure HydrateResult where
  err : Option Err
  currentSignatures : GoMap String
  fileHydrationState : GoMap Bool
  trace : List Effect
  deriving DecidableEq, Repr

/-- Go `hydrateFiles`. -/
def hydrateFiles (env : Env) (fileTypeToHydrate : fileType) (specFile workingDir : String)
    (srcConfig : sourceRetrievalConfiguration) (currentSignatures defines : GoMap String) :
    HydrateResult :=
  match readSPECTagArray env specFile srcConfig.localSourceDir (specTagOf fileTypeToHydrate)
      defines with
  | .error e =>
    { err := some e, currentSignatures := currentSignatures, fileHydrationState := [],
      trace := [] }
  | .ok filesNeeded =>
    let r := hydratePasses env fileTypeToHydrate workingDir srcConfig currentSignatures
      filesNeeded
    { err := hydrationError r.2.fileHydrationState
        (env.rangeOrder (mapKeys r.2.fileHydrationState)).val r.1
      currentSignatures := r.2.currentSignatures
      fileHydrationState := r.2.fileHydrationState
      trace := r.2.trace }

/-! ## Packing one spec (lines 609-659, 704-797, 1004-1017) -/

/-- Go `createRPMBuildFolderStructure`: the error and the actions performed. -/
def createRPMBuildFolderStructure (env : Env) (workingDir : String) :
    List String → Option Err × List Effect
  | [] => (none, [])
  | d :: rest =>
    match env.mkdirAll (env.join workingDir d) with
    | some e => (some e, [Effect.mkdirAll (env.join workingDir d)])
    | none =>
      let r := createRPMBuildFolderStructure env workingDir rest
      (r.1, Effect.mkdirAll (env.join workingDir d) :: r.2)

/-- Callback handed to `filepath.Walk` by `copyOutput`; the state is `outputPath` and the
actions performed. -/
def copyOutputFile (env : Env) (outDir : String) (s : String × List Effect) (path : String) :
    Option Err × (String × List Effect) :=
  if !env.isFile path then (none, s)
  else
    let outputPath := env.join outDir (env.base path)
    (env.copy path outputPath, (outputPath, s.2 ++ [Effect.copy path outputPath]))

/-- Go `copyOutput`: the error, `outputPath` and the actions performed. -/
def copyOutput (env : Env) (workingDir outDir : String) : Option Err × (String × List Effect) :=
  filepathWalk (copyOutputFile env outDir) (env.walk (env.join workingDir "SRPMS")) ("", [])

/-- Result of `packSingleSPEC`: its two results and the actions performed, together with the
values its local variables held last (`currentSignatures` and the `fileHydrationState` of the
patch and of the source pass; empty when the pass was not reached). -/
structure PackSingle where
  outputPath : String
  err : Option Err
  trace : List Effect
  currentSignatures : GoMap String
  patchState : GoMap Bool
  sourceState : GoMap Bool
  deriving DecidableEq, Repr

/-- Defines used by `packSingleSPEC`; `runCheck` is the value of the command-line flag. -/
def packDefines (env : Env) (runCheck : Bool) (distTag : String) : GoMap String :=
  if distTag ≠ "" then mapSet (env.defaultDefines runCheck) env.distTagDefine distTag
  else env.defaultDefines runCheck

/-- Part of `packSingleSPEC` that runs after the working directory was created and its
removal deferred. -/
def packSingleSPECBody (env : Env) (runCheck : Bool)
    (specFile signaturesFile workingDir outDir distTag : String)
    (srcConfig : sourceRetrievalConfiguration) : PackSingle :=
  let folders := createRPMBuildFolderStructure env workingDir ["SOURCES", "SPECS", "SRPMS"]
  match folders.1 with
  | some e =>
    { outputPath := "", err := some e, trace := folders.2, currentSignatures := [],
      patchState := [], sourceState := [] }
  | none =>
    let srpmSpecFile := env.join (env.join workingDir "SPECS") (env.base specFile)
    let t1 := folders.2 ++ [Effect.copy specFile srpmSpecFile]
    match env.copy specFile srpmSpecFile with
    | some e =>
      { outputPath := "", err := some e, trace := t1, currentSignatures := [],
        patchState := [], sourceState := [] }
    | none =>
      let defines := packDefines env runCheck distTag
      let patches := hydrateFiles env fileTypePatch specFile workingDir srcConfig [] defines
      match patches.err with
      | some e =>
        { outputPath := "", err := some e, trace := t1 ++ patches.trace,
          currentSignatures := patches.currentSignatures,
          patchState := patches.fileHydrationState, sourceState := [] }
      | none =>
        let sources := hydrateFiles env fileTypeSource specFile workingDir srcConfig
          patches.currentSignatures defines
        let t2 := t1 ++ patches.trace ++ sources.trace
        match sources.err with
        | some e =>
          { outputPath := "", err := some e, trace := t2,
            currentSignatures := sources.currentSignatures,
            patchState := patches.fileHydrationState,
            sourceState := sources.fileHydrationState }
        | none =>
          let upd := updateSignaturesIfApplicable env signaturesFile srcConfig
            sources.currentSignatures
          let t3 := t2 ++ upd.2 ++ [Effect.generateSRPMFromSPEC specFile workingDir]
          match env.generateSRPMFromSPEC specFile workingDir defines with
          | some e =>
            { outputPath := "", err := some e, trace := t3,
              currentSignatures := sources.currentSignatures,
              patchState := patches.fileHydrationState,
              sourceState := sources.fileHydrationState }
          | none =>
            let out := copyOutput env workingDir outDir
            { outputPath := out.2.1, err := out.1, trace := t3 ++ out.2.2,
              currentSignatures := sources.currentSignatures,
              patchState := patches.fileHydrationState,
              sourceState := sources.fileHydrationState }

/-- Go `packSingleSPEC`. -/
def packSingleSPEC (env : Env) (runCheck : Bool)
    (specFile srpmFile signaturesFile buildDir outDir distTag : String)
    (srcConfig : sourceRetrievalConfiguration) : PackSingle :=
  let srpmName := env.base srpmFile
  let workingDir := env.join buildDir srpmName
  match env.mkdirAll workingDir with
  | some e =>
    { outputPath := "", err := some e, trace := [Effect.mkdirAll workingDir],
      currentSignatures := [], patchState := [], sourceState := [] }
  | none =>
    let r := packSingleSPECBody env runCheck specFile signaturesFile workingDir outDir distTag
      srcConfig
    { r with trace := Effect.mkdirAll workingDir :: (r.trace ++ [Effect.removeAll workingDir]) }

/-- Body of the loop of `packSRPMWorker` for one request that is not cancelled: the
`packResult` sent on the result channel and the actions performed. -/
def packSRPMWorker (env : Env) (runCheck : Bool) (distTag buildDir : String)
    (templateSrcConfig : sourceRetrievalConfiguration) (state : specState) :
    packResult × List Effect :=
  let result : packResult := { specFile := state.specFile, srpmFile := "", err := none }
  if !state.toPack then (result, [])
  else
    let signaturesFilePath := specPathToSignaturesPath env state.specFile
    let init := initializeSourceConfig env templateSrcConfig signaturesFilePath
    match init.2.1 with
    | some e => ({ result with err := some e }, init.2.2)
    | none =>
      let fullOutDirPath := env.dir state.srpmFile
      let t1 := init.2.2 ++ [Effect.mkdirAll fullOutDirPath]
      match env.mkdirAll fullOutDirPath with
      | some e => ({ result with err := some e }, t1)
      | none =>
        let r := packSingleSPEC env runCheck state.specFile state.srpmFile signaturesFilePath
          buildDir fullOutDirPath distTag init.1
        match r.err with
        | some e => ({ result with err := some e }, t1 ++ r.trace)
        | none => ({ result with srpmFile := r.outputPath }, t1 ++ r.trace)

/-! ## Pack list (lines 184-230) -/

/-- Go `removeDuplicateStrings`: the entries are put in a set, and the set is ranged over in
the order the outside world picks. -/
def removeDuplicateStrings (env : Env) (packList : List String) : List String :=
  let packListSet : GoMap Unit := packList.foldl (fun m entry => mapSet m entry ()) []
  (env.rangeOrder (mapKeys packListSet)).val

/-- Go `bufio.MaxScanTokenSize`: the size of the largest buffer of a `bufio.Scanner`. -/
def maxScanTokenSize : Nat := 64 * 1024

/-- Lines that `scanner.Scan` hands out, from the lines of the file (the texts between its
newlines): a line of `maxScanTokenSize` bytes or more does not fit the buffer of the scanner,
`Scan` returns false there (`bufio.ErrTooLong`) and neither that line nor a line after it is
handed out. -/
def scannerLines (lines : List String) : List String :=
  lines.takeWhile (fun text => decide (text.utf8ByteSize < maxScanTokenSize))

/-- Scanner loop of `parsePackListFile` over the lines the scanner hands out; the second
argument is `packList` as accumulated so far, `trimSpace` is Go `strings.TrimSpace`. -/
def scanPackList (trimSpace : String → String) : List String → List String → List String
  | [], packList => packList
  | text :: rest, packList =>
    let line := trimSpace text
    if line ≠ "" then scanPackList trimSpace rest (packList ++ [line])
    else scanPackList trimSpace rest packList

/-- Go `parsePackListFile`: the pack list and the error.  `openLines` stands for `os.Open`:
the lines of the file, or the error of the open.  The loop ends when `scanner.Scan` returns
false, and `scanner.Err` is never read. -/
def parsePackListFile (env : Env) (openLines : String → Except Err (List String))
    (trimSpace : String → String) (packListFile : String) : List String × Option Err :=
  if packListFile = "" then ([], none)
  else
    match openLines packListFile with
    | .error e => ([], some e)
    | .ok lines =>
      let packList := scanPackList trimSpace (scannerLines lines) []
      let err := if packList.length = 0 then
          some ("cannot have empty pack list (" ++ packListFile ++ ")")
        else none
      (removeDuplicateStrings env packList, err)

/-! ## Worker pools (lines 392-454, 456-562, 564-659) -/

/-- Loop of a worker over the requests it takes from the request channel, in the order it
takes them: `body` gives the results a request makes the worker send, and `cancelled i` tells
whether the `select` at the top of iteration `i` finds the cancellation channel closed, in
which case the worker returns. -/
def workerLoop {α β : Type} (body : α → List β) (cancelled : Nat → Bool) :
    List α → Nat → List β
  | [], _ => []
  | request :: rest, i =>
    if cancelled i then []
    else body request ++ workerLoop body cancelled rest (i + 1)

/-- Sends of `specsToPackWorker` on the result channel for one request that is not
cancelled, branch by branch: every `results <- result`. -/
def specsToPackWorkerSends (env : Env) (distTag outDir : String)
    (nestedSourcesDir repackAll runCheck : Bool) (specFile : String) : List specState :=
  let result : specState := { specFile := specFile, srpmFile := "", toPack := false, err := none }
  let containingDir := env.dir specFile
  let defines := stage1Defines env distTag runCheck
  let sourceDir := stage1SourceDir env nestedSourcesDir specFile
  match env.querySPEC specFile sourceDir srpmQueryFormat defines with
  | .error err =>
    if err = env.noCompatibleArchError then [result]
    else [{ result with err := some err }]
  | .ok specQueryResults =>
    if specQueryResults.length ≠ 1 then
      [{ result with err := some ("unexpected query results, wanted (1) results but got (" ++
          toString specQueryResults.length ++ "), results: " ++ showSlice specQueryResults) }]
    else
      let producedSRPM := specQueryResults.headD ""
      let fullSRPMPath := env.join outDir producedSRPM
      let result := { result with srpmFile := fullSRPMPath }
      if repackAll then
        [{ result with toPack := true }]
      else
        match env.specArchIsCompatible specFile sourceDir defines with
        | .error err => [{ result with err := some err }]
        | .ok isCompatible =>
          if !isCompatible then [result]
          else
            match env.stat fullSRPMPath with
            | .error _ => [{ result with toPack := true }]
            | .ok srpmModTime =>
              match env.lastModifiedFile containingDir with
              | .error err =>
                [{ result with
                   err := some ("failed to query modification time for SPEC (" ++ specFile ++
                     "). Error: " ++ err) }]
              | .ok (specModTime, _) =>
                if specModTime > srpmModTime then [{ result with toPack := true }]
                else [result]

/-- Sends of `packSRPMWorker` on the result channel for one request that is not cancelled,
branch by branch: every `results <- result`. -/
def packSRPMWorkerSends (env : Env) (runCheck : Bool) (distTag buildDir : String)
    (templateSrcConfig : sourceRetrievalConfiguration) (state : specState) :
    List packResult :=
  let result : packResult := { specFile := state.specFile, srpmFile := "", err := none }
  if !state.toPack then [result]
  else
    let signaturesFilePath := specPathToSignaturesPath env state.specFile
    let init := initializeSourceConfig env templateSrcConfig signaturesFilePath
    match init.2.1 with
    | some e => [{ result with err := some e }]
    | none =>
      let fullOutDirPath := env.dir state.srpmFile
      match env.mkdirAll fullOutDirPath with
      | some e => [{ result with err := some e }]
      | none =>
        let r := packSingleSPEC env runCheck state.specFile state.srpmFile signaturesFilePath
          buildDir fullOutDirPath distTag init.1
        match r.err with
        | some e => [{ result with err := some e }]
        | none => [{ result with srpmFile := r.outputPath }]

/-- Scheduling of a worker pool: the order in which the requests put on the request channel
are served, some rearrangement of the work. -/
structure Scheduler where
  arrival : {α : Type} → (work : List α) → { l : List α // l.Perm work }

/-- Results that arrive on the result channel of a pool while nothing is cancelled: without
a worker none, else the sends of every request in the order of service. -/
def poolResults {α β : Type} (sched : Scheduler) (workers : Int) (body : α → List β)
    (work : List α) : List β :=
  if workers ≤ 0 then []
  else ((sched.arrival work).val.map body).flatten

/-- Drain loop of a pool (lines 429-443 and 585-601): `n` results are read from the result
channel, and the first result with an error ends the loop with that error.  The outcome is
the list of results read and the error; there is none when the channel stays empty before
the count is reached, as the loop then waits for ever. -/
def drainResults {β : Type} (errOf : β → Option Err) : Nat → List β →
    Option (List β × Option Err)
  | 0, _ => some ([], none)
  | _ + 1, [] => none
  | n + 1, result :: rest =>
    match errOf result with
    | some e => some ([result], some e)
    | none =>
      match drainResults errOf n rest with
      | none => none
      | some d => some (result :: d.1, d.2)

/-- Go `calculateSPECsToRepack`: the states read from the result channel and the error;
no outcome when the function never returns. -/
def calculateSPECsToRepack (env : Env) (sched : Scheduler) (specFiles : List String)
    (distTag outDir : String) (nestedSourcesDir repackAll runCheck : Bool) (workers : Int) :
    Option (List specState × Option Err) :=
  drainResults specState.err specFiles.length
    (poolResults sched workers
      (specsToPackWorkerSends env distTag outDir nestedSourcesDir repackAll runCheck)
      specFiles)

/-- Go `packSRPMs`: the error, and with it the results read from the result channel; no
outcome when the function never returns. -/
def packSRPMs (env : Env) (sched : Scheduler) (runCheck : Bool) (specStates : List specState)
    (distTag buildDir : String) (templateSrcConfig : sourceRetrievalConfiguration)
    (workers : Int) : Option (List packResult × Option Err) :=
  drainResults packResult.err specStates.length
    (poolResults sched workers
      (packSRPMWorkerSends env runCheck distTag buildDir templateSrcConfig) specStates)

/-- Outcome of `createAllSRPMs`: the error returned, the states read in stage 1, and the
results read in stage 2, absent when `packSRPMs` was not called. -/
structure PipelineRun where
  err : Option Err
  states : List specState
  packed : Option (List packResult)
  deriving DecidableEq, Repr

/-- Go `createAllSRPMs`; no outcome when the function never returns. -/
def createAllSRPMs (env : Env) (sched : Scheduler) (specsDir distTag buildDir outDir : String)
    (workers : Int) (nestedSourcesDir repackAll runCheck : Bool) (packList : List String)
    (templateSrcConfig : sourceRetrievalConfiguration) : Option PipelineRun :=
  match (findSPECFiles env specsDir packList).2 with
  | some e => some { err := some e, states := [], packed := none }
  | none =>
    match calculateSPECsToRepack env sched (findSPECFiles env specsDir packList).1 distTag
        outDir nestedSourcesDir repackAll runCheck workers with
    | none => none
    | some (specStates, some e) => some { err := some e, states := specStates, packed := none }
    | some (specStates, none) =>
      match packSRPMs env sched runCheck specStates distTag buildDir templateSrcConfig
          workers with
      | none => none
      | some (results, err) =>
        some { err := err, states := specStates, packed := some results }

/-- Requests a worker serves, out of those it takes: the ones taken before the first
iteration that observes the cancellation. -/
def servedRequests {α : Type} (cancelled : Nat → Bool) : List α → Nat → List α
  | [], _ => []
  | request :: rest, i =>
    if cancelled i then []
    else request :: servedRequests cancelled rest (i + 1)

/-! ## Architecture gating (package `rpm`, tested by rpm_test.go) -/

/-- Architecture tags of a spec, as a query of the spec reports them. -/
structure ArchTags where
  exclusiveArch : List String
  excludeArch : List String
  deriving DecidableEq, Repr

/-- Modelled from the spec: `rpm.SpecExclusiveArchIsCompatible`, whose source is not part of
the tree at hand (its tests are).  The spec is compatible when it declares no ExclusiveArch
or when its ExclusiveArch includes the host architecture; an error of the query is
returned. -/
def SpecExclusiveArchIsCompatible (host : String)
    (queryTags : String → String → GoMap String → Except Err ArchTags)
    (specFile sourceDir : String) (defines : GoMap String) : Except Err Bool :=
  match queryTags specFile sourceDir defines with
  | .error e => .error e
  | .ok tags => .ok (tags.exclusiveArch.isEmpty || tags.exclusiveArch.contains host)

/-- Modelled from the spec: `rpm.SpecExcludeArchIsCompatible`, whose source is not part of
the tree at hand (its tests are).  The spec is compatible when its ExcludeArch does not
include the host architecture; an error of the query is returned. -/
def SpecExcludeArchIsCompatible (host : String)
    (queryTags : String → String → GoMap String → Except Err ArchTags)
    (specFile sourceDir : String) (defines : GoMap String) : Except Err Bool :=
  match queryTags specFile sourceDir defines with
  | .error e => .error e
  | .ok tags => .ok (!tags.excludeArch.contains host)

/-- Modelled from the spec: `rpm.SpecArchIsCompatible`, whose source is not part of the tree
at hand (its tests are).  The spec is compatible when neither ExclusiveArch nor ExcludeArch
excludes the host architecture. -/
def SpecArchIsCompatible (host : String)
    (queryTags : String → String → GoMap String → Except Err ArchTags)
    (specFile sourceDir : String) (defines : GoMap String) : Except Err Bool :=
  match SpecExclusiveArchIsCompatible host queryTags specFile sourceDir defines with
  | .error e => .error e
  | .ok false => .ok false
  | .ok true => SpecExcludeArchIsCompatible host queryTags specFile sourceDir defines

/-! ## Notions used to state the properties of a hydration pass -/

/-- Whether an action reads or writes a signatures file. -/
def Effect.touchesSignatures : Effect → Bool
  | .readJSONFile _ => true
  | .writeJSONFile _ _ => true
  | _ => false

/-- Whether an action is a run of the SRPM builder. -/
def Effect.isBuild : Effect → Bool
  | .generateSRPMFromSPEC _ _ => true
  | _ => false

/-- Whether an action is one of those of a hydration pass: a copy, a download attempt or
the removal of a downloaded file. -/
def Effect.isTransfer : Effect → Bool
  | .copy _ _ => true
  | .downloadFile _ _ => true
  | .remove _ => true
  | _ => false

/-- The file `path` is a copy that can hydrate `fileName`: a regular file met by the walk of
the local source directory, with that base name, whose copy into `newSourceDir` succeeds; or
the destination of the download of `fileName`, when one of the three attempts succeeds. -/
def HydratedFrom (env : Env) (srcConfig : sourceRetrievalConfiguration)
    (newSourceDir fileName path : String) : Prop :=
  (path ∈ env.walk srcConfig.localSourceDir ∧ env.isFile path = true ∧
      env.base path = fileName ∧ env.copy path (env.join newSourceDir fileName) = none) ∨
    (path = env.join newSourceDir fileName ∧
      (retryRun (env.downloadFile (env.joinURL srcConfig.sourceURL fileName) path)
        3 0 none).1 = none)

instance (env : Env) (srcConfig : sourceRetrievalConfiguration)
    (newSourceDir fileName path : String) :
    Decidable (HydratedFrom env srcConfig newSourceDir fileName path) := by
  unfold HydratedFrom
  infer_instance

/-- Invariant of a hydration pass over the files `filesNeeded`, entered with
`currentSignatures = cur0`. -/
structure PassInv (env : Env) (srcConfig : sourceRetrievalConfiguration)
    (newSourceDir : String) (skipSignatureHandling : Bool) (filesNeeded : List String)
    (cur0 : GoMap String) (s : HydrationState) : Prop where
  /-- The keys of `fileHydrationState` are the needed files. -/
  keys : ∀ k, (mapGet s.fileHydrationState k).isSome = true ↔ k ∈ filesNeeded
  /-- Only copies, download attempts and removals of downloads were performed. -/
  actions : ∀ e ∈ s.trace, e.isTransfer = true
  /-- Signatures were recorded for needed files only, when needed files are base names. -/
  curKeys : (∀ f ∈ filesNeeded, env.base (env.join newSourceDir f) = f) →
    ∀ k, (mapGet s.currentSignatures k).isSome = true →
      (mapGet cur0 k).isSome = true ∨ k ∈ filesNeeded
  /-- Nothing is recorded when signatures are skipped. -/
  skipped : (skipSignatureHandling = true ∨
    srcConfig.signatureHandling = signatureSkipCheck) → s.currentSignatures = cur0
  /-- A hydrated file comes from a local copy or from a download. -/
  origin : ∀ f, mapGet s.fileHydrationState f = some true →
    ∃ path, HydratedFrom env srcConfig newSourceDir f path
  /-- When signatures are handled and needed files are base names, the signature recorded
  for a hydrated file is the digest of the copy it was hydrated from, and under Enforce it
  matches the lookup. -/
  sigs : (∀ f ∈ filesNeeded, env.base (env.join newSourceDir f) = f) →
    skipSignatureHandling = false →
    srcConfig.signatureHandling ≠ signatureSkipCheck →
    ∀ f, mapGet s.fileHydrationState f = some true →
      ∃ digest path, mapGet s.currentSignatures f = some digest ∧
        HydratedFrom env srcConfig newSourceDir f path ∧
        env.generateSHA256 path = .ok digest ∧
        (srcConfig.signatureHandling = signatureEnforce →
          ∃ expected, mapGet srcConfig.signatureLookup f = some expected ∧
            env.equalFold expected digest = true)

/-- Whether an action is a plain file-system action of the build tree: creating or removing
a directory, a copy, a download attempt or the removal of a download. -/
def Effect.isFileAction : Effect → Bool
  | .mkdirAll _ => true
  | .removeAll _ => true
  | .copy _ _ => true
  | .downloadFile _ _ => true
  | .remove _ => true
  | _ => false

/-- Content of the signatures file after one action: a successful write of the file replaces
the content, and no other action is taken to change it. -/
def signaturesAfterAction (env : Env) (signaturesFile : String) (content : GoMap String)
    (action : Effect) : GoMap String :=
  match action with
  | .writeJSONFile path wrapper =>
    if path = signaturesFile ∧ env.writeJSONFile path wrapper = none then
      wrapper.FileSignatures
    else content
  | _ => content

/-- Content of the signatures file after a list of actions, from its content `before`. -/
def signaturesFileAfter (env : Env) (signaturesFile : String) (before : GoMap String)
    (trace : List Effect) : GoMap String :=
  trace.foldl (signaturesAfterAction env signaturesFile) before

/-- Origin of the content of the file `dst` after one action, from its origin before: the
path of the file whose content `dst` holds, or `none` when `dst` is absent or is not known to
hold a whole copy.  A copy to `dst` that succeeds leaves the content of its source and one
that fails leaves no whole copy; download attempts to `dst` leave the downloaded file, named
by `dst` itself, when one of the three attempts succeeds, and no whole copy otherwise; a
successful removal of `dst`, the removal of a directory and a write of a signatures file at
`dst` leave no copy; the other actions leave `dst` as it is. -/
def contentAfterAction (env : Env) (dst : String) (origin : Option String) :
    Effect → Option String
  | .copy src d =>
    if d = dst then (if env.copy src d = none then some src else none) else origin
  | .downloadFile url d =>
    if d = dst then
      (if (retryRun (env.downloadFile url d) 3 0 none).1 = none then some d else none)
    else origin
  | .remove path => if path = dst ∧ env.remove path = none then none else origin
  | .removeAll _ => none
  | .writeJSONFile path _ => if path = dst then none else origin
  | .readJSONFile _ => origin
  | .mkdirAll _ => origin
  | .generateSRPMFromSPEC _ _ => origin

/-- Origin of the content of the file `dst` after a list of actions, from its origin
before. -/
def contentAfter (env : Env) (dst : String) (origin : Option String) (trace : List Effect) :
    Option String :=
  trace.foldl (contentAfterAction env dst) origin

/-- The actions `trace` hydrated the file `fileName` of `newSourceDir` from `path`: either
`path` is a regular file met by the walk of the local source directory, with that base name,
and its copy to the destination is one of the actions and succeeds; or `path` is the
destination itself, a download of the file to it is one of the actions and one of the three
attempts succeeds; and in both cases the destination holds the content of `path` after the
actions, whatever it held before them. -/
def HydratedBy (env : Env) (srcConfig : sourceRetrievalConfiguration)
    (newSourceDir fileName path : String) (trace : List Effect) : Prop :=
  ((path ∈ env.walk srcConfig.localSourceDir ∧ env.isFile path = true ∧
      env.base path = fileName ∧ env.copy path (env.join newSourceDir fileName) = none ∧
      Effect.copy path (env.join newSourceDir fileName) ∈ trace) ∨
    (path = env.join newSourceDir fileName ∧
      (retryRun (env.downloadFile (env.joinURL srcConfig.sourceURL fileName) path)
        3 0 none).1 = none ∧
      Effect.downloadFile (env.joinURL srcConfig.sourceURL fileName) path ∈ trace)) ∧
    ∀ origin, contentAfter env (env.join newSourceDir fileName) origin trace = some path

/-- Invariant of a hydration pass on the files it marked hydrated: each was hydrated by the
actions of the pass from a file `path`, and when signatures are handled the signature
recorded for it is the digest of `path`, which under Enforce matches the lookup. -/
def CopyInv (env : Env) (srcConfig : sourceRetrievalConfiguration)
    (newSourceDir : String) (skipSignatureHandling : Bool) (s : HydrationState) : Prop :=
  ∀ f, mapGet s.fileHydrationState f = some true →
    ∃ path, HydratedBy env srcConfig newSourceDir f path s.trace ∧
      (skipSignatureHandling = false →
        srcConfig.signatureHandling ≠ signatureSkipCheck →
        ∃ digest, env.generateSHA256 path = .ok digest ∧
          mapGet s.currentSignatures f = some digest ∧
          (srcConfig.signatureHandling = signatureEnforce →
            ∃ expected, mapGet srcConfig.signatureLookup f = some expected ∧
              env.equalFold expected digest = true))

/-- Whether an action is a copy to the file `dst`. -/
def Effect.copiesTo (dst : String) : Effect → Bool
  | .copy _ d => d == dst
  | _ => false

/-! ## A concrete outside world, used to instantiate the theorems -/

/-- Last element of a slash-separated path. -/
def exampleBase (p : String) : String :=
  String.mk ((p.data.reverse.takeWhile (fun c => c != '/')).reverse)

/-- Path without its last element. -/
def exampleDir (p : String) : String :=
  String.mk (((p.data.reverse.dropWhile (fun c => c != '/')).drop 1).reverse)

/-- Two path elements joined by a slash. -/
def exampleJoin (a b : String) : String := a ++ "/" ++ b

/-- Equality of two strings up to the case of their letters. -/
def exampleEqualFold (a b : String) : Bool :=
  a.data.map Char.toLower == b.data.map Char.toLower

/-- An outside world with an empty file system, no spec matches, empty query results and a
network that always fails; the examples override the fields they need. -/
def exampleEnv : Env where
  base := exampleBase
  dir := exampleDir
  join := exampleJoin
  glob := fun _ => .ok []
  equalFold := exampleEqualFold
  defaultDefines := fun runCheck => [("with_check", if runCheck then "1" else "0")]
  distTagDefine := "dist"
  noCompatibleArchError := "No compatible architectures found for build"
  querySPEC := fun _ _ _ _ => .ok []
  specArchIsCompatible := fun _ _ _ => .ok true
  stat := fun _ => .error "stat: no such file or directory"
  lastModifiedFile := fun _ => .ok (0, "")
  readJSONFile := fun _ => .notExist "open: no such file or directory"
  writeJSONFile := fun _ _ => none
  mkdirAll := fun _ => none
  removeAll := fun _ => none
  remove := fun _ => none
  copy := fun _ _ => none
  isFile := fun _ => false
  walk := fun _ => []
  generateSHA256 := fun _ => .error "open: no such file or directory"
  joinURL := fun a b => a ++ "/" ++ b
  downloadFile := fun _ _ _ => some "connection refused"
  generateSRPMFromSPEC := fun _ _ _ => none
  rangeOrder := fun keys => ⟨keys, List.Perm.refl keys⟩

/-- Outside world of the spec-discovery example: one spec file, `bash.spec`. -/
def discoveryEnv : Env :=
  { exampleEnv with
    glob := fun pattern =>
      if pattern = "specs/**/bash.spec" then .ok ["specs/bash/bash.spec"] else .ok [] }

/-- Outside world of the staleness examples: the query names one SRPM, the spec is not
compatible with the host architecture. -/
def stalenessEnv : Env :=
  { exampleEnv with
    querySPEC := fun _ _ _ _ => .ok ["bash-5.1-1.cm1.src.rpm"]
    specArchIsCompatible := fun _ _ _ => .ok false }

/-- Outside world in which the SRPM exists and is as recent as the newest file of the spec
directory. -/
def upToDateEnv : Env :=
  { exampleEnv with
    querySPEC := fun _ _ _ _ => .ok ["bash-5.1-1.cm1.src.rpm"]
    stat := fun _ => .ok 100
    lastModifiedFile := fun _ => .ok (100, "specs/bash/bash.spec") }

/-- Outside world of the packing examples: the spec `bash.spec` with one source and one
patch next to it; the builder leaves one SRPM in the working directory. -/
def packEnv : Env :=
  { exampleEnv with
    querySPEC := fun _ _ queryFormat _ =>
      if queryFormat = "[%\x7bSOURCE\x7d\\n]" then .ok ["bash-5.1.tar.gz"]
      else if queryFormat = "[%\x7bPATCH\x7d\\n]" then .ok ["fix.patch"]
      else .ok ["bash-5.1-1.cm1.src.rpm"]
    walk := fun root =>
      if root = "specs/bash" then
        ["specs/bash", "specs/bash/bash-5.1.tar.gz", "specs/bash/bash.spec",
          "specs/bash/fix.patch"]
      else if root = "build/bash-5.1-1.cm1.src.rpm/SRPMS" then
        ["build/bash-5.1-1.cm1.src.rpm/SRPMS",
          "build/bash-5.1-1.cm1.src.rpm/SRPMS/bash-5.1-1.cm1.src.rpm"]
      else []
    isFile := fun path =>
      path != "specs/bash" && path != "build/bash-5.1-1.cm1.src.rpm/SRPMS"
    generateSHA256 := fun path =>
      if path = "specs/bash/bash-5.1.tar.gz" then .ok "ab12cd" else .error "open: no such file"
    readJSONFile := fun _ => .loaded { FileSignatures := [("bash-5.1.tar.gz", "AB12CD")] } }

/-- Per-spec configuration of the packing examples under Enforce. -/
def enforceConfig : sourceRetrievalConfiguration :=
  { localSourceDir := "specs/bash", sourceURL := "",
    signatureHandling := signatureEnforce,
    signatureLookup := [("bash-5.1.tar.gz", "AB12CD")], signatureLookupNil := false }

/-- Per-spec configuration of the packing examples under Update, with an empty manifest. -/
def updateConfig : sourceRetrievalConfiguration :=
  { localSourceDir := "specs/bash", sourceURL := "",
    signatureHandling := signatureUpdate,
    signatureLookup := [], signatureLookupNil := false }

/-- Template configuration of the packing examples under SkipCheck. -/
def skipTemplate : sourceRetrievalConfiguration :=
  { localSourceDir := "", sourceURL := "",
    signatureHandling := signatureSkipCheck,
    signatureLookup := [], signatureLookupNil := true }

/-- Template configuration under Update: as in `main`, its lookup is never set. -/
def updateTemplate : sourceRetrievalConfiguration :=
  { localSourceDir := "", sourceURL := "",
    signatureHandling := signatureUpdate,
    signatureLookup := [], signatureLookupNil := true }

/-- Outside world in which every signatures file is the JSON text
`\x7b"Signatures": null\x7d`. -/
def nullManifestEnv : Env :=
  { exampleEnv with readJSONFile := fun _ => .loadedNil }

/-- Per-spec configuration under Enforce whose manifest does not match the source. -/
def mismatchConfig : sourceRetrievalConfiguration :=
  { localSourceDir := "specs/bash", sourceURL := "",
    signatureHandling := signatureEnforce,
    signatureLookup := [("bash-5.1.tar.gz", "ffff00")], signatureLookupNil := false }

/-- The packing example on a file system where the signatures file cannot be written. -/
def readOnlyEnv : Env :=
  { packEnv with writeJSONFile := fun _ _ => some "read-only file system" }

/-- The packing example with a builder that names its SRPM after another dist tag than the
one the query predicted. -/
def renamedOutputEnv : Env :=
  { packEnv with
    walk := fun root =>
      if root = "specs/bash" then
        ["specs/bash", "specs/bash/bash-5.1.tar.gz", "specs/bash/bash.spec",
          "specs/bash/fix.patch"]
      else if root = "build/bash-5.1-1.cm1.src.rpm/SRPMS" then
        ["build/bash-5.1-1.cm1.src.rpm/SRPMS",
          "build/bash-5.1-1.cm1.src.rpm/SRPMS/bash-5.1-1.cm2.src.rpm"]
      else [] }

/-- The packing example with a builder that reports success and leaves no file. -/
def noOutputEnv : Env :=
  { packEnv with
    walk := fun root =>
      if root = "specs/bash" then
        ["specs/bash", "specs/bash/bash-5.1.tar.gz", "specs/bash/bash.spec",
          "specs/bash/fix.patch"]
      else if root = "build/bash-5.1-1.cm1.src.rpm/SRPMS" then
        ["build/bash-5.1-1.cm1.src.rpm/SRPMS"]
      else [] }

/-- Removal of the blanks and tabs around a line. -/
def exampleTrimSpace (s : String) : String :=
  String.mk (((s.data.dropWhile (fun c => c == ' ' || c == '\t')).reverse.dropWhile
    (fun c => c == ' ' || c == '\t')).reverse)

/-- A pack-list file with a repeated entry, an empty line and blanks around an entry. -/
def examplePackListFile (path : String) : Except Err (List String) :=
  if path = "pack.list" then .ok ["bash", "  zlib ", "", "bash"]
  else .error "open: no such file or directory"

/-- A line of 70000 bytes. -/
def longLine : String := String.mk (List.replicate 70000 'x')

/-- Pack-list files with a line of 70000 bytes: `long.list` has it between two entries,
`one.list` has no other line. -/
def longPackListFile (path : String) : Except Err (List String) :=
  if path = "long.list" then .ok ["bash", longLine, "zlib"]
  else if path = "one.list" then .ok [longLine]
  else .error "open: no such file or directory"

/-- The packing example without the patch on disk, on a network where every download
succeeds. -/
def missingPatchEnv : Env :=
  { packEnv with
    walk := fun root =>
      if root = "specs/bash" then
        ["specs/bash", "specs/bash/bash-5.1.tar.gz", "specs/bash/bash.spec"]
      else []
    downloadFile := fun _ _ _ => none }

/-- Per-spec configuration under Update with a source server. -/
def remoteConfig : sourceRetrievalConfiguration :=
  { localSourceDir := "specs/bash", sourceURL := "https://sources.example.org",
    signatureHandling := signatureUpdate,
    signatureLookup := [], signatureLookupNil := false }

/-- Scheduler that serves the requests in the order they were put on the channel. -/
def fifoScheduler : Scheduler where
  arrival := fun work => ⟨work, List.Perm.refl work⟩

/-- Defines of the tests of package `rpm`. -/
def testDefines : GoMap String := [("dist", ".cmX"), ("with_check", "1")]

/-- Tags of three specs shaped like the fixtures the tests name, for a host `x86_64`: one
that lists the host as ExclusiveArch and another architecture as ExcludeArch, one without
architecture tags, and one whose ExclusiveArch leaves the host out and whose ExcludeArch
lists it. -/
def testdataTags (specFile _sourceDir : String) (_defines : GoMap String) :
    Except Err ArchTags :=
  if specFile = "testdata/supported_unsupported_architectures.spec" then
    .ok { exclusiveArch := ["x86_64", "aarch64"], excludeArch := ["ppc64le"] }
  else if specFile = "testdata/no_exclusive_architecture.spec" then
    .ok { exclusiveArch := [], excludeArch := [] }
  else if specFile = "testdata/unsupported_architectures.spec" then
    .ok { exclusiveArch := ["ppc64le"], excludeArch := ["x86_64", "aarch64"] }
  else .error "no such spec"

/-- Outside world of the pipeline example: two specs are found, the query fails for one of
them. -/
def brokenSpecEnv : Env :=
  { exampleEnv with
    glob := fun _ => .ok ["specs/bash/bash.spec", "specs/zlib/zlib.spec"]
    querySPEC := fun specFile _ _ _ =>
      if specFile = "specs/zlib/zlib.spec" then .error "error: bad spec"
      else .ok ["bash-5.1-1.cm1.src.rpm"] }

/-! ## Lemmas on maps -/

theorem mapGet_mapSet {β : Type} (m : GoMap β) (k : String) (v : β) (k' : String) :
    mapGet (mapSet m k v) k' = if k = k' then some v else mapGet m k' := by
  induction m with
  | nil => simp [mapSet, mapGet]
  | cons p rest ih =>
    obtain ⟨a, b⟩ := p
    by_cases hak : a = k
    · subst hak
      by_cases hk : a = k' <;> simp [mapSet, mapGet, hk]
    · by_cases hk : k = k'
      · subst hk
        simp [mapSet, mapGet, hak, ih]
      · by_cases hak' : a = k'
        · subst hak'
          simp [mapSet, mapGet, hak, hk]
        · simp [mapSet, mapGet, hak, hak', hk, ih]

theorem mapGet_mapSet_self {β : Type} (m : GoMap β) (k : String) (v : β) :
    mapGet (mapSet m k v) k = some v := by
  simp [mapGet_mapSet]

theorem mapGet_mapSet_ne {β : Type} (m : GoMap β) (k : String) (v : β) (k' : String)
    (h : k ≠ k') : mapGet (mapSet m k v) k' = mapGet m k' := by
  simp [mapGet_mapSet, h]

theorem mapGet_eq_none_of_forall_ne {β : Type} (m : GoMap β) (k : String)
    (h : ∀ p ∈ m, p.1 ≠ k) : mapGet m k = none := by
  induction m with
  | nil => rfl
  | cons p rest ih =>
    obtain ⟨a, b⟩ := p
    have hne : a ≠ k := h (a, b) (List.mem_cons_self _ _)
    simp only [mapGet, if_neg hne]
    exact ih (fun q hq => h q (List.mem_cons_of_mem _ hq))

theorem mapGet_isSome_iff {β : Type} (m : GoMap β) (k : String) :
    (mapGet m k).isSome = true ↔ k ∈ mapKeys m := by
  induction m with
  | nil => simp [mapGet, mapKeys]
  | cons p rest ih =>
    obtain ⟨a, b⟩ := p
    by_cases hak : a = k
    · simp [mapGet, mapKeys, hak]
    · have hka : ¬ k = a := fun h => hak h.symm
      simp only [mapGet, if_neg hak, ih]
      simp [mapKeys, hka]

theorem mapDeepEqual_iff {β : Type} [DecidableEq β] (a b : GoMap β) :
    mapDeepEqual a b = true ↔ ∀ k, mapGet a k = mapGet b k := by
  constructor
  · intro h k
    simp only [mapDeepEqual, Bool.and_eq_true, List.all_eq_true, decide_eq_true_eq] at h
    by_cases ha : ∃ p ∈ a, p.1 = k
    · obtain ⟨p, hp, rfl⟩ := ha
      exact (h.1 p hp).symm
    · by_cases hb : ∃ p ∈ b, p.1 = k
      · obtain ⟨p, hp, rfl⟩ := hb
        exact h.2 p hp
      · have hna : mapGet a k = none :=
          mapGet_eq_none_of_forall_ne a k (fun p hp hk => ha ⟨p, hp, hk⟩)
        have hnb : mapGet b k = none :=
          mapGet_eq_none_of_forall_ne b k (fun p hp hk => hb ⟨p, hp, hk⟩)
        rw [hna, hnb]
  · intro h
    simp only [mapDeepEqual, Bool.and_eq_true, List.all_eq_true, decide_eq_true_eq]
    exact ⟨fun p _ => (h p.1).symm, fun p _ => h p.1⟩

/-- Two map values that `reflect.DeepEqual` holds equal are both nil or both not nil and
have the same bindings. -/
theorem reflectDeepEqual_true {aNil bNil : Bool} {a b : GoMap String}
    (h : reflectDeepEqual aNil a bNil b = true) : aNil = bNil ∧ mapDeepEqual a b = true := by
  simpa [reflectDeepEqual] using h

/-- The test of `updateSignaturesIfApplicable`: a loaded lookup equals the map made by
`packSingleSPEC` when it is not nil and has the same bindings. -/
theorem reflectDeepEqual_made (lookupNil : Bool) (lookup currentSignatures : GoMap String) :
    reflectDeepEqual lookupNil lookup false currentSignatures = true ↔
      lookupNil = false ∧ ∀ k, mapGet lookup k = mapGet currentSignatures k := by
  rw [← mapDeepEqual_iff]
  simp [reflectDeepEqual]

/-! ## Lemmas on the signature verifier -/

theorem validateSignature_skip (env : Env) (path : String)
    (srcConfig : sourceRetrievalConfiguration) (cur : GoMap String)
    (h : srcConfig.signatureHandling = signatureSkipCheck) :
    validateSignature env path srcConfig cur = (none, cur) := by
  simp [validateSignature, h]

theorem validateSignature_err_snd (env : Env) (path : String)
    (srcConfig : sourceRetrievalConfiguration) (cur : GoMap String)
    (h : (validateSignature env path srcConfig cur).1 ≠ none) :
    (validateSignature env path srcConfig cur).2 = cur := by
  revert h
  unfold validateSignature
  split
  · simp
  · simp only []
    split
    · simp
    · split
      · simp
      · split
        · simp
        · split <;> simp

theorem validateSignature_ok (env : Env) (path : String)
    (srcConfig : sourceRetrievalConfiguration) (cur : GoMap String)
    (hskip : srcConfig.signatureHandling ≠ signatureSkipCheck)
    (h : (validateSignature env path srcConfig cur).1 = none) :
    ∃ digest, env.generateSHA256 path = .ok digest ∧
      (validateSignature env path srcConfig cur).2 = mapSet cur (env.base path) digest ∧
      (srcConfig.signatureHandling = signatureEnforce →
        ∃ expected, mapGet srcConfig.signatureLookup (env.base path) = some expected ∧
          env.equalFold expected digest = true) := by
  cases hs : env.generateSHA256 path with
  | error x =>
    exfalso
    revert h
    simp only [validateSignature, if_neg hskip, hs]
    split <;> simp
  | ok d =>
    refine ⟨d, rfl, ?_, ?_⟩
    · revert h
      simp only [validateSignature, if_neg hskip, hs]
      split
      · simp
      · split
        · simp
        · split <;> simp
    · intro he
      cases hl : mapGet srcConfig.signatureLookup (env.base path) with
      | none =>
        exfalso
        revert h
        simp [validateSignature, he, hl]
      | some e =>
        refine ⟨e, rfl, ?_⟩
        by_cases hf : env.equalFold e d = true
        · exact hf
        · exfalso
          revert h
          simp [validateSignature, he, hl, hs, hf]

theorem checkSignature_err_snd (env : Env) (skip : Bool) (path : String)
    (srcConfig : sourceRetrievalConfiguration) (cur : GoMap String)
    (h : (checkSignature env skip path srcConfig cur).1 ≠ none) :
    (checkSignature env skip path srcConfig cur).2 = cur := by
  cases skip with
  | true => simp [checkSignature]
  | false =>
    simp only [checkSignature] at h ⊢
    exact validateSignature_err_snd env path srcConfig cur (by simpa using h)

theorem checkSignature_skipped (env : Env) (skip : Bool) (path : String)
    (srcConfig : sourceRetrievalConfiguration) (cur : GoMap String)
    (h : skip = true ∨ srcConfig.signatureHandling = signatureSkipCheck) :
    checkSignature env skip path srcConfig cur = (none, cur) := by
  cases skip with
  | true => simp [checkSignature]
  | false =>
    rcases h with h | h
    · exact absurd h (by simp)
    · simp [checkSignature, validateSignature_skip env path srcConfig cur h]

theorem checkSignature_ok (env : Env) (path : String)
    (srcConfig : sourceRetrievalConfiguration) (cur : GoMap String)
    (hskip : srcConfig.signatureHandling ≠ signatureSkipCheck)
    (h : (checkSignature env false path srcConfig cur).1 = none) :
    ∃ digest, env.generateSHA256 path = .ok digest ∧
      (checkSignature env false path srcConfig cur).2 = mapSet cur (env.base path) digest ∧
      (srcConfig.signatureHandling = signatureEnforce →
        ∃ expected, mapGet srcConfig.signatureLookup (env.base path) = some expected ∧
          env.equalFold expected digest = true) := by
  have h' : (validateSignature env path srcConfig cur).1 = none := by
    simpa [checkSignature] using h
  simpa [checkSignature] using validateSignature_ok env path srcConfig cur hskip h'

/-- A successful signature step either records nothing or records a digest under the base
name of the file. -/
theorem checkSignature_get (env : Env) (skip : Bool) (path : String)
    (srcConfig : sourceRetrievalConfiguration) (cur : GoMap String) :
    (checkSignature env skip path srcConfig cur).2 = cur ∨
      ∃ digest, (checkSignature env skip path srcConfig cur).2 =
        mapSet cur (env.base path) digest := by
  by_cases hsk : skip = true ∨ srcConfig.signatureHandling = signatureSkipCheck
  · left
    rw [checkSignature_skipped env skip path srcConfig cur hsk]
  · have h1 : skip = false := by
      cases skip with
      | true => exact absurd (Or.inl rfl) hsk
      | false => rfl
    have h2 : srcConfig.signatureHandling ≠ signatureSkipCheck := fun h => hsk (Or.inr h)
    subst h1
    by_cases herr : (checkSignature env false path srcConfig cur).1 = none
    · obtain ⟨d, _, hd, _⟩ := checkSignature_ok env path srcConfig cur h2 herr
      exact Or.inr ⟨d, hd⟩
    · exact Or.inl (checkSignature_err_snd env false path srcConfig cur herr)

/-! ## Lemmas on the hydration passes -/

theorem foldl_invariant {σ α : Type} (P : σ → Prop) (f : σ → α → σ) (l : List α)
    (h : ∀ s a, a ∈ l → P s → P (f s a)) (s : σ) (hs : P s) : P (l.foldl f s) := by
  induction l generalizing s with
  | nil => exact hs
  | cons a rest ih =>
    simp only [List.foldl_cons]
    apply ih
    · intro s' b hb hP
      exact h s' b (List.mem_cons_of_mem _ hb) hP
    · exact h s a (List.mem_cons_self _ _) hs

theorem filepathWalk_of_none {σ : Type} (walkFn : σ → String → Option Err × σ)
    (h : ∀ s path, (walkFn s path).1 = none) (paths : List String) (s : σ) :
    filepathWalk walkFn paths s = (none, paths.foldl (fun s path => (walkFn s path).2) s) := by
  induction paths generalizing s with
  | nil => rfl
  | cons path rest ih =>
    have h1 := h s path
    cases hw : walkFn s path with
    | mk e s' =>
      rw [hw] at h1
      simp only at h1
      subst h1
      simp only [filepathWalk, hw, List.foldl_cons]
      exact ih s'

theorem hydrateLocalFile_fst (env : Env) (newSourceDir : String)
    (srcConfig : sourceRetrievalConfiguration) (skip : Bool) (s : HydrationState)
    (path : String) : (hydrateLocalFile env newSourceDir srcConfig skip s path).1 = none := by
  unfold hydrateLocalFile
  split
  · rfl
  · simp only []
    split
    · rfl
    · rfl
    · split
      · rfl
      · split <;> rfl

/-- The local pass never returns an error: its callback returns nil on every path. -/
theorem hydrateFromLocalSource_eq (env : Env) (newSourceDir : String)
    (srcConfig : sourceRetrievalConfiguration) (skip : Bool) (s : HydrationState) :
    hydrateFromLocalSource env newSourceDir srcConfig skip s =
      (none, (env.walk srcConfig.localSourceDir).foldl
        (fun s path => (hydrateLocalFile env newSourceDir srcConfig skip s path).2) s) :=
  filepathWalk_of_none _ (hydrateLocalFile_fst env newSourceDir srcConfig skip) _ s

/-- Outcomes of the local callback: nothing changes; or the file passes the signature step
and its copy fails; or it passes the signature step, is copied and marked hydrated. -/
theorem hydrateLocalFile_cases (env : Env) (newSourceDir : String)
    (srcConfig : sourceRetrievalConfiguration) (skip : Bool) (s : HydrationState)
    (path : String) :
    (hydrateLocalFile env newSourceDir srcConfig skip s path).2 = s ∨
    (env.isFile path = true ∧ mapGet s.fileHydrationState (env.base path) = some false ∧
      (checkSignature env skip path srcConfig s.currentSignatures).1 = none ∧
      ((env.copy path (env.join newSourceDir (env.base path)) ≠ none ∧
          (hydrateLocalFile env newSourceDir srcConfig skip s path).2 =
            { fileHydrationState := s.fileHydrationState
              currentSignatures := (checkSignature env skip path srcConfig
                s.currentSignatures).2
              trace := s.trace ++
                [Effect.copy path (env.join newSourceDir (env.base path))] }) ∨
        (env.copy path (env.join newSourceDir (env.base path)) = none ∧
          (hydrateLocalFile env newSourceDir srcConfig skip s path).2 =
            { fileHydrationState := mapSet s.fileHydrationState (env.base path) true
              currentSignatures := (checkSignature env skip path srcConfig
                s.currentSignatures).2
              trace := s.trace ++
                [Effect.copy path (env.join newSourceDir (env.base path))] }))) := by
  by_cases hf : env.isFile path = true
  · cases hg : mapGet s.fileHydrationState (env.base path) with
    | none => left; simp [hydrateLocalFile, hf, hg]
    | some b =>
      cases b with
      | true => left; simp [hydrateLocalFile, hf, hg]
      | false =>
        cases hv : (checkSignature env skip path srcConfig s.currentSignatures).1 with
        | some e =>
          left
          have hsnd := checkSignature_err_snd env skip path srcConfig s.currentSignatures
            (by rw [hv]; simp)
          simp [hydrateLocalFile, hf, hg, hv, hsnd]
        | none =>
          right
          refine ⟨hf, rfl, rfl, ?_⟩
          cases hc : env.copy path (env.join newSourceDir (env.base path)) with
          | some e => left; simp [hydrateLocalFile, hf, hg, hv, hc]
          | none => right; simp [hydrateLocalFile, hf, hg, hv, hc]
  · left
    simp [hydrateLocalFile, hf]

/-- Outcomes of the remote loop body: nothing changes; or the download fails; or the
downloaded file fails the signature step and is removed; or it passes and is marked
hydrated. -/
theorem hydrateRemoteFile_cases (env : Env) (newSourceDir : String)
    (srcConfig : sourceRetrievalConfiguration) (skip : Bool) (s : HydrationState)
    (fileName : String) :
    hydrateRemoteFile env newSourceDir srcConfig skip s fileName = s ∨
    (mapGet s.fileHydrationState fileName = some false ∧
      ((∃ n extra, hydrateRemoteFile env newSourceDir srcConfig skip s fileName =
            { fileHydrationState := s.fileHydrationState
              currentSignatures := s.currentSignatures
              trace := s.trace ++ List.replicate n
                (Effect.downloadFile (env.joinURL srcConfig.sourceURL fileName)
                  (env.join newSourceDir fileName)) ++ extra } ∧
          (extra = [] ∨ extra = [Effect.remove (env.join newSourceDir fileName)])) ∨
        ((retryRun (env.downloadFile (env.joinURL srcConfig.sourceURL fileName)
            (env.join newSourceDir fileName)) 3 0 none).1 = none ∧
          (checkSignature env skip (env.join newSourceDir fileName) srcConfig
            s.currentSignatures).1 = none ∧
          ∃ n, hydrateRemoteFile env newSourceDir srcConfig skip s fileName =
            { fileHydrationState := mapSet s.fileHydrationState fileName true
              currentSignatures := (checkSignature env skip (env.join newSourceDir fileName)
                srcConfig s.currentSignatures).2
              trace := s.trace ++ List.replicate n
                (Effect.downloadFile (env.joinURL srcConfig.sourceURL fileName)
                  (env.join newSourceDir fileName)) }))) := by
  cases hg : mapGet s.fileHydrationState fileName with
  | none => left; simp [hydrateRemoteFile, hg]
  | some b =>
    cases b with
    | true => left; simp [hydrateRemoteFile, hg]
    | false =>
      right
      refine ⟨rfl, ?_⟩
      cases hr : (retryRun (env.downloadFile (env.joinURL srcConfig.sourceURL fileName)
          (env.join newSourceDir fileName)) 3 0 none).1 with
      | some e =>
        left
        refine ⟨(retryRun (env.downloadFile (env.joinURL srcConfig.sourceURL fileName)
          (env.join newSourceDir fileName)) 3 0 none).2, [], ?_, Or.inl rfl⟩
        simp only [hydrateRemoteFile, hg, hr, List.append_nil]
      | none =>
        cases hv : (checkSignature env skip (env.join newSourceDir fileName) srcConfig
            s.currentSignatures).1 with
        | some e =>
          left
          have hsnd := checkSignature_err_snd env skip (env.join newSourceDir fileName)
            srcConfig s.currentSignatures (by rw [hv]; simp)
          refine ⟨(retryRun (env.downloadFile (env.joinURL srcConfig.sourceURL fileName)
          (env.join newSourceDir fileName)) 3 0 none).2,
            [Effect.remove (env.join newSourceDir fileName)], ?_, Or.inr rfl⟩
          simp only [hydrateRemoteFile, hg, hr, hv, hsnd]
        | none =>
          right
          refine ⟨rfl, rfl, (retryRun (env.downloadFile (env.joinURL srcConfig.sourceURL fileName)
          (env.join newSourceDir fileName)) 3 0 none).2, ?_⟩
          simp only [hydrateRemoteFile, hg, hr, hv]

theorem checkSignature_get_ne (env : Env) (skip : Bool) (path : String)
    (srcConfig : sourceRetrievalConfiguration) (cur : GoMap String) (k : String)
    (hk : env.base path ≠ k) :
    mapGet (checkSignature env skip path srcConfig cur).2 k = mapGet cur k := by
  rcases checkSignature_get env skip path srcConfig cur with h | ⟨d, h⟩
  · rw [h]
  · rw [h, mapGet_mapSet_ne _ _ _ _ hk]

/-- One step of a pass preserves the invariant: the step concerns a key that is not yet
hydrated and a file with that base name; it may record the signature of the file, and it
marks the key hydrated only after a successful signature step on a copy that hydrates it. -/
theorem PassInv_step (env : Env) (srcConfig : sourceRetrievalConfiguration)
    (newSourceDir : String) (skip : Bool) (filesNeeded : List String) (cur0 : GoMap String)
    (s s' : HydrationState) (key path : String)
    (h : PassInv env srcConfig newSourceDir skip filesNeeded cur0 s)
    (hkey : mapGet s.fileHydrationState key = some false)
    (hbase : (∀ f ∈ filesNeeded, env.base (env.join newSourceDir f) = f) →
      env.base path = key)
    (htrace : ∃ extra, s'.trace = s.trace ++ extra ∧ ∀ e ∈ extra, e.isTransfer = true)
    (hcur : s'.currentSignatures = s.currentSignatures ∨
      s'.currentSignatures = (checkSignature env skip path srcConfig s.currentSignatures).2)
    (hstate : s'.fileHydrationState = s.fileHydrationState ∨
      (s'.fileHydrationState = mapSet s.fileHydrationState key true ∧
        (checkSignature env skip path srcConfig s.currentSignatures).1 = none ∧
        s'.currentSignatures = (checkSignature env skip path srcConfig s.currentSignatures).2 ∧
        HydratedFrom env srcConfig newSourceDir key path)) :
    PassInv env srcConfig newSourceDir skip filesNeeded cur0 s' := by
  have hkeyK : key ∈ filesNeeded := (h.keys key).1 (by rw [hkey]; rfl)
  have hcurget : (∀ f ∈ filesNeeded, env.base (env.join newSourceDir f) = f) →
      ∀ k, key ≠ k → mapGet s'.currentSignatures k = mapGet s.currentSignatures k := by
    intro hB k hk
    rcases hcur with hc | hc
    · rw [hc]
    · rw [hc]
      exact checkSignature_get_ne env skip path srcConfig _ k (by rw [hbase hB]; exact hk)
  have hold : ∀ f, mapGet s'.fileHydrationState f = some true → key ≠ f →
      mapGet s.fileHydrationState f = some true := by
    intro f hf hne
    rcases hstate with hs | ⟨hs, _⟩
    · rw [hs] at hf; exact hf
    · rw [hs, mapGet_mapSet_ne _ _ _ _ hne] at hf; exact hf
  have hsame : ∀ f, mapGet s'.fileHydrationState f = some true → key = f →
      s'.fileHydrationState = mapSet s.fileHydrationState key true ∧
        (checkSignature env skip path srcConfig s.currentSignatures).1 = none ∧
        s'.currentSignatures = (checkSignature env skip path srcConfig s.currentSignatures).2 ∧
        HydratedFrom env srcConfig newSourceDir key path := by
    intro f hf he
    rcases hstate with hs | hs
    · rw [hs, ← he, hkey] at hf
      exact absurd hf (by simp)
    · exact hs
  refine ⟨?_, ?_, ?_, ?_, ?_, ?_⟩
  · intro k
    rcases hstate with hs | ⟨hs, _⟩
    · rw [hs]; exact h.keys k
    · rw [hs, mapGet_mapSet]
      by_cases hk : key = k
      · subst hk
        simp [hkeyK]
      · simp only [if_neg hk]
        exact h.keys k
  · obtain ⟨extra, he, hall⟩ := htrace
    intro e hmem
    rw [he, List.mem_append] at hmem
    rcases hmem with hm | hm
    · exact h.actions e hm
    · exact hall e hm
  · intro hB k hk
    by_cases hkk : key = k
    · right
      rw [← hkk]
      exact hkeyK
    · rw [hcurget hB k hkk] at hk
      exact h.curKeys hB k hk
  · intro hsk
    rcases hcur with hc | hc
    · rw [hc]; exact h.skipped hsk
    · rw [hc, checkSignature_skipped env skip path srcConfig _ hsk]
      exact h.skipped hsk
  · intro f hf
    by_cases hkf : key = f
    · obtain ⟨_, _, _, hfrom⟩ := hsame f hf hkf
      rw [← hkf]
      exact ⟨path, hfrom⟩
    · exact h.origin f (hold f hf hkf)
  · intro hB hs1 hs2 f hf
    by_cases hkf : key = f
    · obtain ⟨_, hok, hc, hfrom⟩ := hsame f hf hkf
      subst hs1
      obtain ⟨d, hsha, hval, henf⟩ :=
        checkSignature_ok env path srcConfig s.currentSignatures hs2 hok
      refine ⟨d, path, ?_, ?_, hsha, ?_⟩
      · rw [hc, hval, hbase hB, hkf, mapGet_mapSet_self]
      · rw [← hkf]; exact hfrom
      · intro he
        obtain ⟨e, h1, h2⟩ := henf he
        rw [hbase hB, hkf] at h1
        exact ⟨e, h1, h2⟩
    · obtain ⟨d, p, h1, h2, h3, h4⟩ := h.sigs hB hs1 hs2 f (hold f hf hkf)
      exact ⟨d, p, by rw [hcurget hB f hkf]; exact h1, h2, h3, h4⟩

theorem PassInv_local (env : Env) (srcConfig : sourceRetrievalConfiguration)
    (newSourceDir : String) (skip : Bool) (filesNeeded : List String) (cur0 : GoMap String)
    (s : HydrationState) (path : String) (hp : path ∈ env.walk srcConfig.localSourceDir)
    (h : PassInv env srcConfig newSourceDir skip filesNeeded cur0 s) :
    PassInv env srcConfig newSourceDir skip filesNeeded cur0
      (hydrateLocalFile env newSourceDir srcConfig skip s path).2 := by
  rcases hydrateLocalFile_cases env newSourceDir srcConfig skip s path with
    h0 | ⟨hf, hg, hv, ⟨hc, heq⟩ | ⟨hc, heq⟩⟩
  · rw [h0]; exact h
  · rw [heq]
    exact PassInv_step env srcConfig newSourceDir skip filesNeeded cur0 s _ (env.base path)
      path h hg (fun _ => rfl) ⟨_, rfl, by simp [Effect.isTransfer]⟩ (Or.inr rfl) (Or.inl rfl)
  · rw [heq]
    exact PassInv_step env srcConfig newSourceDir skip filesNeeded cur0 s _ (env.base path)
      path h hg (fun _ => rfl) ⟨_, rfl, by simp [Effect.isTransfer]⟩ (Or.inr rfl)
      (Or.inr ⟨rfl, hv, rfl, Or.inl ⟨hp, hf, rfl, hc⟩⟩)

theorem PassInv_remote (env : Env) (srcConfig : sourceRetrievalConfiguration)
    (newSourceDir : String) (skip : Bool) (filesNeeded : List String) (cur0 : GoMap String)
    (s : HydrationState) (fileName : String)
    (h : PassInv env srcConfig newSourceDir skip filesNeeded cur0 s) :
    PassInv env srcConfig newSourceDir skip filesNeeded cur0
      (hydrateRemoteFile env newSourceDir srcConfig skip s fileName) := by
  rcases hydrateRemoteFile_cases env newSourceDir srcConfig skip s fileName with
    h0 | ⟨hg, ⟨n, extra, heq, hex⟩ | ⟨hr, hv, n, heq⟩⟩
  · rw [h0]; exact h
  · have hb : (∀ f ∈ filesNeeded, env.base (env.join newSourceDir f) = f) →
        env.base (env.join newSourceDir fileName) = fileName :=
      fun hbase => hbase fileName ((h.keys fileName).1 (by rw [hg]; rfl))
    rw [heq]
    refine PassInv_step env srcConfig newSourceDir skip filesNeeded cur0 s _ fileName
      (env.join newSourceDir fileName) h hg hb ⟨_, List.append_assoc _ _ _, ?_⟩
      (Or.inl rfl) (Or.inl rfl)
    intro e he
    rw [List.mem_append] at he
    rcases he with he | he
    · rw [List.eq_of_mem_replicate he]; rfl
    · rcases hex with hx | hx
      · rw [hx] at he; exact absurd he (by simp)
      · rw [hx, List.mem_singleton] at he
        rw [he]; rfl
  · have hb : (∀ f ∈ filesNeeded, env.base (env.join newSourceDir f) = f) →
        env.base (env.join newSourceDir fileName) = fileName :=
      fun hbase => hbase fileName ((h.keys fileName).1 (by rw [hg]; rfl))
    rw [heq]
    refine PassInv_step env srcConfig newSourceDir skip filesNeeded cur0 s _ fileName
      (env.join newSourceDir fileName) h hg hb ⟨_, rfl, ?_⟩
      (Or.inr rfl) (Or.inr ⟨rfl, hv, rfl, Or.inr ⟨rfl, hr⟩⟩)
    intro e he
    rw [List.eq_of_mem_replicate he]; rfl

theorem initialHydrationState_foldl (filesNeeded : List String) (acc : GoMap Bool)
    (k : String) :
    mapGet (filesNeeded.foldl (fun m fileNeeded => mapSet m fileNeeded false) acc) k =
      if k ∈ filesNeeded then some false else mapGet acc k := by
  induction filesNeeded generalizing acc with
  | nil => simp
  | cons f rest ih =>
    simp only [List.foldl_cons, ih, mapGet_mapSet, List.mem_cons]
    by_cases hr : k ∈ rest
    · simp [hr]
    · by_cases hf : f = k
      · simp [hf]
      · have hf' : ¬ k = f := fun h => hf h.symm
        simp [hr, hf, hf']

theorem initialHydrationState_get (filesNeeded : List String) (k : String) :
    mapGet (initialHydrationState filesNeeded) k =
      if k ∈ filesNeeded then some false else none := by
  simpa [initialHydrationState, mapGet] using initialHydrationState_foldl filesNeeded [] k

theorem PassInv_init (env : Env) (srcConfig : sourceRetrievalConfiguration)
    (newSourceDir : String) (skip : Bool) (filesNeeded : List String) (cur0 : GoMap String) :
    PassInv env srcConfig newSourceDir skip filesNeeded cur0
      { fileHydrationState := initialHydrationState filesNeeded
        currentSignatures := cur0
        trace := [] } := by
  refine ⟨?_, ?_, ?_, ?_, ?_, ?_⟩
  · intro k
    simp only [initialHydrationState_get]
    by_cases hk : k ∈ filesNeeded <;> simp [hk]
  · intro e he
    exact absurd he (by simp)
  · intro _ k hk
    exact Or.inl hk
  · intro _
    rfl
  · intro f hf
    simp only [initialHydrationState_get] at hf
    by_cases hk : f ∈ filesNeeded <;> simp [hk] at hf
  · intro _ _ _ f hf
    simp only [initialHydrationState_get] at hf
    by_cases hk : f ∈ filesNeeded <;> simp [hk] at hf

/-- The local pass of `hydrateFiles` leaves no error behind, and the state after both passes
satisfies the pass invariant. -/
theorem hydratePasses_inv (env : Env) (fileTypeToHydrate : fileType) (workingDir : String)
    (srcConfig : sourceRetrievalConfiguration) (cur0 : GoMap String)
    (filesNeeded : List String) :
    (hydratePasses env fileTypeToHydrate workingDir srcConfig cur0 filesNeeded).1 = none ∧
      PassInv env srcConfig (env.join workingDir "SOURCES")
        (skipSignatureHandlingOf fileTypeToHydrate) filesNeeded cur0
        (hydratePasses env fileTypeToHydrate workingDir srcConfig cur0 filesNeeded).2 := by
  have h0 := PassInv_init env srcConfig (env.join workingDir "SOURCES")
    (skipSignatureHandlingOf fileTypeToHydrate) filesNeeded cur0
  have hl : ∀ s, PassInv env srcConfig (env.join workingDir "SOURCES")
      (skipSignatureHandlingOf fileTypeToHydrate) filesNeeded cur0 s →
      PassInv env srcConfig (env.join workingDir "SOURCES")
        (skipSignatureHandlingOf fileTypeToHydrate) filesNeeded cur0
        ((env.walk srcConfig.localSourceDir).foldl
          (fun s path => (hydrateLocalFile env (env.join workingDir "SOURCES") srcConfig
            (skipSignatureHandlingOf fileTypeToHydrate) s path).2) s) := by
    intro s hs
    exact foldl_invariant _ _ _
      (fun s' path hp hP => PassInv_local env srcConfig _ _ filesNeeded cur0 s' path hp hP) s hs
  have hr : ∀ s, PassInv env srcConfig (env.join workingDir "SOURCES")
      (skipSignatureHandlingOf fileTypeToHydrate) filesNeeded cur0 s →
      PassInv env srcConfig (env.join workingDir "SOURCES")
        (skipSignatureHandlingOf fileTypeToHydrate) filesNeeded cur0
        (hydrateFromRemoteSource env (env.join workingDir "SOURCES") srcConfig
          (skipSignatureHandlingOf fileTypeToHydrate) s) := by
    intro s hs
    unfold hydrateFromRemoteSource
    exact foldl_invariant _ _ _
      (fun s' f _ hP => PassInv_remote env srcConfig _ _ filesNeeded cur0 s' f hP) s hs
  unfold hydratePasses
  simp only [hydrateFromLocalSource_eq]
  constructor
  · split <;> rfl
  · split
    · split
      · exact hr _ (hl _ h0)
      · exact hr _ h0
    · split
      · exact hl _ h0
      · exact h0

theorem hydrationError_isSome (state : GoMap Bool) (order : List String) (err : Option Err) :
    (hydrationError state order err ≠ none) ↔
      (err ≠ none ∨ ∃ f ∈ order, mapGet state f = some false) := by
  unfold hydrationError
  induction order generalizing err with
  | nil => simp
  | cons f rest ih =>
    simp only [List.foldl_cons, ih, List.mem_cons]
    by_cases hf : mapGet state f = some false
    · simp [hf]
    · simp only [if_neg hf]
      constructor
      · rintro (h | ⟨g, hg, hs⟩)
        · exact Or.inl h
        · exact Or.inr ⟨g, Or.inr hg, hs⟩
      · rintro (h | ⟨g, hg | hg, hs⟩)
        · exact Or.inl h
        · subst hg; exact absurd hs hf
        · exact Or.inr ⟨g, hg, hs⟩

/-- Error of `hydrateFiles` once the query has returned the needed files: there is one
exactly when a needed file is left unhydrated by the two passes. -/
theorem hydrateFiles_err_iff (env : Env) (fileTypeToHydrate : fileType)
    (specFile workingDir : String) (srcConfig : sourceRetrievalConfiguration)
    (cur0 defines : GoMap String) (filesNeeded : List String)
    (hq : readSPECTagArray env specFile srcConfig.localSourceDir
      (specTagOf fileTypeToHydrate) defines = .ok filesNeeded) :
    (hydrateFiles env fileTypeToHydrate specFile workingDir srcConfig cur0 defines).err ≠ none ↔
      ∃ f ∈ filesNeeded,
        mapGet (hydratePasses env fileTypeToHydrate workingDir srcConfig cur0
          filesNeeded).2.fileHydrationState f = some false := by
  obtain ⟨hnone, hinv⟩ := hydratePasses_inv env fileTypeToHydrate workingDir srcConfig cur0
    filesNeeded
  simp only [hydrateFiles, hq, hnone, hydrationError_isSome]
  constructor
  · rintro (h | ⟨f, _, hs⟩)
    · exact absurd rfl h
    · exact ⟨f, (hinv.keys f).1 (by rw [hs]; rfl), hs⟩
  · rintro ⟨f, _, hs⟩
    refine Or.inr ⟨f, ?_, hs⟩
    rw [(env.rangeOrder _).property.mem_iff]
    exact (mapGet_isSome_iff _ f).1 (by rw [hs]; rfl)

/-! ## Lemmas on `hydrateFiles` and `packSingleSPEC` -/

theorem isFileAction_of_isTransfer (e : Effect) (h : e.isTransfer = true) :
    e.isFileAction = true := by
  cases e <;> simp_all [Effect.isTransfer, Effect.isFileAction]

theorem not_touchesSignatures_of_isFileAction (e : Effect) (h : e.isFileAction = true) :
    e.touchesSignatures = false := by
  cases e <;> simp_all [Effect.touchesSignatures, Effect.isFileAction]

theorem not_isBuild_of_isFileAction (e : Effect) (h : e.isFileAction = true) :
    e.isBuild = false := by
  cases e <;> simp_all [Effect.isBuild, Effect.isFileAction]

theorem hydrateFiles_actions (env : Env) (fileTypeToHydrate : fileType)
    (specFile workingDir : String) (srcConfig : sourceRetrievalConfiguration)
    (cur0 defines : GoMap String) :
    ∀ e ∈ (hydrateFiles env fileTypeToHydrate specFile workingDir srcConfig cur0
      defines).trace, e.isTransfer = true := by
  cases hq : readSPECTagArray env specFile srcConfig.localSourceDir
      (specTagOf fileTypeToHydrate) defines with
  | error x => simp [hydrateFiles, hq]
  | ok filesNeeded =>
    have hinv := (hydratePasses_inv env fileTypeToHydrate workingDir srcConfig cur0
      filesNeeded).2
    simp only [hydrateFiles, hq]
    exact hinv.actions

theorem hydrateFiles_skipped (env : Env) (fileTypeToHydrate : fileType)
    (specFile workingDir : String) (srcConfig : sourceRetrievalConfiguration)
    (cur0 defines : GoMap String)
    (h : skipSignatureHandlingOf fileTypeToHydrate = true ∨
      srcConfig.signatureHandling = signatureSkipCheck) :
    (hydrateFiles env fileTypeToHydrate specFile workingDir srcConfig cur0
      defines).currentSignatures = cur0 := by
  cases hq : readSPECTagArray env specFile srcConfig.localSourceDir
      (specTagOf fileTypeToHydrate) defines with
  | error x => simp [hydrateFiles, hq]
  | ok filesNeeded =>
    have hinv := (hydratePasses_inv env fileTypeToHydrate workingDir srcConfig cur0
      filesNeeded).2
    simp only [hydrateFiles, hq]
    exact hinv.skipped h

/-- The patch pass records no signature. -/
theorem hydrateFiles_patch_currentSignatures (env : Env) (specFile workingDir : String)
    (srcConfig : sourceRetrievalConfiguration) (cur0 defines : GoMap String) :
    (hydrateFiles env fileTypePatch specFile workingDir srcConfig cur0
      defines).currentSignatures = cur0 :=
  hydrateFiles_skipped env fileTypePatch specFile workingDir srcConfig cur0 defines
    (Or.inl rfl)

/-- A successful hydration leaves every needed file hydrated, and the state after the passes
satisfies the pass invariant. -/
theorem hydrateFiles_ok (env : Env) (fileTypeToHydrate : fileType)
    (specFile workingDir : String) (srcConfig : sourceRetrievalConfiguration)
    (cur0 defines : GoMap String) (filesNeeded : List String)
    (hq : readSPECTagArray env specFile srcConfig.localSourceDir
      (specTagOf fileTypeToHydrate) defines = .ok filesNeeded)
    (hok : (hydrateFiles env fileTypeToHydrate specFile workingDir srcConfig cur0
      defines).err = none) :
    (∀ f ∈ filesNeeded,
      mapGet (hydrateFiles env fileTypeToHydrate specFile workingDir srcConfig cur0
        defines).fileHydrationState f = some true) ∧
    PassInv env srcConfig (env.join workingDir "SOURCES")
      (skipSignatureHandlingOf fileTypeToHydrate) filesNeeded cur0
      { fileHydrationState := (hydrateFiles env fileTypeToHydrate specFile workingDir
          srcConfig cur0 defines).fileHydrationState
        currentSignatures := (hydrateFiles env fileTypeToHydrate specFile workingDir
          srcConfig cur0 defines).currentSignatures
        trace := (hydrateFiles env fileTypeToHydrate specFile workingDir srcConfig cur0
          defines).trace } := by
  have hiff := hydrateFiles_err_iff env fileTypeToHydrate specFile workingDir srcConfig cur0
    defines filesNeeded hq
  have hinv := (hydratePasses_inv env fileTypeToHydrate workingDir srcConfig cur0
    filesNeeded).2
  have hfields : (hydrateFiles env fileTypeToHydrate specFile workingDir srcConfig cur0
      defines).fileHydrationState = (hydratePasses env fileTypeToHydrate workingDir srcConfig
        cur0 filesNeeded).2.fileHydrationState ∧
      (hydrateFiles env fileTypeToHydrate specFile workingDir srcConfig cur0
        defines).currentSignatures = (hydratePasses env fileTypeToHydrate workingDir
          srcConfig cur0 filesNeeded).2.currentSignatures ∧
      (hydrateFiles env fileTypeToHydrate specFile workingDir srcConfig cur0
        defines).trace = (hydratePasses env fileTypeToHydrate workingDir srcConfig cur0
          filesNeeded).2.trace := by
    simp [hydrateFiles, hq]
  rw [hfields.1, hfields.2.1, hfields.2.2]
  refine ⟨?_, hinv⟩
  intro f hf
  have hsome := (hinv.keys f).2 hf
  cases hg : mapGet (hydratePasses env fileTypeToHydrate workingDir srcConfig cur0
      filesNeeded).2.fileHydrationState f with
  | none => rw [hg] at hsome; exact absurd hsome (by simp)
  | some b =>
    cases b with
    | true => rfl
    | false =>
      exfalso
      exact (hiff.2 ⟨f, hf, hg⟩) hok

theorem createRPMBuildFolderStructure_actions (env : Env) (workingDir : String)
    (dirs : List String) :
    ∀ e ∈ (createRPMBuildFolderStructure env workingDir dirs).2, e.isFileAction = true := by
  induction dirs with
  | nil => simp [createRPMBuildFolderStructure]
  | cons d rest ih =>
    intro e he
    simp only [createRPMBuildFolderStructure] at he
    split at he
    · simp only [List.mem_singleton] at he
      rw [he]; rfl
    · simp only [List.mem_cons] at he
      rcases he with he | he
      · rw [he]; rfl
      · exact ih e he

theorem filepathWalk_invariant {σ : Type} (P : σ → Prop)
    (walkFn : σ → String → Option Err × σ) (h : ∀ s path, P s → P (walkFn s path).2)
    (paths : List String) (s : σ) (hs : P s) : P (filepathWalk walkFn paths s).2 := by
  induction paths generalizing s with
  | nil => exact hs
  | cons path rest ih =>
    have h1 := h s path hs
    cases hw : walkFn s path with
    | mk e s' =>
      rw [hw] at h1
      cases e with
      | some x => simpa [filepathWalk, hw] using h1
      | none =>
        simp only [filepathWalk, hw]
        exact ih s' h1

theorem copyOutput_actions (env : Env) (workingDir outDir : String) :
    ∀ e ∈ (copyOutput env workingDir outDir).2.2, e.isFileAction = true := by
  unfold copyOutput
  refine filepathWalk_invariant (fun s : String × List Effect => ∀ e ∈ s.2, e.isFileAction = true)
    (copyOutputFile env outDir) ?_ _ ("", []) ?_
  · intro s path hs
    unfold copyOutputFile
    split
    · exact hs
    · intro e he
      simp only [List.mem_append, List.mem_singleton] at he
      rcases he with he | he
      · exact hs e he
      · rw [he]; rfl
  · intro e he
    exact absurd he (by simp)

/-- Actions of the body of `packSingleSPEC`: plain file actions, at most the write of the
signatures file under Update, and the run of the builder, which only follows a successful
hydration of the sources. -/
theorem packSingleSPECBody_actions (env : Env) (runCheck : Bool)
    (specFile signaturesFile workingDir outDir distTag : String)
    (srcConfig : sourceRetrievalConfiguration) :
    ∀ e ∈ (packSingleSPECBody env runCheck specFile signaturesFile workingDir outDir distTag
        srcConfig).trace,
      e.isFileAction = true ∨
      (srcConfig.signatureHandling = signatureUpdate ∧
        e = Effect.writeJSONFile signaturesFile
          { FileSignatures := (packSingleSPECBody env runCheck specFile signaturesFile
              workingDir outDir distTag srcConfig).currentSignatures }) ∨
      (e = Effect.generateSRPMFromSPEC specFile workingDir ∧
        (hydrateFiles env fileTypeSource specFile workingDir srcConfig []
          (packDefines env runCheck distTag)).err = none) := by
  have hp := hydrateFiles_patch_currentSignatures env specFile workingDir srcConfig []
    (packDefines env runCheck distTag)
  have hfold := createRPMBuildFolderStructure_actions env workingDir
    ["SOURCES", "SPECS", "SRPMS"]
  have hpa := hydrateFiles_actions env fileTypePatch specFile workingDir srcConfig []
    (packDefines env runCheck distTag)
  have hsa := hydrateFiles_actions env fileTypeSource specFile workingDir srcConfig []
    (packDefines env runCheck distTag)
  have hout := copyOutput_actions env workingDir outDir
  have hupd : ∀ e ∈ (updateSignaturesIfApplicable env signaturesFile srcConfig
      (hydrateFiles env fileTypeSource specFile workingDir srcConfig []
        (packDefines env runCheck distTag)).currentSignatures).2,
      srcConfig.signatureHandling = signatureUpdate ∧
        e = Effect.writeJSONFile signaturesFile
          { FileSignatures := (hydrateFiles env fileTypeSource specFile workingDir srcConfig []
              (packDefines env runCheck distTag)).currentSignatures } := by
    intro e he
    unfold updateSignaturesIfApplicable at he
    split at he
    · rename_i hc
      simp only [List.mem_singleton] at he
      exact ⟨hc.1, he⟩
    · exact absurd he (by simp)
  intro e he
  unfold packSingleSPECBody at he ⊢
  simp only [hp] at he ⊢
  split at he
  · exact Or.inl (hfold e he)
  · split at he
    · simp only [List.mem_append, List.mem_singleton] at he
      rcases he with he | he
      · exact Or.inl (hfold e he)
      · left; rw [he]; rfl
    · split at he
      · simp only [List.mem_append, List.mem_singleton] at he
        rcases he with (he | he) | he
        · exact Or.inl (hfold e he)
        · left; rw [he]; rfl
        · exact Or.inl (isFileAction_of_isTransfer e (hpa e he))
      · split at he
        · simp only [List.mem_append, List.mem_singleton] at he
          rcases he with ((he | he) | he) | he
          · exact Or.inl (hfold e he)
          · left; rw [he]; rfl
          · exact Or.inl (isFileAction_of_isTransfer e (hpa e he))
          · exact Or.inl (isFileAction_of_isTransfer e (hsa e he))
        · rename_i hsrc
          split at he
          · simp only [List.mem_append, List.mem_singleton] at he
            rcases he with ((((he | he) | he) | he) | he) | he
            · exact Or.inl (hfold e he)
            · left; rw [he]; rfl
            · exact Or.inl (isFileAction_of_isTransfer e (hpa e he))
            · exact Or.inl (isFileAction_of_isTransfer e (hsa e he))
            · exact Or.inr (Or.inl (hupd e he))
            · exact Or.inr (Or.inr ⟨he, hsrc⟩)
          · simp only [List.mem_append, List.mem_singleton] at he
            rcases he with (((((he | he) | he) | he) | he) | he) | he
            · exact Or.inl (hfold e he)
            · left; rw [he]; rfl
            · exact Or.inl (isFileAction_of_isTransfer e (hpa e he))
            · exact Or.inl (isFileAction_of_isTransfer e (hsa e he))
            · exact Or.inr (Or.inl (hupd e he))
            · exact Or.inr (Or.inr ⟨he, hsrc⟩)
            · exact Or.inl (hout e he)

/-- A successful body of `packSingleSPEC`: both hydrations succeeded, the values kept are
those of the source pass, and the signatures file is touched by `updateSignaturesIfApplicable`
only. -/
theorem packSingleSPECBody_ok (env : Env) (runCheck : Bool)
    (specFile signaturesFile workingDir outDir distTag : String)
    (srcConfig : sourceRetrievalConfiguration)
    (hok : (packSingleSPECBody env runCheck specFile signaturesFile workingDir outDir distTag
      srcConfig).err = none) :
    (hydrateFiles env fileTypePatch specFile workingDir srcConfig []
        (packDefines env runCheck distTag)).err = none ∧
    (hydrateFiles env fileTypeSource specFile workingDir srcConfig []
        (packDefines env runCheck distTag)).err = none ∧
    (packSingleSPECBody env runCheck specFile signaturesFile workingDir outDir distTag
        srcConfig).currentSignatures =
      (hydrateFiles env fileTypeSource specFile workingDir srcConfig []
        (packDefines env runCheck distTag)).currentSignatures ∧
    (packSingleSPECBody env runCheck specFile signaturesFile workingDir outDir distTag
        srcConfig).patchState =
      (hydrateFiles env fileTypePatch specFile workingDir srcConfig []
        (packDefines env runCheck distTag)).fileHydrationState ∧
    (packSingleSPECBody env runCheck specFile signaturesFile workingDir outDir distTag
        srcConfig).sourceState =
      (hydrateFiles env fileTypeSource specFile workingDir srcConfig []
        (packDefines env runCheck distTag)).fileHydrationState ∧
    ∃ before after,
      (packSingleSPECBody env runCheck specFile signaturesFile workingDir outDir distTag
          srcConfig).trace =
        before ++ (updateSignaturesIfApplicable env signaturesFile srcConfig
          (hydrateFiles env fileTypeSource specFile workingDir srcConfig []
            (packDefines env runCheck distTag)).currentSignatures).2 ++ after ∧
      (∀ e ∈ before, e.touchesSignatures = false) ∧
      (∀ e ∈ after, e.touchesSignatures = false) := by
  have hp := hydrateFiles_patch_currentSignatures env specFile workingDir srcConfig []
    (packDefines env runCheck distTag)
  have hfold := createRPMBuildFolderStructure_actions env workingDir
    ["SOURCES", "SPECS", "SRPMS"]
  have hpa := hydrateFiles_actions env fileTypePatch specFile workingDir srcConfig []
    (packDefines env runCheck distTag)
  have hsa := hydrateFiles_actions env fileTypeSource specFile workingDir srcConfig []
    (packDefines env runCheck distTag)
  have hout := copyOutput_actions env workingDir outDir
  unfold packSingleSPECBody at hok ⊢
  simp only [hp] at hok ⊢
  split at hok
  · exact absurd hok (by simp)
  · split at hok
    · exact absurd hok (by simp)
    · split at hok
      · exact absurd hok (by simp)
      · rename_i hpat
        split at hok
        · exact absurd hok (by simp)
        · rename_i hsrc
          split at hok
          · exact absurd hok (by simp)
          · refine ⟨hpat, hsrc, rfl, rfl, rfl, _, _, List.append_assoc _ _ _, ?_, ?_⟩
            · intro e he
              simp only [List.mem_append, List.mem_singleton] at he
              apply not_touchesSignatures_of_isFileAction
              rcases he with ((he | he) | he) | he
              · exact hfold e he
              · rw [he]; rfl
              · exact isFileAction_of_isTransfer e (hpa e he)
              · exact isFileAction_of_isTransfer e (hsa e he)
            · intro e he
              simp only [List.mem_append, List.mem_singleton] at he
              rcases he with he | he
              · rw [he]; rfl
              · exact not_touchesSignatures_of_isFileAction e (hout e he)

/-- Under SkipCheck the body of `packSingleSPEC` records no signature. -/
theorem packSingleSPECBody_skip (env : Env) (runCheck : Bool)
    (specFile signaturesFile workingDir outDir distTag : String)
    (srcConfig : sourceRetrievalConfiguration)
    (hskip : srcConfig.signatureHandling = signatureSkipCheck) :
    (packSingleSPECBody env runCheck specFile signaturesFile workingDir outDir distTag
      srcConfig).currentSignatures = [] := by
  have hp := hydrateFiles_patch_currentSignatures env specFile workingDir srcConfig []
    (packDefines env runCheck distTag)
  have hs := hydrateFiles_skipped env fileTypeSource specFile workingDir srcConfig []
    (packDefines env runCheck distTag) (Or.inr hskip)
  unfold packSingleSPECBody
  simp only [hp, hs]
  split
  · rfl
  · split
    · rfl
    · split
      · rfl
      · split
        · rfl
        · split <;> rfl

/-- The two ways `packSingleSPEC` runs: the working directory cannot be created, or the body
runs between the creation of the working directory and its removal. -/
theorem packSingleSPEC_cases (env : Env) (runCheck : Bool)
    (specFile srpmFile signaturesFile buildDir outDir distTag : String)
    (srcConfig : sourceRetrievalConfiguration) :
    (∃ e, packSingleSPEC env runCheck specFile srpmFile signaturesFile buildDir outDir distTag
        srcConfig =
      { outputPath := "", err := some e,
        trace := [Effect.mkdirAll (env.join buildDir (env.base srpmFile))],
        currentSignatures := [], patchState := [], sourceState := [] }) ∨
    ((packSingleSPEC env runCheck specFile srpmFile signaturesFile buildDir outDir distTag
        srcConfig).err =
      (packSingleSPECBody env runCheck specFile signaturesFile
        (env.join buildDir (env.base srpmFile)) outDir distTag srcConfig).err ∧
     (packSingleSPEC env runCheck specFile srpmFile signaturesFile buildDir outDir distTag
        srcConfig).trace =
      Effect.mkdirAll (env.join buildDir (env.base srpmFile)) ::
        ((packSingleSPECBody env runCheck specFile signaturesFile
          (env.join buildDir (env.base srpmFile)) outDir distTag srcConfig).trace ++
          [Effect.removeAll (env.join buildDir (env.base srpmFile))]) ∧
     (packSingleSPEC env runCheck specFile srpmFile signaturesFile buildDir outDir distTag
        srcConfig).currentSignatures =
      (packSingleSPECBody env runCheck specFile signaturesFile
        (env.join buildDir (env.base srpmFile)) outDir distTag srcConfig).currentSignatures ∧
     (packSingleSPEC env runCheck specFile srpmFile signaturesFile buildDir outDir distTag
        srcConfig).patchState =
      (packSingleSPECBody env runCheck specFile signaturesFile
        (env.join buildDir (env.base srpmFile)) outDir distTag srcConfig).patchState ∧
     (packSingleSPEC env runCheck specFile srpmFile signaturesFile buildDir outDir distTag
        srcConfig).sourceState =
      (packSingleSPECBody env runCheck specFile signaturesFile
        (env.join buildDir (env.base srpmFile)) outDir distTag srcConfig).sourceState) := by
  cases h : env.mkdirAll (env.join buildDir (env.base srpmFile)) with
  | some e =>
    left
    exact ⟨e, by simp [packSingleSPEC, h]⟩
  | none =>
    right
    simp [packSingleSPEC, h]

theorem initializeSourceConfig_skip (env : Env)
    (templateSrcConfig : sourceRetrievalConfiguration) (signaturesFilePath : String)
    (hskip : templateSrcConfig.signatureHandling = signatureSkipCheck) :
    initializeSourceConfig env templateSrcConfig signaturesFilePath =
      ({ templateSrcConfig with localSourceDir := env.dir signaturesFilePath }, none, []) := by
  simp [initializeSourceConfig, hskip]

theorem packSingleSPEC_skip_actions (env : Env) (runCheck : Bool)
    (specFile srpmFile signaturesFile buildDir outDir distTag : String)
    (srcConfig : sourceRetrievalConfiguration)
    (hskip : srcConfig.signatureHandling = signatureSkipCheck) :
    (∀ e ∈ (packSingleSPEC env runCheck specFile srpmFile signaturesFile buildDir outDir
        distTag srcConfig).trace, e.touchesSignatures = false) ∧
      (packSingleSPEC env runCheck specFile srpmFile signaturesFile buildDir outDir
        distTag srcConfig).currentSignatures = [] := by
  rcases packSingleSPEC_cases env runCheck specFile srpmFile signaturesFile buildDir outDir
    distTag srcConfig with ⟨x, h⟩ | ⟨_, h, hc, _⟩
  · rw [h]
    refine ⟨?_, rfl⟩
    intro e he
    simp only [List.mem_singleton] at he
    rw [he]; rfl
  · rw [h, hc]
    refine ⟨?_, packSingleSPECBody_skip env runCheck specFile signaturesFile _ outDir distTag
      srcConfig hskip⟩
    intro e he
    simp only [List.mem_cons, List.mem_append, List.not_mem_nil, or_false] at he
    rcases he with he | he | he
    · rw [he]; rfl
    · rcases packSingleSPECBody_actions env runCheck specFile signaturesFile _ outDir
        distTag srcConfig e he with h | ⟨hu, _⟩ | ⟨h, _⟩
      · exact not_touchesSignatures_of_isFileAction e h
      · rw [hskip] at hu
        exact absurd hu (by simp)
      · rw [h]; rfl
    · rw [he]; rfl

/-- Actions of the body of `packSRPMWorker`: those of `initializeSourceConfig`, the creation
of the output directory and those of `packSingleSPEC`. -/
theorem packSRPMWorker_actions (env : Env) (runCheck : Bool) (distTag buildDir : String)
    (templateSrcConfig : sourceRetrievalConfiguration) (state : specState) :
    ∀ e ∈ (packSRPMWorker env runCheck distTag buildDir templateSrcConfig state).2,
      e ∈ (initializeSourceConfig env templateSrcConfig
        (specPathToSignaturesPath env state.specFile)).2.2 ∨
      e = Effect.mkdirAll (env.dir state.srpmFile) ∨
      e ∈ (packSingleSPEC env runCheck state.specFile state.srpmFile
        (specPathToSignaturesPath env state.specFile) buildDir (env.dir state.srpmFile)
        distTag (initializeSourceConfig env templateSrcConfig
          (specPathToSignaturesPath env state.specFile)).1).trace := by
  intro e he
  unfold packSRPMWorker at he
  simp only [] at he
  split at he
  · exact absurd he (by simp)
  · split at he
    · exact Or.inl he
    · split at he
      · simp only [List.mem_append, List.mem_singleton] at he
        rcases he with he | he
        · exact Or.inl he
        · exact Or.inr (Or.inl he)
      · split at he
        · simp only [List.mem_append, List.mem_singleton] at he
          rcases he with (he | he) | he
          · exact Or.inl he
          · exact Or.inr (Or.inl he)
          · exact Or.inr (Or.inr he)
        · simp only [List.mem_append, List.mem_singleton] at he
          rcases he with (he | he) | he
          · exact Or.inl he
          · exact Or.inr (Or.inl he)
          · exact Or.inr (Or.inr he)

/-! ## Lemmas on the content of the signatures file -/

theorem signaturesFileAfter_append (env : Env) (signaturesFile : String)
    (before : GoMap String) (t1 t2 : List Effect) :
    signaturesFileAfter env signaturesFile before (t1 ++ t2) =
      signaturesFileAfter env signaturesFile
        (signaturesFileAfter env signaturesFile before t1) t2 := by
  simp [signaturesFileAfter, List.foldl_append]

theorem signaturesFileAfter_of_untouched (env : Env) (signaturesFile : String)
    (before : GoMap String) (trace : List Effect)
    (h : ∀ e ∈ trace, e.touchesSignatures = false) :
    signaturesFileAfter env signaturesFile before trace = before := by
  induction trace generalizing before with
  | nil => rfl
  | cons e rest ih =>
    have he := h e (List.mem_cons_self _ _)
    have hstep : signaturesAfterAction env signaturesFile before e = before := by
      cases e <;> simp_all [signaturesAfterAction, Effect.touchesSignatures]
    simp only [signaturesFileAfter, List.foldl_cons, hstep]
    exact ih before (fun x hx => h x (List.mem_cons_of_mem _ hx))

/-- Content of the signatures file after `updateSignaturesIfApplicable` under Update, when
the write succeeds if it is made: the same map as `currentSignatures`. -/
theorem signaturesFileAfter_update (env : Env) (signaturesFile : String)
    (srcConfig : sourceRetrievalConfiguration) (currentSignatures : GoMap String)
    (hwrite : Effect.writeJSONFile signaturesFile { FileSignatures := currentSignatures } ∈
        (updateSignaturesIfApplicable env signaturesFile srcConfig currentSignatures).2 →
      env.writeJSONFile signaturesFile { FileSignatures := currentSignatures } = none)
    (hupd : srcConfig.signatureHandling = signatureUpdate) (k : String) :
    mapGet (signaturesFileAfter env signaturesFile srcConfig.signatureLookup
      (updateSignaturesIfApplicable env signaturesFile srcConfig currentSignatures).2) k =
    mapGet currentSignatures k := by
  by_cases hd : reflectDeepEqual srcConfig.signatureLookupNil srcConfig.signatureLookup false
      currentSignatures = true
  · have hall := (mapDeepEqual_iff _ _).1 (reflectDeepEqual_true hd).2
    simp [updateSignaturesIfApplicable, hd, signaturesFileAfter, hall]
  · have hd' : reflectDeepEqual srcConfig.signatureLookupNil srcConfig.signatureLookup false
        currentSignatures = false := by
      simpa using hd
    have hw := hwrite (by simp [updateSignaturesIfApplicable, hd', hupd])
    simp [updateSignaturesIfApplicable, hd', hupd, signaturesFileAfter, signaturesAfterAction,
      hw]

/-! ## Lemmas on the output copy -/

/-- Walk of `copyOutput` from any state: earlier actions are kept; when the walk ends without
error every regular file was copied under its base name; and the path reported is the one
held before when no regular file was met, else the destination of some regular file. -/
theorem copyOutputFile_walk (env : Env) (outDir : String) (paths : List String) :
    ∀ s : String × List Effect,
    (∀ e ∈ s.2, e ∈ (filepathWalk (copyOutputFile env outDir) paths s).2.2) ∧
    ((filepathWalk (copyOutputFile env outDir) paths s).1 = none →
      ∀ p ∈ paths, env.isFile p = true →
        env.copy p (env.join outDir (env.base p)) = none ∧
        Effect.copy p (env.join outDir (env.base p)) ∈
          (filepathWalk (copyOutputFile env outDir) paths s).2.2) ∧
    (((filepathWalk (copyOutputFile env outDir) paths s).2.1 = s.1 ∧
        ∀ p ∈ paths, env.isFile p = false) ∨
      ∃ p ∈ paths, env.isFile p = true ∧
        (filepathWalk (copyOutputFile env outDir) paths s).2.1 =
          env.join outDir (env.base p)) := by
  induction paths with
  | nil =>
    intro s
    refine ⟨fun e he => he, ?_, Or.inl ⟨rfl, ?_⟩⟩
    · intro _ p hp
      exact absurd hp (by simp)
    · intro p hp
      exact absurd hp (by simp)
  | cons path rest ih =>
    intro s
    by_cases hf : env.isFile path = true
    · cases hc : env.copy path (env.join outDir (env.base path)) with
      | some x =>
        have hw : filepathWalk (copyOutputFile env outDir) (path :: rest) s =
            (some x, (env.join outDir (env.base path),
              s.2 ++ [Effect.copy path (env.join outDir (env.base path))])) := by
          simp [filepathWalk, copyOutputFile, hf, hc]
        rw [hw]
        refine ⟨?_, ?_, Or.inr ⟨path, List.mem_cons_self _ _, hf, rfl⟩⟩
        · intro e he
          exact List.mem_append_left _ he
        · intro h
          exact absurd h (by simp)
      | none =>
        have hw : filepathWalk (copyOutputFile env outDir) (path :: rest) s =
            filepathWalk (copyOutputFile env outDir) rest
              (env.join outDir (env.base path),
                s.2 ++ [Effect.copy path (env.join outDir (env.base path))]) := by
          simp [filepathWalk, copyOutputFile, hf, hc]
        rw [hw]
        obtain ⟨h1, h2, h3⟩ := ih (env.join outDir (env.base path),
          s.2 ++ [Effect.copy path (env.join outDir (env.base path))])
        refine ⟨?_, ?_, ?_⟩
        · intro e he
          exact h1 e (List.mem_append_left _ he)
        · intro hok p hp hpf
          rcases List.mem_cons.1 hp with rfl | hp'
          · exact ⟨hc, h1 _ (List.mem_append_right _ (List.mem_singleton_self _))⟩
          · exact h2 hok p hp' hpf
        · rcases h3 with ⟨h, _⟩ | ⟨p, hp, hpf, h⟩
          · exact Or.inr ⟨path, List.mem_cons_self _ _, hf, h⟩
          · exact Or.inr ⟨p, List.mem_cons_of_mem _ hp, hpf, h⟩
    · have hf' : env.isFile path = false := by simpa using hf
      have hw : filepathWalk (copyOutputFile env outDir) (path :: rest) s =
          filepathWalk (copyOutputFile env outDir) rest s := by
        simp [filepathWalk, copyOutputFile, hf']
      rw [hw]
      obtain ⟨h1, h2, h3⟩ := ih s
      refine ⟨h1, ?_, ?_⟩
      · intro hok p hp hpf
        rcases List.mem_cons.1 hp with rfl | hp'
        · rw [hf'] at hpf
          exact absurd hpf (by simp)
        · exact h2 hok p hp' hpf
      · rcases h3 with ⟨h, hall⟩ | ⟨p, hp, hpf, h⟩
        · refine Or.inl ⟨h, ?_⟩
          intro p hp
          rcases List.mem_cons.1 hp with rfl | hp'
          · exact hf'
          · exact hall p hp'
        · exact Or.inr ⟨p, List.mem_cons_of_mem _ hp, hpf, h⟩

/-- A successful body of `packSingleSPEC` ran the builder with success and ends with
`copyOutput`, whose results it returns. -/
theorem packSingleSPECBody_output (env : Env) (runCheck : Bool)
    (specFile signaturesFile workingDir outDir distTag : String)
    (srcConfig : sourceRetrievalConfiguration)
    (hok : (packSingleSPECBody env runCheck specFile signaturesFile workingDir outDir distTag
      srcConfig).err = none) :
    env.generateSRPMFromSPEC specFile workingDir (packDefines env runCheck distTag) = none ∧
    (copyOutput env workingDir outDir).1 = none ∧
    (packSingleSPECBody env runCheck specFile signaturesFile workingDir outDir distTag
      srcConfig).outputPath = (copyOutput env workingDir outDir).2.1 ∧
    Effect.generateSRPMFromSPEC specFile workingDir ∈
      (packSingleSPECBody env runCheck specFile signaturesFile workingDir outDir distTag
        srcConfig).trace ∧
    ∀ e ∈ (copyOutput env workingDir outDir).2.2,
      e ∈ (packSingleSPECBody env runCheck specFile signaturesFile workingDir outDir distTag
        srcConfig).trace := by
  unfold packSingleSPECBody at hok ⊢
  simp only [] at hok ⊢
  split at hok
  · exact absurd hok (by simp)
  · split at hok
    · exact absurd hok (by simp)
    · split at hok
      · exact absurd hok (by simp)
      · split at hok
        · exact absurd hok (by simp)
        · split at hok
          · exact absurd hok (by simp)
          · rename_i hgen
            refine ⟨hgen, hok, rfl, ?_, ?_⟩
            · simp
            · intro e he
              exact List.mem_append_right _ he

/-- A successful `packSingleSPEC` created its working directory and has the results of its
body. -/
theorem packSingleSPEC_ok (env : Env) (runCheck : Bool)
    (specFile srpmFile signaturesFile buildDir outDir distTag : String)
    (srcConfig : sourceRetrievalConfiguration)
    (hok : (packSingleSPEC env runCheck specFile srpmFile signaturesFile buildDir outDir
      distTag srcConfig).err = none) :
    (packSingleSPECBody env runCheck specFile signaturesFile
      (env.join buildDir (env.base srpmFile)) outDir distTag srcConfig).err = none ∧
    (packSingleSPEC env runCheck specFile srpmFile signaturesFile buildDir outDir
      distTag srcConfig).outputPath =
      (packSingleSPECBody env runCheck specFile signaturesFile
        (env.join buildDir (env.base srpmFile)) outDir distTag srcConfig).outputPath ∧
    ∀ e ∈ (packSingleSPECBody env runCheck specFile signaturesFile
        (env.join buildDir (env.base srpmFile)) outDir distTag srcConfig).trace,
      e ∈ (packSingleSPEC env runCheck specFile srpmFile signaturesFile buildDir outDir
        distTag srcConfig).trace := by
  cases h : env.mkdirAll (env.join buildDir (env.base srpmFile)) with
  | some x =>
    simp [packSingleSPEC, h] at hok
  | none =>
    simp only [packSingleSPEC, h] at hok ⊢
    refine ⟨hok, trivial, ?_⟩
    intro e he
    exact List.mem_cons_of_mem _ (List.mem_append_left _ he)

/-! ## Lemmas on the pack list -/

theorem mem_mapKeys_mapSet {β : Type} (m : GoMap β) (k : String) (v : β) (k' : String) :
    k' ∈ mapKeys (mapSet m k v) ↔ k' = k ∨ k' ∈ mapKeys m := by
  rw [← mapGet_isSome_iff, ← mapGet_isSome_iff, mapGet_mapSet]
  by_cases h : k = k'
  · simp [h]
  · have h' : ¬ k' = k := fun e => h e.symm
    simp [h, h']

theorem nodup_mapKeys_mapSet {β : Type} (m : GoMap β) (k : String) (v : β)
    (h : (mapKeys m).Nodup) : (mapKeys (mapSet m k v)).Nodup := by
  induction m with
  | nil => simp [mapSet, mapKeys]
  | cons p rest ih =>
    obtain ⟨a, b⟩ := p
    have hcons : a ∉ mapKeys rest ∧ (mapKeys rest).Nodup := by
      simpa [mapKeys] using h
    by_cases hak : a = k
    · subst hak
      simpa [mapSet, mapKeys] using hcons
    · have hrest := ih hcons.2
      have hnot : a ∉ mapKeys (mapSet rest k v) := by
        rw [mem_mapKeys_mapSet]
        rintro (h1 | h1)
        · exact hak h1
        · exact hcons.1 h1
      have hkeys : mapKeys (mapSet ((a, b) :: rest) k v) = a :: mapKeys (mapSet rest k v) := by
        simp [mapSet, mapKeys, hak]
      rw [hkeys]
      exact List.nodup_cons.2 ⟨hnot, hrest⟩

/-- Keys of the set built by `removeDuplicateStrings`: no key twice, and the keys are the
entries added and the keys present before. -/
theorem packListSet_keys (packList : List String) :
    ∀ acc : GoMap Unit, (mapKeys acc).Nodup →
      (mapKeys (packList.foldl (fun m entry => mapSet m entry ()) acc)).Nodup ∧
      ∀ x, x ∈ mapKeys (packList.foldl (fun m entry => mapSet m entry ()) acc) ↔
        x ∈ packList ∨ x ∈ mapKeys acc := by
  induction packList with
  | nil =>
    intro acc h
    simp [h]
  | cons entry rest ih =>
    intro acc h
    obtain ⟨h1, h2⟩ := ih (mapSet acc entry ()) (nodup_mapKeys_mapSet acc entry () h)
    simp only [List.foldl_cons]
    refine ⟨h1, ?_⟩
    intro x
    rw [h2 x, mem_mapKeys_mapSet, List.mem_cons]
    constructor
    · rintro (h | h | h)
      · exact Or.inl (Or.inr h)
      · exact Or.inl (Or.inl h)
      · exact Or.inr h
    · rintro ((h | h) | h)
      · exact Or.inr (Or.inl h)
      · exact Or.inl h
      · exact Or.inr (Or.inr h)

theorem removeDuplicateStrings_nodup (env : Env) (packList : List String) :
    (removeDuplicateStrings env packList).Nodup := by
  unfold removeDuplicateStrings
  exact (env.rangeOrder _).property.nodup_iff.2
    (packListSet_keys packList [] (by simp [mapKeys])).1

theorem mem_removeDuplicateStrings (env : Env) (packList : List String) (x : String) :
    x ∈ removeDuplicateStrings env packList ↔ x ∈ packList := by
  unfold removeDuplicateStrings
  rw [(env.rangeOrder _).property.mem_iff,
    (packListSet_keys packList [] (by simp [mapKeys])).2 x]
  simp [mapKeys]

theorem scanPackList_eq (trimSpace : String → String) (lines : List String) :
    ∀ packList, scanPackList trimSpace lines packList =
      packList ++ (lines.map trimSpace).filter (fun line => line ≠ "") := by
  induction lines with
  | nil => intro packList; simp [scanPackList]
  | cons text rest ih =>
    intro packList
    by_cases h : trimSpace text = ""
    · simp [scanPackList, h, ih]
    · simp [scanPackList, h, ih]

/-! ## Lemmas on the patch pass -/

/-- Without signature handling the local callback does not look at the configuration. -/
theorem hydrateLocalFile_skip_config (env : Env) (newSourceDir : String)
    (srcConfig srcConfig' : sourceRetrievalConfiguration) :
    hydrateLocalFile env newSourceDir srcConfig true =
      hydrateLocalFile env newSourceDir srcConfig' true := by
  funext s path
  simp [hydrateLocalFile, checkSignature]

/-- Without signature handling the local callback does not compute any digest. -/
theorem hydrateLocalFile_skip_digest (env : Env) (newSourceDir : String)
    (srcConfig : sourceRetrievalConfiguration)
    (digest : String → Except Err String) (fold : String → String → Bool) :
    hydrateLocalFile { env with generateSHA256 := digest, equalFold := fold } newSourceDir
        srcConfig true =
      hydrateLocalFile env newSourceDir srcConfig true := by
  funext s path
  simp [hydrateLocalFile, checkSignature]

/-- The two passes for patches are the local walk alone. -/
theorem hydratePasses_patch (env : Env) (workingDir : String)
    (srcConfig : sourceRetrievalConfiguration) (cur0 : GoMap String)
    (filesNeeded : List String) :
    (hydratePasses env fileTypePatch workingDir srcConfig cur0 filesNeeded).2 =
      if srcConfig.localSourceDir ≠ "" then
        (env.walk srcConfig.localSourceDir).foldl
          (fun s path => (hydrateLocalFile env (env.join workingDir "SOURCES") srcConfig true
            s path).2)
          { fileHydrationState := initialHydrationState filesNeeded
            currentSignatures := cur0
            trace := [] }
      else
        { fileHydrationState := initialHydrationState filesNeeded
          currentSignatures := cur0
          trace := [] } := by
  by_cases h : srcConfig.localSourceDir = "" <;>
    simp [hydratePasses, hydrateFromLocalSource_eq, hydrateRemotelyOf,
      skipSignatureHandlingOf, h]

/-- One step of the local walk for patches: the actions are copies, and a file is marked
hydrated only when a regular file of that name met by the walk was copied. -/
theorem patch_step (env : Env) (newSourceDir : String)
    (srcConfig : sourceRetrievalConfiguration) (s : HydrationState) (path : String)
    (hp : path ∈ env.walk srcConfig.localSourceDir)
    (h : (∀ e ∈ s.trace, ∃ src dst, e = Effect.copy src dst) ∧
      ∀ f, mapGet s.fileHydrationState f = some true →
        ∃ p ∈ env.walk srcConfig.localSourceDir, env.isFile p = true ∧ env.base p = f ∧
          env.copy p (env.join newSourceDir f) = none ∧
          Effect.copy p (env.join newSourceDir f) ∈ s.trace) :
    (∀ e ∈ (hydrateLocalFile env newSourceDir srcConfig true s path).2.trace,
        ∃ src dst, e = Effect.copy src dst) ∧
      ∀ f, mapGet (hydrateLocalFile env newSourceDir srcConfig true s
          path).2.fileHydrationState f = some true →
        ∃ p ∈ env.walk srcConfig.localSourceDir, env.isFile p = true ∧ env.base p = f ∧
          env.copy p (env.join newSourceDir f) = none ∧
          Effect.copy p (env.join newSourceDir f) ∈
            (hydrateLocalFile env newSourceDir srcConfig true s path).2.trace := by
  obtain ⟨htr, hst⟩ := h
  rcases hydrateLocalFile_cases env newSourceDir srcConfig true s path with
    h0 | ⟨hf, hg, _, ⟨hc, heq⟩ | ⟨hc, heq⟩⟩
  · rw [h0]; exact ⟨htr, hst⟩
  · rw [heq]
    refine ⟨?_, ?_⟩
    · intro e he
      simp only [List.mem_append, List.mem_singleton] at he
      rcases he with he | he
      · exact htr e he
      · exact ⟨_, _, he⟩
    · intro f hf'
      obtain ⟨p, h1, h2, h3, h4, h5⟩ := hst f hf'
      exact ⟨p, h1, h2, h3, h4, List.mem_append_left _ h5⟩
  · rw [heq]
    refine ⟨?_, ?_⟩
    · intro e he
      simp only [List.mem_append, List.mem_singleton] at he
      rcases he with he | he
      · exact htr e he
      · exact ⟨_, _, he⟩
    · intro f hf'
      simp only [mapGet_mapSet] at hf'
      by_cases hk : env.base path = f
      · subst hk
        exact ⟨path, hp, hf, rfl, hc, List.mem_append_right _ (List.mem_singleton_self _)⟩
      · simp only [if_neg hk] at hf'
        obtain ⟨p, h1, h2, h3, h4, h5⟩ := hst f hf'
        exact ⟨p, h1, h2, h3, h4, List.mem_append_left _ h5⟩

/-- State after the passes for patches: only copies were made, and every hydrated file was
copied from a regular file of that name met by the local walk. -/
theorem hydratePasses_patch_inv (env : Env) (workingDir : String)
    (srcConfig : sourceRetrievalConfiguration) (cur0 : GoMap String)
    (filesNeeded : List String) :
    (∀ e ∈ (hydratePasses env fileTypePatch workingDir srcConfig cur0 filesNeeded).2.trace,
        ∃ src dst, e = Effect.copy src dst) ∧
      ∀ f, mapGet (hydratePasses env fileTypePatch workingDir srcConfig cur0
          filesNeeded).2.fileHydrationState f = some true →
        ∃ p ∈ env.walk srcConfig.localSourceDir, env.isFile p = true ∧ env.base p = f ∧
          env.copy p (env.join (env.join workingDir "SOURCES") f) = none ∧
          Effect.copy p (env.join (env.join workingDir "SOURCES") f) ∈
            (hydratePasses env fileTypePatch workingDir srcConfig cur0 filesNeeded).2.trace := by
  have h0 : ∀ s0 : HydrationState, s0.trace = [] →
      s0.fileHydrationState = initialHydrationState filesNeeded →
      (∀ e ∈ s0.trace, ∃ src dst, e = Effect.copy src dst) ∧
      ∀ f, mapGet s0.fileHydrationState f = some true →
        ∃ p ∈ env.walk srcConfig.localSourceDir, env.isFile p = true ∧ env.base p = f ∧
          env.copy p (env.join (env.join workingDir "SOURCES") f) = none ∧
          Effect.copy p (env.join (env.join workingDir "SOURCES") f) ∈ s0.trace := by
    intro s0 ht hs
    rw [ht, hs]
    refine ⟨fun e he => absurd he (by simp), ?_⟩
    intro f hf
    simp only [initialHydrationState_get] at hf
    by_cases hk : f ∈ filesNeeded <;> simp [hk] at hf
  rw [hydratePasses_patch]
  split
  · exact foldl_invariant
      (fun s : HydrationState => (∀ e ∈ s.trace, ∃ src dst, e = Effect.copy src dst) ∧
        ∀ f, mapGet s.fileHydrationState f = some true →
          ∃ p ∈ env.walk srcConfig.localSourceDir, env.isFile p = true ∧ env.base p = f ∧
            env.copy p (env.join (env.join workingDir "SOURCES") f) = none ∧
            Effect.copy p (env.join (env.join workingDir "SOURCES") f) ∈ s.trace)
      _ _ (fun s path hp hs => patch_step env _ srcConfig s path hp hs) _ (h0 _ rfl rfl)
  · exact h0 _ rfl rfl

/-- The patch pass depends on the configuration through the local source directory only. -/
theorem hydrateFiles_patch_config (env : Env) (specFile workingDir : String)
    (srcConfig srcConfig' : sourceRetrievalConfiguration) (cur0 defines : GoMap String)
    (h : srcConfig'.localSourceDir = srcConfig.localSourceDir) :
    hydrateFiles env fileTypePatch specFile workingDir srcConfig' cur0 defines =
      hydrateFiles env fileTypePatch specFile workingDir srcConfig cur0 defines := by
  have hpass : ∀ filesNeeded,
      hydratePasses env fileTypePatch workingDir srcConfig' cur0 filesNeeded =
        hydratePasses env fileTypePatch workingDir srcConfig cur0 filesNeeded := by
    intro filesNeeded
    apply Prod.ext
    · rw [(hydratePasses_inv env fileTypePatch workingDir srcConfig' cur0 filesNeeded).1,
        (hydratePasses_inv env fileTypePatch workingDir srcConfig cur0 filesNeeded).1]
    · rw [hydratePasses_patch, hydratePasses_patch, h,
        hydrateLocalFile_skip_config env _ srcConfig' srcConfig]
  cases hq : readSPECTagArray env specFile srcConfig.localSourceDir
      (specTagOf fileTypePatch) defines with
  | error x => simp only [hydrateFiles, h, hq]
  | ok filesNeeded =>
    simp only [hydrateFiles, h, hq]
    exact congrArg (fun r : Option Err × HydrationState =>
      ({ err := hydrationError r.2.fileHydrationState
           (env.rangeOrder (mapKeys r.2.fileHydrationState)).val r.1,
         currentSignatures := r.2.currentSignatures,
         fileHydrationState := r.2.fileHydrationState,
         trace := r.2.trace } : HydrateResult)) (hpass filesNeeded)

/-- The patch pass does not depend on the digest and case-folding oracles. -/
theorem hydrateFiles_patch_digest (env : Env) (specFile workingDir : String)
    (srcConfig : sourceRetrievalConfiguration) (cur0 defines : GoMap String)
    (digest : String → Except Err String) (fold : String → String → Bool) :
    hydrateFiles { env with generateSHA256 := digest, equalFold := fold } fileTypePatch
        specFile workingDir srcConfig cur0 defines =
      hydrateFiles env fileTypePatch specFile workingDir srcConfig cur0 defines := by
  have hpass : ∀ filesNeeded,
      hydratePasses { env with generateSHA256 := digest, equalFold := fold } fileTypePatch
          workingDir srcConfig cur0 filesNeeded =
        hydratePasses env fileTypePatch workingDir srcConfig cur0 filesNeeded := by
    intro filesNeeded
    apply Prod.ext
    · rw [(hydratePasses_inv _ fileTypePatch workingDir srcConfig cur0 filesNeeded).1,
        (hydratePasses_inv env fileTypePatch workingDir srcConfig cur0 filesNeeded).1]
    · rw [hydratePasses_patch, hydratePasses_patch]
      simp only [hydrateLocalFile_skip_digest]
  have hquery : readSPECTagArray { env with generateSHA256 := digest, equalFold := fold }
      specFile srcConfig.localSourceDir (specTagOf fileTypePatch) defines =
      readSPECTagArray env specFile srcConfig.localSourceDir (specTagOf fileTypePatch)
        defines := rfl
  cases hq : readSPECTagArray env specFile srcConfig.localSourceDir
      (specTagOf fileTypePatch) defines with
  | error x => simp only [hydrateFiles, hquery, hq]
  | ok filesNeeded =>
    simp only [hydrateFiles, hquery, hq]
    exact congrArg (fun r : Option Err × HydrationState =>
      ({ err := hydrationError r.2.fileHydrationState
           (env.rangeOrder (mapKeys r.2.fileHydrationState)).val r.1,
         currentSignatures := r.2.currentSignatures,
         fileHydrationState := r.2.fileHydrationState,
         trace := r.2.trace } : HydrateResult)) (hpass filesNeeded)

/-! ## Lemmas on the worker pools -/

/-- Every branch of the stage-1 worker body sends exactly the state the body computes. -/
theorem specsToPackWorkerSends_eq (env : Env) (distTag outDir : String)
    (nestedSourcesDir repackAll runCheck : Bool) (specFile : String) :
    specsToPackWorkerSends env distTag outDir nestedSourcesDir repackAll runCheck specFile =
      [specsToPackWorker env distTag outDir nestedSourcesDir repackAll runCheck specFile] := by
  unfold specsToPackWorkerSends specsToPackWorker
  simp only []
  split
  · split <;> rfl
  · split
    · rfl
    · split
      · rfl
      · split
        · rfl
        · split
          · rfl
          · split
            · rfl
            · split
              · rfl
              · split <;> rfl

theorem specsToPackWorker_specFile (env : Env) (distTag outDir : String)
    (nestedSourcesDir repackAll runCheck : Bool) (specFile : String) :
    (specsToPackWorker env distTag outDir nestedSourcesDir repackAll runCheck
      specFile).specFile = specFile := by
  unfold specsToPackWorker
  simp only []
  split
  · split <;> rfl
  · split
    · rfl
    · split
      · rfl
      · split
        · rfl
        · split
          · rfl
          · split
            · rfl
            · split
              · rfl
              · split <;> rfl

/-- Every branch of the stage-2 worker body sends exactly the result the body computes. -/
theorem packSRPMWorkerSends_eq (env : Env) (runCheck : Bool) (distTag buildDir : String)
    (templateSrcConfig : sourceRetrievalConfiguration) (state : specState) :
    packSRPMWorkerSends env runCheck distTag buildDir templateSrcConfig state =
      [(packSRPMWorker env runCheck distTag buildDir templateSrcConfig state).1] := by
  unfold packSRPMWorkerSends packSRPMWorker
  simp only []
  split
  · rfl
  · split
    · rfl
    · split
      · rfl
      · split <;> rfl

theorem packSRPMWorker_specFile (env : Env) (runCheck : Bool) (distTag buildDir : String)
    (templateSrcConfig : sourceRetrievalConfiguration) (state : specState) :
    (packSRPMWorker env runCheck distTag buildDir templateSrcConfig state).1.specFile =
      state.specFile := by
  unfold packSRPMWorker
  simp only []
  split
  · rfl
  · split
    · rfl
    · split
      · rfl
      · split <;> rfl

/-- A worker whose body sends one result per request sends one result for each request it
serves, in the order of service. -/
theorem workerLoop_single {α β : Type} (body : α → List β) (f : α → β)
    (h : ∀ a, body a = [f a]) (cancelled : Nat → Bool) (requests : List α) :
    ∀ i, workerLoop body cancelled requests i =
      (servedRequests cancelled requests i).map f := by
  induction requests with
  | nil => intro i; rfl
  | cons request rest ih =>
    intro i
    by_cases hc : cancelled i = true
    · simp [workerLoop, servedRequests, hc]
    · simp [workerLoop, servedRequests, hc, h, ih]

theorem servedRequests_never {α : Type} (cancelled : Nat → Bool)
    (h : ∀ i, cancelled i = false) (requests : List α) :
    ∀ i, servedRequests cancelled requests i = requests := by
  induction requests with
  | nil => intro i; rfl
  | cons request rest ih =>
    intro i
    simp [servedRequests, h, ih]

theorem flatten_map_single {α β : Type} (body : α → List β) (f : α → β)
    (h : ∀ a, body a = [f a]) (l : List α) : (l.map body).flatten = l.map f := by
  induction l with
  | nil => rfl
  | cons a rest ih => simp [h, ih]

/-- With at least one worker and a body that sends one result per request, the results of a
pool are those of the requests in the order of service. -/
theorem poolResults_single {α β : Type} (sched : Scheduler) (workers : Int)
    (body : α → List β) (f : α → β) (h : ∀ a, body a = [f a]) (hw : 0 < workers)
    (work : List α) :
    poolResults sched workers body work = (sched.arrival work).val.map f := by
  have hnot : ¬ workers ≤ 0 := by omega
  simp only [poolResults, if_neg hnot]
  exact flatten_map_single body f h _

theorem poolResults_length {α β : Type} (sched : Scheduler) (workers : Int)
    (body : α → List β) (f : α → β) (h : ∀ a, body a = [f a]) (hw : 0 < workers)
    (work : List α) :
    (poolResults sched workers body work).length = work.length := by
  rw [poolResults_single sched workers body f h hw, List.length_map]
  exact (sched.arrival work).property.length_eq

/-- The drain loop returns when the channel receives as many results as it counts; a result
read with an error gives the error returned, and there is no error when no result read has
one. -/
theorem drainResults_spec {β : Type} (errOf : β → Option Err) :
    ∀ (n : Nat) (channel : List β), n ≤ channel.length →
      ∃ drained err, drainResults errOf n channel = some (drained, err) ∧
        (∀ r ∈ drained, ∀ e, errOf r = some e → err = some e) ∧
        ((∀ r ∈ drained, errOf r = none) → err = none) := by
  intro n
  induction n with
  | zero =>
    intro channel _
    exact ⟨[], none, rfl, fun r hr => absurd hr (by simp), fun _ => rfl⟩
  | succ n ih =>
    intro channel hlen
    match channel, hlen with
    | [], hlen => simp at hlen
    | result :: rest, hlen =>
      cases he : errOf result with
      | some e =>
        refine ⟨[result], some e, by simp [drainResults, he], ?_, ?_⟩
        · intro r hr e' he'
          simp only [List.mem_singleton] at hr
          subst hr
          rw [he] at he'
          exact he'
        · intro hall
          have := hall result (List.mem_singleton_self _)
          rw [he] at this
          exact absurd this (by simp)
      | none =>
        obtain ⟨d, err, hd, h1, h2⟩ := ih rest (by simpa using hlen)
        refine ⟨result :: d, err, by simp [drainResults, he, hd], ?_, ?_⟩
        · intro r hr e' he'
          rcases List.mem_cons.1 hr with rfl | hr'
          · rw [he] at he'
            exact absurd he' (by simp)
          · exact h1 r hr' e' he'
        · intro hall
          exact h2 (fun r hr => hall r (List.mem_cons_of_mem _ hr))

/-- A drain that ends without error has read as many results as it counts. -/
theorem drainResults_length {β : Type} (errOf : β → Option Err) :
    ∀ (n : Nat) (channel drained : List β),
      drainResults errOf n channel = some (drained, none) → drained.length = n := by
  intro n
  induction n with
  | zero =>
    intro channel drained h
    simp only [drainResults, Option.some.injEq, Prod.mk.injEq] at h
    rw [← h.1]; rfl
  | succ n ih =>
    intro channel drained h
    match channel, h with
    | [], h => simp [drainResults] at h
    | result :: rest, h =>
      cases he : errOf result with
      | some e => simp [drainResults, he] at h
      | none =>
        cases hd : drainResults errOf n rest with
        | none => simp [drainResults, he, hd] at h
        | some d =>
          simp only [drainResults, he, hd, Option.some.injEq, Prod.mk.injEq] at h
          obtain ⟨h1, h2⟩ := h
          have hdl := ih rest d.1 (by rw [hd, ← h2])
          rw [← h1, List.length_cons, hdl]

/-- Byte size of a string of `n` letters `x`. -/
theorem utf8ByteSize_go_replicate (n : Nat) :
    String.utf8ByteSize.go (List.replicate n 'x') = n := by
  induction n with
  | zero => rfl
  | succ k ih =>
    rw [List.replicate_succ, String.utf8ByteSize.go, ih]
    rfl

/-- The long line of the examples has 70000 bytes. -/
theorem longLine_utf8ByteSize : longLine.utf8ByteSize = 70000 :=
  utf8ByteSize_go_replicate 70000

/-- Trimming leaves a string of letters `x` as it is. -/
theorem exampleTrimSpace_replicate (n : Nat) :
    exampleTrimSpace (String.mk (List.replicate (n + 1) 'x')) =
      String.mk (List.replicate (n + 1) 'x') := by
  have h1 : ∀ l : List Char,
      List.dropWhile (fun c => c == ' ' || c == '\t') ('x' :: l) = 'x' :: l := by
    intro l
    rw [List.dropWhile_cons]
    rfl
  unfold exampleTrimSpace
  show String.mk ((((List.replicate (n + 1) 'x').dropWhile _).reverse.dropWhile _).reverse) = _
  rw [List.replicate_succ, h1, ← List.replicate_succ, List.reverse_replicate,
    List.replicate_succ, h1, ← List.replicate_succ, List.reverse_replicate]

/-- The scanner hands out every line of a file whose lines all fit its buffer. -/
theorem scannerLines_of_short (lines : List String)
    (hshort : ∀ text ∈ lines, text.utf8ByteSize < maxScanTokenSize) :
    scannerLines lines = lines := by
  unfold scannerLines
  rw [List.takeWhile_eq_self_iff]
  intro text ht
  simpa using hshort text ht

/-- The scanner hands out the lines before the first line that does not fit its buffer. -/
theorem scannerLines_append_long (before after : List String) (long : String)
    (hshort : ∀ text ∈ before, text.utf8ByteSize < maxScanTokenSize)
    (hlong : maxScanTokenSize ≤ long.utf8ByteSize) :
    scannerLines (before ++ long :: after) = before := by
  unfold scannerLines
  induction before with
  | nil =>
    rw [List.nil_append, List.takeWhile_cons]
    simp [Nat.not_lt.2 hlong]
  | cons b rest ih =>
    rw [List.cons_append, List.takeWhile_cons]
    have hb := hshort b (List.mem_cons_self b rest)
    simp only [hb, decide_True, if_true]
    rw [ih (fun text ht => hshort text (List.mem_cons_of_mem b ht))]

/-! ## Lemmas on the content of the hydrated files -/

theorem contentAfter_append (env : Env) (dst : String) (origin : Option String)
    (t1 t2 : List Effect) :
    contentAfter env dst origin (t1 ++ t2) =
      contentAfter env dst (contentAfter env dst origin t1) t2 := by
  simp [contentAfter, List.foldl_append]

/-- Actions that leave the file `dst` as it is leave its content. -/
theorem contentAfter_of_other (env : Env) (dst : String) (trace : List Effect)
    (h : ∀ e ∈ trace, ∀ origin, contentAfterAction env dst origin e = origin)
    (origin : Option String) : contentAfter env dst origin trace = origin := by
  induction trace generalizing origin with
  | nil => rfl
  | cons e rest ih =>
    show contentAfter env dst (contentAfterAction env dst origin e) rest = origin
    rw [h e (List.mem_cons_self _ _) origin]
    exact ih (fun x hx => h x (List.mem_cons_of_mem _ hx)) origin

/-- A run of `retry.Run` never makes fewer attempts than were made before it. -/
theorem retryRun_tried (f : Nat → Option Err) :
    ∀ attempts tried last, tried ≤ (retryRun f attempts tried last).2 := by
  intro attempts
  induction attempts with
  | zero => intro tried last; simp [retryRun]
  | succ n ih =>
    intro tried last
    simp only [retryRun]
    split
    · simp
    · exact Nat.le_trans (Nat.le_succ tried) (ih (tried + 1) _)

/-- A run of `retry.Run` that is allowed an attempt makes one more at least. -/
theorem retryRun_succ_tried (f : Nat → Option Err) (n tried : Nat) (last : Option Err) :
    tried + 1 ≤ (retryRun f (n + 1) tried last).2 := by
  show tried + 1 ≤ (match f tried with
    | none => (none, tried + 1)
    | some e => retryRun f n (tried + 1) (some e)).2
  cases f tried with
  | none => simp
  | some e => exact retryRun_tried f n (tried + 1) (some e)

/-- A run of `retry.Run` with three attempts makes at least one. -/
theorem retryRun_pos (f : Nat → Option Err) : 0 < (retryRun f 3 0 none).2 :=
  Nat.lt_of_lt_of_le Nat.zero_lt_one (by simpa using retryRun_succ_tried f 2 0 none)

/-- After the download attempts of a run that succeeds, the destination holds the
downloaded file. -/
theorem contentAfter_download (env : Env) (dst url : String) (n : Nat) (hn : 0 < n)
    (hr : (retryRun (env.downloadFile url dst) 3 0 none).1 = none) (origin : Option String) :
    contentAfter env dst origin (List.replicate n (Effect.downloadFile url dst)) =
      some dst := by
  induction n generalizing origin with
  | zero => exact absurd hn (by simp)
  | succ k ih =>
    rw [List.replicate_succ]
    show contentAfter env dst
      (contentAfterAction env dst origin (Effect.downloadFile url dst))
      (List.replicate k (Effect.downloadFile url dst)) = some dst
    have h1 : contentAfterAction env dst origin (Effect.downloadFile url dst) = some dst := by
      simp [contentAfterAction, hr]
    rw [h1]
    cases k with
    | zero => rfl
    | succ j => exact ih (Nat.succ_pos j) (some dst)

/-- Destinations of distinct needed files are distinct when needed files are base names. -/
theorem join_injective_of_base (env : Env) (newSourceDir : String) (filesNeeded : List String)
    (hB : ∀ f ∈ filesNeeded, env.base (env.join newSourceDir f) = f) (f g : String)
    (hf : f ∈ filesNeeded) (hg : g ∈ filesNeeded)
    (h : env.join newSourceDir f = env.join newSourceDir g) : f = g := by
  rw [← hB f hf, ← hB g hg, h]

/-- Actions on other files keep a file hydrated from the same copy. -/
theorem HydratedBy_append_other (env : Env) (srcConfig : sourceRetrievalConfiguration)
    (newSourceDir fileName path : String) (trace extra : List Effect)
    (h : HydratedBy env srcConfig newSourceDir fileName path trace)
    (hother : ∀ e ∈ extra, ∀ origin,
      contentAfterAction env (env.join newSourceDir fileName) origin e = origin) :
    HydratedBy env srcConfig newSourceDir fileName path (trace ++ extra) := by
  obtain ⟨hfrom, hcontent⟩ := h
  refine ⟨?_, ?_⟩
  · rcases hfrom with ⟨h1, h2, h3, h4, h5⟩ | ⟨h1, h2, h3⟩
    · exact Or.inl ⟨h1, h2, h3, h4, List.mem_append_left _ h5⟩
    · exact Or.inr ⟨h1, h2, List.mem_append_left _ h3⟩
  · intro origin
    rw [contentAfter_append, hcontent origin]
    exact contentAfter_of_other env _ extra hother _

/-- A file hydrated by some actions can be hydrated from the path. -/
theorem HydratedFrom_of_HydratedBy (env : Env) (srcConfig : sourceRetrievalConfiguration)
    (newSourceDir fileName path : String) (trace : List Effect)
    (h : HydratedBy env srcConfig newSourceDir fileName path trace) :
    HydratedFrom env srcConfig newSourceDir fileName path := by
  rcases h.1 with ⟨h1, h2, h3, h4, _⟩ | ⟨h1, h2, _⟩
  · exact Or.inl ⟨h1, h2, h3, h4⟩
  · exact Or.inr ⟨h1, h2⟩

/-- One step of a pass preserves the invariant on hydrated files: the step concerns a key
that is not yet hydrated, its actions leave the destinations of the other keys as they are,
and it marks the key hydrated only after a successful signature step on the file its actions
hydrated the key from. -/
theorem CopyInv_step (env : Env) (srcConfig : sourceRetrievalConfiguration)
    (newSourceDir : String) (skip : Bool) (filesNeeded : List String) (cur0 : GoMap String)
    (s s' : HydrationState) (key path : String) (extra : List Effect)
    (hB : ∀ f ∈ filesNeeded, env.base (env.join newSourceDir f) = f)
    (hP : PassInv env srcConfig newSourceDir skip filesNeeded cur0 s)
    (h : CopyInv env srcConfig newSourceDir skip s)
    (hkey : mapGet s.fileHydrationState key = some false)
    (hbase : env.base path = key)
    (htrace : s'.trace = s.trace ++ extra)
    (hextra : ∀ e ∈ extra, ∀ dst, dst ≠ env.join newSourceDir key →
      ∀ origin, contentAfterAction env dst origin e = origin)
    (hcur : s'.currentSignatures = s.currentSignatures ∨
      s'.currentSignatures = (checkSignature env skip path srcConfig s.currentSignatures).2)
    (hstate : s'.fileHydrationState = s.fileHydrationState ∨
      (s'.fileHydrationState = mapSet s.fileHydrationState key true ∧
        (checkSignature env skip path srcConfig s.currentSignatures).1 = none ∧
        s'.currentSignatures = (checkSignature env skip path srcConfig s.currentSignatures).2 ∧
        HydratedBy env srcConfig newSourceDir key path s'.trace)) :
    CopyInv env srcConfig newSourceDir skip s' := by
  have hkeyK : key ∈ filesNeeded := (hP.keys key).1 (by rw [hkey]; rfl)
  intro f hf
  by_cases hkf : key = f
  · have hs : s'.fileHydrationState = mapSet s.fileHydrationState key true ∧
        (checkSignature env skip path srcConfig s.currentSignatures).1 = none ∧
        s'.currentSignatures = (checkSignature env skip path srcConfig s.currentSignatures).2 ∧
        HydratedBy env srcConfig newSourceDir key path s'.trace := by
      rcases hstate with hs | hs
      · rw [hs, ← hkf, hkey] at hf
        exact absurd hf (by simp)
      · exact hs
    obtain ⟨_, hok, hc, hby⟩ := hs
    refine ⟨path, by rw [← hkf]; exact hby, ?_⟩
    intro hs1 hs2
    subst hs1
    obtain ⟨d, hsha, hval, henf⟩ :=
      checkSignature_ok env path srcConfig s.currentSignatures hs2 hok
    refine ⟨d, hsha, ?_, ?_⟩
    · rw [hc, hval, hbase, hkf, mapGet_mapSet_self]
    · intro he
      obtain ⟨e, h1, h2⟩ := henf he
      rw [hbase, hkf] at h1
      exact ⟨e, h1, h2⟩
  · have hold : mapGet s.fileHydrationState f = some true := by
      rcases hstate with hs | ⟨hs, _⟩
      · rw [hs] at hf; exact hf
      · rw [hs, mapGet_mapSet_ne _ _ _ _ hkf] at hf; exact hf
    have hfK : f ∈ filesNeeded := (hP.keys f).1 (by rw [hold]; rfl)
    have hdst : env.join newSourceDir f ≠ env.join newSourceDir key := fun hj =>
      hkf (join_injective_of_base env newSourceDir filesNeeded hB f key hfK hkeyK hj).symm
    have hcurget : mapGet s'.currentSignatures f = mapGet s.currentSignatures f := by
      rcases hcur with hc | hc
      · rw [hc]
      · rw [hc]
        exact checkSignature_get_ne env skip path srcConfig _ f (by rw [hbase]; exact hkf)
    obtain ⟨p, hby, hsig⟩ := h f hold
    refine ⟨p, ?_, ?_⟩
    · rw [htrace]
      exact HydratedBy_append_other env srcConfig newSourceDir f p s.trace extra hby
        (fun e he origin => hextra e he _ hdst origin)
    · intro hs1 hs2
      obtain ⟨d, h1, h2, h3⟩ := hsig hs1 hs2
      exact ⟨d, h1, by rw [hcurget]; exact h2, h3⟩

/-- The remote loop body on a key whose download and signature step succeed. -/
theorem hydrateRemoteFile_hydrated (env : Env) (newSourceDir : String)
    (srcConfig : sourceRetrievalConfiguration) (skip : Bool) (s : HydrationState)
    (fileName : String)
    (hg : mapGet s.fileHydrationState fileName = some false)
    (hr : (retryRun (env.downloadFile (env.joinURL srcConfig.sourceURL fileName)
      (env.join newSourceDir fileName)) 3 0 none).1 = none)
    (hv : (checkSignature env skip (env.join newSourceDir fileName) srcConfig
      s.currentSignatures).1 = none) :
    hydrateRemoteFile env newSourceDir srcConfig skip s fileName =
      { fileHydrationState := mapSet s.fileHydrationState fileName true
        currentSignatures := (checkSignature env skip (env.join newSourceDir fileName)
          srcConfig s.currentSignatures).2
        trace := s.trace ++ List.replicate
          (retryRun (env.downloadFile (env.joinURL srcConfig.sourceURL fileName)
            (env.join newSourceDir fileName)) 3 0 none).2
          (Effect.downloadFile (env.joinURL srcConfig.sourceURL fileName)
            (env.join newSourceDir fileName)) } := by
  simp only [hydrateRemoteFile, hg, hr, hv]

theorem CopyInv_local (env : Env) (srcConfig : sourceRetrievalConfiguration)
    (newSourceDir : String) (skip : Bool) (filesNeeded : List String) (cur0 : GoMap String)
    (s : HydrationState) (path : String)
    (hB : ∀ f ∈ filesNeeded, env.base (env.join newSourceDir f) = f)
    (hp : path ∈ env.walk srcConfig.localSourceDir)
    (hP : PassInv env srcConfig newSourceDir skip filesNeeded cur0 s)
    (h : CopyInv env srcConfig newSourceDir skip s) :
    CopyInv env srcConfig newSourceDir skip
      (hydrateLocalFile env newSourceDir srcConfig skip s path).2 := by
  have hextra : ∀ e ∈ [Effect.copy path (env.join newSourceDir (env.base path))],
      ∀ dst, dst ≠ env.join newSourceDir (env.base path) →
      ∀ origin, contentAfterAction env dst origin e = origin := by
    intro e he dst hd origin
    simp only [List.mem_singleton] at he
    subst he
    simp [contentAfterAction, Ne.symm hd]
  rcases hydrateLocalFile_cases env newSourceDir srcConfig skip s path with
    h0 | ⟨hf, hg, hv, ⟨hc, heq⟩ | ⟨hc, heq⟩⟩
  · rw [h0]; exact h
  · rw [heq]
    exact CopyInv_step env srcConfig newSourceDir skip filesNeeded cur0 s _ (env.base path)
      path _ hB hP h hg rfl rfl hextra (Or.inr rfl) (Or.inl rfl)
  · rw [heq]
    refine CopyInv_step env srcConfig newSourceDir skip filesNeeded cur0 s _ (env.base path)
      path _ hB hP h hg rfl rfl hextra (Or.inr rfl) (Or.inr ⟨rfl, hv, rfl, ?_, ?_⟩)
    · exact Or.inl ⟨hp, hf, rfl, hc, by simp⟩
    · intro origin
      show contentAfter env _ origin (s.trace ++ [Effect.copy path _]) = some path
      rw [contentAfter_append]
      simp [contentAfter, contentAfterAction, hc]

theorem CopyInv_remote (env : Env) (srcConfig : sourceRetrievalConfiguration)
    (newSourceDir : String) (skip : Bool) (filesNeeded : List String) (cur0 : GoMap String)
    (s : HydrationState) (fileName : String)
    (hB : ∀ f ∈ filesNeeded, env.base (env.join newSourceDir f) = f)
    (hP : PassInv env srcConfig newSourceDir skip filesNeeded cur0 s)
    (h : CopyInv env srcConfig newSourceDir skip s) :
    CopyInv env srcConfig newSourceDir skip
      (hydrateRemoteFile env newSourceDir srcConfig skip s fileName) := by
  have hdl : ∀ n, ∀ e ∈ List.replicate n
      (Effect.downloadFile (env.joinURL srcConfig.sourceURL fileName)
        (env.join newSourceDir fileName)),
      ∀ dst, dst ≠ env.join newSourceDir fileName →
      ∀ origin, contentAfterAction env dst origin e = origin := by
    intro n e he dst hd origin
    rw [List.eq_of_mem_replicate he]
    simp [contentAfterAction, Ne.symm hd]
  rcases hydrateRemoteFile_cases env newSourceDir srcConfig skip s fileName with
    h0 | ⟨hg, ⟨n, extra, heq, hex⟩ | ⟨hr, hv, _, _⟩⟩
  · rw [h0]; exact h
  · have hb : env.base (env.join newSourceDir fileName) = fileName :=
      hB fileName ((hP.keys fileName).1 (by rw [hg]; rfl))
    rw [heq]
    refine CopyInv_step env srcConfig newSourceDir skip filesNeeded cur0 s _ fileName
      (env.join newSourceDir fileName) _ hB hP h hg hb (List.append_assoc _ _ _) ?_
      (Or.inl rfl) (Or.inl rfl)
    intro e he dst hd origin
    rw [List.mem_append] at he
    rcases he with he | he
    · exact hdl n e he dst hd origin
    · rcases hex with hx | hx
      · rw [hx] at he; exact absurd he (by simp)
      · rw [hx, List.mem_singleton] at he
        subst he
        simp [contentAfterAction, Ne.symm hd]
  · have hb : env.base (env.join newSourceDir fileName) = fileName :=
      hB fileName ((hP.keys fileName).1 (by rw [hg]; rfl))
    rw [hydrateRemoteFile_hydrated env newSourceDir srcConfig skip s fileName hg hr hv]
    have hpos := retryRun_pos (env.downloadFile (env.joinURL srcConfig.sourceURL fileName)
      (env.join newSourceDir fileName))
    refine CopyInv_step env srcConfig newSourceDir skip filesNeeded cur0 s _ fileName
      (env.join newSourceDir fileName) _ hB hP h hg hb rfl (hdl _)
      (Or.inr rfl) (Or.inr ⟨rfl, hv, rfl, ?_, ?_⟩)
    · refine Or.inr ⟨rfl, hr, List.mem_append_right _ ?_⟩
      rw [List.mem_replicate]
      exact ⟨Nat.pos_iff_ne_zero.1 hpos, rfl⟩
    · intro origin
      show contentAfter env _ origin (s.trace ++ List.replicate _ _) = some _
      rw [contentAfter_append]
      exact contentAfter_download env _ _ _ hpos hr _

/-- The state after both passes satisfies the invariant on hydrated files, when needed files
are base names. -/
theorem hydratePasses_copyInv (env : Env) (fileTypeToHydrate : fileType)
    (workingDir : String) (srcConfig : sourceRetrievalConfiguration) (cur0 : GoMap String)
    (filesNeeded : List String)
    (hB : ∀ f ∈ filesNeeded, env.base (env.join (env.join workingDir "SOURCES") f) = f) :
    CopyInv env srcConfig (env.join workingDir "SOURCES")
      (skipSignatureHandlingOf fileTypeToHydrate)
      (hydratePasses env fileTypeToHydrate workingDir srcConfig cur0 filesNeeded).2 := by
  have h0 : PassInv env srcConfig (env.join workingDir "SOURCES")
      (skipSignatureHandlingOf fileTypeToHydrate) filesNeeded cur0
      { fileHydrationState := initialHydrationState filesNeeded
        currentSignatures := cur0
        trace := [] } ∧
    CopyInv env srcConfig (env.join workingDir "SOURCES")
      (skipSignatureHandlingOf fileTypeToHydrate)
      { fileHydrationState := initialHydrationState filesNeeded
        currentSignatures := cur0
        trace := [] } := by
    refine ⟨PassInv_init env srcConfig _ _ filesNeeded cur0, ?_⟩
    intro f hf
    simp only [initialHydrationState_get] at hf
    by_cases hk : f ∈ filesNeeded <;> simp [hk] at hf
  have hl : ∀ s, (PassInv env srcConfig (env.join workingDir "SOURCES")
      (skipSignatureHandlingOf fileTypeToHydrate) filesNeeded cur0 s ∧
      CopyInv env srcConfig (env.join workingDir "SOURCES")
        (skipSignatureHandlingOf fileTypeToHydrate) s) →
      (PassInv env srcConfig (env.join workingDir "SOURCES")
        (skipSignatureHandlingOf fileTypeToHydrate) filesNeeded cur0
        ((env.walk srcConfig.localSourceDir).foldl
          (fun s path => (hydrateLocalFile env (env.join workingDir "SOURCES") srcConfig
            (skipSignatureHandlingOf fileTypeToHydrate) s path).2) s) ∧
      CopyInv env srcConfig (env.join workingDir "SOURCES")
        (skipSignatureHandlingOf fileTypeToHydrate)
        ((env.walk srcConfig.localSourceDir).foldl
          (fun s path => (hydrateLocalFile env (env.join workingDir "SOURCES") srcConfig
            (skipSignatureHandlingOf fileTypeToHydrate) s path).2) s)) := by
    intro s hs
    exact foldl_invariant
      (fun s => PassInv env srcConfig (env.join workingDir "SOURCES")
        (skipSignatureHandlingOf fileTypeToHydrate) filesNeeded cur0 s ∧
        CopyInv env srcConfig (env.join workingDir "SOURCES")
          (skipSignatureHandlingOf fileTypeToHydrate) s) _ _
      (fun s' path hp hP =>
        ⟨PassInv_local env srcConfig _ _ filesNeeded cur0 s' path hp hP.1,
          CopyInv_local env srcConfig _ _ filesNeeded cur0 s' path hB hp hP.1 hP.2⟩) s hs
  have hr : ∀ s, (PassInv env srcConfig (env.join workingDir "SOURCES")
      (skipSignatureHandlingOf fileTypeToHydrate) filesNeeded cur0 s ∧
      CopyInv env srcConfig (env.join workingDir "SOURCES")
        (skipSignatureHandlingOf fileTypeToHydrate) s) →
      (PassInv env srcConfig (env.join workingDir "SOURCES")
        (skipSignatureHandlingOf fileTypeToHydrate) filesNeeded cur0
        (hydrateFromRemoteSource env (env.join workingDir "SOURCES") srcConfig
          (skipSignatureHandlingOf fileTypeToHydrate) s) ∧
      CopyInv env srcConfig (env.join workingDir "SOURCES")
        (skipSignatureHandlingOf fileTypeToHydrate)
        (hydrateFromRemoteSource env (env.join workingDir "SOURCES") srcConfig
          (skipSignatureHandlingOf fileTypeToHydrate) s)) := by
    intro s hs
    unfold hydrateFromRemoteSource
    exact foldl_invariant
      (fun s => PassInv env srcConfig (env.join workingDir "SOURCES")
        (skipSignatureHandlingOf fileTypeToHydrate) filesNeeded cur0 s ∧
        CopyInv env srcConfig (env.join workingDir "SOURCES")
          (skipSignatureHandlingOf fileTypeToHydrate) s) _ _
      (fun s' f _ hP =>
        ⟨PassInv_remote env srcConfig _ _ filesNeeded cur0 s' f hP.1,
          CopyInv_remote env srcConfig _ _ filesNeeded cur0 s' f hB hP.1 hP.2⟩) s hs
  unfold hydratePasses
  simp only [hydrateFromLocalSource_eq]
  split
  · split
    · exact (hr _ (hl _ h0)).2
    · exact (hr _ h0).2
  · split
    · exact (hl _ h0).2
    · exact h0.2

/-- Files hydrated by a successful `hydrateFiles`: every needed file was hydrated by the
actions of the call from a file whose digest, when signatures are handled, is the signature
recorded, and under Enforce matches the lookup. -/
theorem hydrateFiles_copyInv (env : Env) (fileTypeToHydrate : fileType)
    (specFile workingDir : String) (srcConfig : sourceRetrievalConfiguration)
    (cur0 defines : GoMap String) (filesNeeded : List String)
    (hq : readSPECTagArray env specFile srcConfig.localSourceDir
      (specTagOf fileTypeToHydrate) defines = .ok filesNeeded)
    (hB : ∀ f ∈ filesNeeded, env.base (env.join (env.join workingDir "SOURCES") f) = f) :
    CopyInv env srcConfig (env.join workingDir "SOURCES")
      (skipSignatureHandlingOf fileTypeToHydrate)
      { fileHydrationState := (hydrateFiles env fileTypeToHydrate specFile workingDir
          srcConfig cur0 defines).fileHydrationState
        currentSignatures := (hydrateFiles env fileTypeToHydrate specFile workingDir
          srcConfig cur0 defines).currentSignatures
        trace := (hydrateFiles env fileTypeToHydrate specFile workingDir srcConfig cur0
          defines).trace } := by
  have hinv := hydratePasses_copyInv env fileTypeToHydrate workingDir srcConfig cur0
    filesNeeded hB
  have hfields : (hydrateFiles env fileTypeToHydrate specFile workingDir srcConfig cur0
      defines).fileHydrationState = (hydratePasses env fileTypeToHydrate workingDir srcConfig
        cur0 filesNeeded).2.fileHydrationState ∧
      (hydrateFiles env fileTypeToHydrate specFile workingDir srcConfig cur0
        defines).currentSignatures = (hydratePasses env fileTypeToHydrate workingDir
          srcConfig cur0 filesNeeded).2.currentSignatures ∧
      (hydrateFiles env fileTypeToHydrate specFile workingDir srcConfig cur0
        defines).trace = (hydratePasses env fileTypeToHydrate workingDir srcConfig cur0
          filesNeeded).2.trace := by
    simp [hydrateFiles, hq]
  rw [hfields.1, hfields.2.1, hfields.2.2]
  exact hinv

/-- Actions performed before those that hydrated a file keep it hydrated from the same
copy. -/
theorem HydratedBy_prepend (env : Env) (srcConfig : sourceRetrievalConfiguration)
    (newSourceDir fileName path : String) (before trace : List Effect)
    (h : HydratedBy env srcConfig newSourceDir fileName path trace) :
    HydratedBy env srcConfig newSourceDir fileName path (before ++ trace) := by
  obtain ⟨hfrom, hcontent⟩ := h
  refine ⟨?_, ?_⟩
  · rcases hfrom with ⟨h1, h2, h3, h4, h5⟩ | ⟨h1, h2, h3⟩
    · exact Or.inl ⟨h1, h2, h3, h4, List.mem_append_right _ h5⟩
    · exact Or.inr ⟨h1, h2, List.mem_append_right _ h3⟩
  · intro origin
    rw [contentAfter_append]
    exact hcontent _

/-- Actions of a successful body of `packSingleSPEC`, in order: those that precede the
hydration of the sources, the hydration of the sources, the update of the signatures file,
the run of the builder, and those that follow. -/
theorem packSingleSPECBody_ok_trace (env : Env) (runCheck : Bool)
    (specFile signaturesFile workingDir outDir distTag : String)
    (srcConfig : sourceRetrievalConfiguration)
    (hok : (packSingleSPECBody env runCheck specFile signaturesFile workingDir outDir distTag
      srcConfig).err = none) :
    ∃ pre post,
      (packSingleSPECBody env runCheck specFile signaturesFile workingDir outDir distTag
          srcConfig).trace =
        (pre ++ (hydrateFiles env fileTypeSource specFile workingDir srcConfig []
            (packDefines env runCheck distTag)).trace) ++
          (updateSignaturesIfApplicable env signaturesFile srcConfig
            (hydrateFiles env fileTypeSource specFile workingDir srcConfig []
              (packDefines env runCheck distTag)).currentSignatures).2 ++
          Effect.generateSRPMFromSPEC specFile workingDir :: post := by
  have hp := hydrateFiles_patch_currentSignatures env specFile workingDir srcConfig []
    (packDefines env runCheck distTag)
  unfold packSingleSPECBody at hok ⊢
  simp only [hp] at hok ⊢
  split at hok
  · exact absurd hok (by simp)
  · split at hok
    · exact absurd hok (by simp)
    · split at hok
      · exact absurd hok (by simp)
      · split at hok
        · exact absurd hok (by simp)
        · split at hok
          · exact absurd hok (by simp)
          · exact ⟨(createRPMBuildFolderStructure env workingDir
                ["SOURCES", "SPECS", "SRPMS"]).2 ++
                [Effect.copy specFile
                  (env.join (env.join workingDir "SPECS") (env.base specFile))] ++
                (hydrateFiles env fileTypePatch specFile workingDir srcConfig []
                  (packDefines env runCheck distTag)).trace,
              (copyOutput env workingDir outDir).2.2,
              by simp only [List.append_assoc, List.singleton_append]⟩

/-! ## C1 -/

/-- C1: decision table of `validateSignature`.  Under SkipCheck it succeeds and returns
`currentSignatures` unchanged; under Enforce it succeeds exactly when the lookup has an entry
for the base name of the path that equals the computed digest up to case; under Update it
succeeds whenever the digest can be computed; and every success outside SkipCheck changes
`currentSignatures` only by storing the computed digest under the base name. -/
theorem validateSignature_decision_table (env : Env) (path : String)
    (srcConfig : sourceRetrievalConfiguration) (currentSignatures : GoMap String) :
    (srcConfig.signatureHandling = signatureSkipCheck →
        validateSignature env path srcConfig currentSignatures = (none, currentSignatures)) ∧
    (srcConfig.signatureHandling = signatureEnforce →
        ((validateSignature env path srcConfig currentSignatures).1 = none ↔
          ∃ expected digest, mapGet srcConfig.signatureLookup (env.base path) = some expected ∧
            env.generateSHA256 path = .ok digest ∧ env.equalFold expected digest = true)) ∧
    (srcConfig.signatureHandling = signatureUpdate →
        ∀ digest, env.generateSHA256 path = .ok digest →
          (validateSignature env path srcConfig currentSignatures).1 = none) ∧
    (srcConfig.signatureHandling ≠ signatureSkipCheck →
        (validateSignature env path srcConfig currentSignatures).1 = none →
          ∃ digest, env.generateSHA256 path = .ok digest ∧
            (validateSignature env path srcConfig currentSignatures).2 =
              mapSet currentSignatures (env.base path) digest ∧
            ∀ k, mapGet (validateSignature env path srcConfig currentSignatures).2 k =
              if env.base path = k then some digest else mapGet currentSignatures k) := by
  refine ⟨?_, ?_, ?_, ?_⟩
  · intro h
    simp [validateSignature, h]
  · intro h
    cases hl : mapGet srcConfig.signatureLookup (env.base path) with
    | none => simp [validateSignature, h, hl]
    | some e =>
      cases hs : env.generateSHA256 path with
      | error x => simp [validateSignature, h, hl, hs]
      | ok d =>
        by_cases hf : env.equalFold e d = true <;> simp [validateSignature, h, hl, hs, hf]
  · intro h d hs
    by_cases hf : env.equalFold ((mapGet srcConfig.signatureLookup (env.base path)).getD "") d = true
      <;> simp [validateSignature, h, hs, hf]
  · intro h hok
    cases hs : env.generateSHA256 path with
    | error x =>
      exfalso
      revert hok
      simp only [validateSignature, if_neg h, hs]
      split <;> simp
    | ok d =>
      have hval : (validateSignature env path srcConfig currentSignatures).2 =
          mapSet currentSignatures (env.base path) d := by
        revert hok
        simp only [validateSignature, if_neg h, hs]
        split
        · simp
        · split
          · simp
          · split <;> simp
      refine ⟨d, rfl, hval, ?_⟩
      intro k
      rw [hval, mapGet_mapSet]

/-! ## C2 -/

/-- C2: under Enforce, with the needed sources being base names, a successful source pass of
`hydrateFiles` means that every needed file has a lookup entry equal, up to case, to the
digest of the copy that was hydrated: the actions of the pass contain the successful copy or
download of a file `path` to the destination of the needed file, the destination holds the
content of `path` once the actions are performed, and the digest of `path` is the one
recorded and matched; and when some needed file has no copy whose digest matches its entry,
neither among the regular files of that name met by the local walk nor as a completed
download, `hydrateFiles` fails and `packSingleSPEC` returns an error without running the
SRPM builder. -/
theorem enforce_hydration_matches_manifest (env : Env) (runCheck : Bool)
    (specFile srpmFile signaturesFile buildDir outDir distTag : String)
    (srcConfig : sourceRetrievalConfiguration) (filesNeeded : List String)
    (henf : srcConfig.signatureHandling = signatureEnforce)
    (hq : readSPECTagArray env specFile srcConfig.localSourceDir (specTagOf fileTypeSource)
      (packDefines env runCheck distTag) = .ok filesNeeded)
    (hbase : ∀ f ∈ filesNeeded,
      env.base (env.join (env.join (env.join buildDir (env.base srpmFile)) "SOURCES") f) = f) :
    (∀ cur0,
      (hydrateFiles env fileTypeSource specFile (env.join buildDir (env.base srpmFile))
        srcConfig cur0 (packDefines env runCheck distTag)).err = none →
      ∀ f ∈ filesNeeded, ∃ expected digest path,
        mapGet srcConfig.signatureLookup f = some expected ∧
        env.equalFold expected digest = true ∧
        HydratedBy env srcConfig
          (env.join (env.join buildDir (env.base srpmFile)) "SOURCES") f path
          (hydrateFiles env fileTypeSource specFile (env.join buildDir (env.base srpmFile))
            srcConfig cur0 (packDefines env runCheck distTag)).trace ∧
        env.generateSHA256 path = .ok digest ∧
        mapGet (hydrateFiles env fileTypeSource specFile
          (env.join buildDir (env.base srpmFile)) srcConfig cur0
          (packDefines env runCheck distTag)).currentSignatures f = some digest ∧
        mapGet (hydrateFiles env fileTypeSource specFile
          (env.join buildDir (env.base srpmFile)) srcConfig cur0
          (packDefines env runCheck distTag)).fileHydrationState f = some true) ∧
    (∀ f ∈ filesNeeded,
      (∀ path,
        ((path ∈ env.walk srcConfig.localSourceDir ∧ env.isFile path = true ∧
            env.base path = f) ∨
          (path = env.join (env.join (env.join buildDir (env.base srpmFile)) "SOURCES") f ∧
            (retryRun (env.downloadFile (env.joinURL srcConfig.sourceURL f) path)
              3 0 none).1 = none)) →
        ¬ ∃ expected digest, mapGet srcConfig.signatureLookup f = some expected ∧
          env.generateSHA256 path = .ok digest ∧ env.equalFold expected digest = true) →
      (∀ cur0,
        (hydrateFiles env fileTypeSource specFile (env.join buildDir (env.base srpmFile))
          srcConfig cur0 (packDefines env runCheck distTag)).err ≠ none) ∧
      (packSingleSPEC env runCheck specFile srpmFile signaturesFile buildDir outDir distTag
        srcConfig).err ≠ none ∧
      ∀ e ∈ (packSingleSPEC env runCheck specFile srpmFile signaturesFile buildDir outDir
        distTag srcConfig).trace, e.isBuild = false) := by
  have hns : srcConfig.signatureHandling ≠ signatureSkipCheck := by
    rw [henf]; simp
  have ha : ∀ cur0,
      (hydrateFiles env fileTypeSource specFile (env.join buildDir (env.base srpmFile))
        srcConfig cur0 (packDefines env runCheck distTag)).err = none →
      ∀ f ∈ filesNeeded, ∃ expected digest path,
        mapGet srcConfig.signatureLookup f = some expected ∧
        env.equalFold expected digest = true ∧
        HydratedBy env srcConfig
          (env.join (env.join buildDir (env.base srpmFile)) "SOURCES") f path
          (hydrateFiles env fileTypeSource specFile (env.join buildDir (env.base srpmFile))
            srcConfig cur0 (packDefines env runCheck distTag)).trace ∧
        env.generateSHA256 path = .ok digest ∧
        mapGet (hydrateFiles env fileTypeSource specFile
          (env.join buildDir (env.base srpmFile)) srcConfig cur0
          (packDefines env runCheck distTag)).currentSignatures f = some digest ∧
        mapGet (hydrateFiles env fileTypeSource specFile
          (env.join buildDir (env.base srpmFile)) srcConfig cur0
          (packDefines env runCheck distTag)).fileHydrationState f = some true := by
    intro cur0 hok f hf
    obtain ⟨hall, hinv⟩ := hydrateFiles_ok env fileTypeSource specFile
      (env.join buildDir (env.base srpmFile)) srcConfig cur0
      (packDefines env runCheck distTag) filesNeeded hq hok
    obtain ⟨path, hby, hsig⟩ := hydrateFiles_copyInv env fileTypeSource specFile
      (env.join buildDir (env.base srpmFile)) srcConfig cur0
      (packDefines env runCheck distTag) filesNeeded hq hbase f (hall f hf)
    obtain ⟨d, h3, h1, h4⟩ := hsig rfl hns
    obtain ⟨e, h5, h6⟩ := h4 henf
    exact ⟨e, d, path, h5, h6, hby, h3, h1, hall f hf⟩
  refine ⟨ha, ?_⟩
  intro f hf hno
  have hfail : ∀ cur0,
      (hydrateFiles env fileTypeSource specFile (env.join buildDir (env.base srpmFile))
        srcConfig cur0 (packDefines env runCheck distTag)).err ≠ none := by
    intro cur0 hok
    obtain ⟨e, d, path, h1, h2, h3, h4, _, _⟩ := ha cur0 hok f hf
    refine hno path ?_ ⟨e, d, h1, h4, h2⟩
    rcases h3.1 with ⟨hw, hfile, hb, _, _⟩ | ⟨hp, hr, _⟩
    · exact Or.inl ⟨hw, hfile, hb⟩
    · exact Or.inr ⟨hp, hr⟩
  refine ⟨hfail, ?_, ?_⟩
  · rcases packSingleSPEC_cases env runCheck specFile srpmFile signaturesFile buildDir outDir
      distTag srcConfig with ⟨e, h⟩ | ⟨h, _⟩
    · rw [h]; simp
    · rw [h]
      intro hok
      exact hfail [] (packSingleSPECBody_ok env runCheck specFile signaturesFile _ outDir
        distTag srcConfig hok).2.1
  · intro e he
    rcases packSingleSPEC_cases env runCheck specFile srpmFile signaturesFile buildDir outDir
      distTag srcConfig with ⟨x, h⟩ | ⟨_, h, _⟩
    · rw [h] at he
      simp only [List.mem_singleton] at he
      rw [he]; rfl
    · rw [h] at he
      simp only [List.mem_cons, List.mem_append, List.not_mem_nil, or_false] at he
      rcases he with he | he | he
      · rw [he]; rfl
      · rcases packSingleSPECBody_actions env runCheck specFile signaturesFile _ outDir
          distTag srcConfig e he with h | ⟨_, h⟩ | ⟨_, h⟩
        · exact not_isBuild_of_isFileAction e h
        · rw [h]; rfl
        · exact absurd h (hfail [])
      · rw [he]; rfl

/-- C2 instance: the packing example under Enforce, whose source matches the manifest and
whose source pass succeeds. -/
theorem enforce_hydration_matches_manifest_witness :
    (hydrateFiles packEnv fileTypeSource "specs/bash/bash.spec"
        (packEnv.join "build" (packEnv.base "out/bash-5.1-1.cm1.src.rpm"))
        enforceConfig [] (packDefines packEnv false ".cm1")).err = none ∧
    (∀ cur0,
      (hydrateFiles packEnv fileTypeSource "specs/bash/bash.spec"
        (packEnv.join "build" (packEnv.base "out/bash-5.1-1.cm1.src.rpm"))
        enforceConfig cur0 (packDefines packEnv false ".cm1")).err = none →
      ∀ f ∈ ["bash-5.1.tar.gz"], ∃ expected digest path,
        mapGet enforceConfig.signatureLookup f = some expected ∧
        packEnv.equalFold expected digest = true ∧
        HydratedBy packEnv enforceConfig
          (packEnv.join (packEnv.join "build" (packEnv.base "out/bash-5.1-1.cm1.src.rpm"))
            "SOURCES") f path
          (hydrateFiles packEnv fileTypeSource "specs/bash/bash.spec"
            (packEnv.join "build" (packEnv.base "out/bash-5.1-1.cm1.src.rpm"))
            enforceConfig cur0 (packDefines packEnv false ".cm1")).trace ∧
        packEnv.generateSHA256 path = .ok digest ∧
        mapGet (hydrateFiles packEnv fileTypeSource "specs/bash/bash.spec"
          (packEnv.join "build" (packEnv.base "out/bash-5.1-1.cm1.src.rpm")) enforceConfig cur0
          (packDefines packEnv false ".cm1")).currentSignatures f = some digest ∧
        mapGet (hydrateFiles packEnv fileTypeSource "specs/bash/bash.spec"
          (packEnv.join "build" (packEnv.base "out/bash-5.1-1.cm1.src.rpm")) enforceConfig cur0
          (packDefines packEnv false ".cm1")).fileHydrationState f = some true) ∧
    (∀ f ∈ ["bash-5.1.tar.gz"],
      (∀ path,
        ((path ∈ packEnv.walk enforceConfig.localSourceDir ∧ packEnv.isFile path = true ∧
            packEnv.base path = f) ∨
          (path = packEnv.join (packEnv.join (packEnv.join "build"
              (packEnv.base "out/bash-5.1-1.cm1.src.rpm")) "SOURCES") f ∧
            (retryRun (packEnv.downloadFile (packEnv.joinURL enforceConfig.sourceURL f) path)
              3 0 none).1 = none)) →
        ¬ ∃ expected digest, mapGet enforceConfig.signatureLookup f = some expected ∧
          packEnv.generateSHA256 path = .ok digest ∧
          packEnv.equalFold expected digest = true) →
      (∀ cur0,
        (hydrateFiles packEnv fileTypeSource "specs/bash/bash.spec"
          (packEnv.join "build" (packEnv.base "out/bash-5.1-1.cm1.src.rpm"))
          enforceConfig cur0 (packDefines packEnv false ".cm1")).err ≠ none) ∧
      (packSingleSPEC packEnv false "specs/bash/bash.spec" "out/bash-5.1-1.cm1.src.rpm"
        "specs/bash/bash.signatures.json" "build" "out" ".cm1" enforceConfig).err ≠ none ∧
      ∀ e ∈ (packSingleSPEC packEnv false "specs/bash/bash.spec" "out/bash-5.1-1.cm1.src.rpm"
        "specs/bash/bash.signatures.json" "build" "out" ".cm1" enforceConfig).trace,
        e.isBuild = false) :=
  ⟨by decide,
    enforce_hydration_matches_manifest packEnv false "specs/bash/bash.spec"
      "out/bash-5.1-1.cm1.src.rpm" "specs/bash/bash.signatures.json" "build" "out" ".cm1"
      enforceConfig ["bash-5.1.tar.gz"] rfl rfl
      (by
        intro f hf
        simp only [List.mem_singleton] at hf
        subst hf
        decide)⟩

/-- Example for C2: under Enforce with a manifest that does not match the only copy of the
source, the pack fails and the builder is not run. -/
theorem enforce_mismatch_example :
    (packSingleSPEC packEnv false "specs/bash/bash.spec" "out/bash-5.1-1.cm1.src.rpm"
        "specs/bash/bash.signatures.json" "build" "out" ".cm1" mismatchConfig).err ≠ none ∧
      ∀ e ∈ (packSingleSPEC packEnv false "specs/bash/bash.spec" "out/bash-5.1-1.cm1.src.rpm"
        "specs/bash/bash.signatures.json" "build" "out" ".cm1" mismatchConfig).trace,
        e.isBuild = false := by
  decide

/-! ## C3 -/

/-- C3: once the query has returned the needed files, `hydrateFiles` returns an error
exactly when a needed file is still unhydrated after the local and the remote pass; so there
is no error for an empty list and none when every needed file is hydrated.  The local pass
never hands an error to `hydrateFiles`, whatever the walk met. -/
theorem hydrateFiles_error_iff_unhydrated (env : Env) (fileTypeToHydrate : fileType)
    (specFile workingDir : String) (srcConfig : sourceRetrievalConfiguration)
    (currentSignatures defines : GoMap String) (filesNeeded : List String)
    (hq : readSPECTagArray env specFile srcConfig.localSourceDir
      (specTagOf fileTypeToHydrate) defines = .ok filesNeeded) :
    ((hydrateFiles env fileTypeToHydrate specFile workingDir srcConfig currentSignatures
          defines).err ≠ none ↔
        ∃ f ∈ filesNeeded,
          mapGet (hydrateFiles env fileTypeToHydrate specFile workingDir srcConfig
            currentSignatures defines).fileHydrationState f = some false) ∧
      (filesNeeded = [] →
        (hydrateFiles env fileTypeToHydrate specFile workingDir srcConfig currentSignatures
          defines).err = none) ∧
      ((∀ f ∈ filesNeeded,
          mapGet (hydrateFiles env fileTypeToHydrate specFile workingDir srcConfig
            currentSignatures defines).fileHydrationState f = some true) →
        (hydrateFiles env fileTypeToHydrate specFile workingDir srcConfig currentSignatures
          defines).err = none) ∧
      (hydrateFiles env fileTypeToHydrate specFile workingDir srcConfig currentSignatures
          defines).fileHydrationState =
        (hydratePasses env fileTypeToHydrate workingDir srcConfig currentSignatures
          filesNeeded).2.fileHydrationState ∧
      (∀ s, (hydrateFromLocalSource env (env.join workingDir "SOURCES") srcConfig
        (skipSignatureHandlingOf fileTypeToHydrate) s).1 = none) := by
  have hiff := hydrateFiles_err_iff env fileTypeToHydrate specFile workingDir srcConfig
    currentSignatures defines filesNeeded hq
  have hstate : (hydrateFiles env fileTypeToHydrate specFile workingDir srcConfig
      currentSignatures defines).fileHydrationState =
        (hydratePasses env fileTypeToHydrate workingDir srcConfig currentSignatures
          filesNeeded).2.fileHydrationState := by
    simp [hydrateFiles, hq]
  rw [hstate]
  refine ⟨hiff, ?_, ?_, rfl, ?_⟩
  · intro hempty
    by_contra hne
    obtain ⟨f, hf, _⟩ := hiff.1 hne
    rw [hempty] at hf
    exact absurd hf (by simp)
  · intro hall
    by_contra hne
    obtain ⟨f, hf, hs⟩ := hiff.1 hne
    rw [hall f hf] at hs
    exact absurd hs (by simp)
  · intro s
    rw [hydrateFromLocalSource_eq]

/-- C3 instance: the source pass of the packing example. -/
theorem hydrateFiles_error_iff_unhydrated_witness :
    ((hydrateFiles packEnv fileTypeSource "specs/bash/bash.spec" "build/w" enforceConfig []
          []).err ≠ none ↔
        ∃ f ∈ ["bash-5.1.tar.gz"],
          mapGet (hydrateFiles packEnv fileTypeSource "specs/bash/bash.spec" "build/w"
            enforceConfig [] []).fileHydrationState f = some false) ∧
      (["bash-5.1.tar.gz"] = [] →
        (hydrateFiles packEnv fileTypeSource "specs/bash/bash.spec" "build/w" enforceConfig []
          []).err = none) ∧
      ((∀ f ∈ ["bash-5.1.tar.gz"],
          mapGet (hydrateFiles packEnv fileTypeSource "specs/bash/bash.spec" "build/w"
            enforceConfig [] []).fileHydrationState f = some true) →
        (hydrateFiles packEnv fileTypeSource "specs/bash/bash.spec" "build/w" enforceConfig []
          []).err = none) ∧
      (hydrateFiles packEnv fileTypeSource "specs/bash/bash.spec" "build/w" enforceConfig []
          []).fileHydrationState =
        (hydratePasses packEnv fileTypeSource "build/w" enforceConfig []
          ["bash-5.1.tar.gz"]).2.fileHydrationState ∧
      (∀ s, (hydrateFromLocalSource packEnv (packEnv.join "build/w" "SOURCES") enforceConfig
        (skipSignatureHandlingOf fileTypeSource) s).1 = none) :=
  hydrateFiles_error_iff_unhydrated packEnv fileTypeSource "specs/bash/bash.spec" "build/w"
    enforceConfig [] [] ["bash-5.1.tar.gz"] rfl

/-! ## C4 -/

/-- C4 counterexample: under Update the pack of the example succeeds and hydrates the patch
`fix.patch` into SOURCES, yet the signatures file written holds the source only; and when
the write of the signatures file fails the pack still succeeds, with the source hydrated and
the file left empty. -/
theorem update_manifest_omits_patches :
    (packSingleSPEC packEnv false "specs/bash/bash.spec" "out/bash-5.1-1.cm1.src.rpm"
        "specs/bash/bash.signatures.json" "build" "out" ".cm1" updateConfig).err = none ∧
      mapGet (packSingleSPEC packEnv false "specs/bash/bash.spec"
        "out/bash-5.1-1.cm1.src.rpm" "specs/bash/bash.signatures.json" "build" "out" ".cm1"
        updateConfig).patchState "fix.patch" = some true ∧
      Effect.copy "specs/bash/fix.patch" "build/bash-5.1-1.cm1.src.rpm/SOURCES/fix.patch" ∈
        (packSingleSPEC packEnv false "specs/bash/bash.spec" "out/bash-5.1-1.cm1.src.rpm"
          "specs/bash/bash.signatures.json" "build" "out" ".cm1" updateConfig).trace ∧
      signaturesFileAfter packEnv "specs/bash/bash.signatures.json"
          updateConfig.signatureLookup
          (packSingleSPEC packEnv false "specs/bash/bash.spec" "out/bash-5.1-1.cm1.src.rpm"
            "specs/bash/bash.signatures.json" "build" "out" ".cm1" updateConfig).trace =
        [("bash-5.1.tar.gz", "ab12cd")] ∧
      (packSingleSPEC readOnlyEnv false "specs/bash/bash.spec" "out/bash-5.1-1.cm1.src.rpm"
        "specs/bash/bash.signatures.json" "build" "out" ".cm1" updateConfig).err = none ∧
      mapGet (packSingleSPEC readOnlyEnv false "specs/bash/bash.spec"
        "out/bash-5.1-1.cm1.src.rpm" "specs/bash/bash.signatures.json" "build" "out" ".cm1"
        updateConfig).sourceState "bash-5.1.tar.gz" = some true ∧
      signaturesFileAfter readOnlyEnv "specs/bash/bash.signatures.json"
          updateConfig.signatureLookup
          (packSingleSPEC readOnlyEnv false "specs/bash/bash.spec"
            "out/bash-5.1-1.cm1.src.rpm" "specs/bash/bash.signatures.json" "build" "out"
            ".cm1" updateConfig).trace = [] := by
  refine ⟨by decide, by decide, by decide, by decide, by decide, by decide, by decide⟩

/-- C4 (amended): under Update, after a successful `packSingleSPEC` in which every write of
the signatures file that is made succeeds, and with the needed sources being base names, the
signatures file holds the same map as `currentSignatures`; its keys are exactly the needed
SOURCE files, all of them marked hydrated; and the actions of the run are those up to the end
of the hydration of the sources, then the update of the signatures file, then the run of the
builder and what follows, where each value of the file is the digest of a file `path` such
that the actions up to the end of the hydration contain the successful copy or download of
`path` to the destination of the key in SOURCES and leave that destination with the content
of `path`.  Patches are hydrated as well but have no entry. -/
theorem update_manifest_after_pack (env : Env) (runCheck : Bool)
    (specFile srpmFile signaturesFile buildDir outDir distTag : String)
    (srcConfig : sourceRetrievalConfiguration) (filesNeeded : List String)
    (hupd : srcConfig.signatureHandling = signatureUpdate)
    (hq : readSPECTagArray env specFile srcConfig.localSourceDir (specTagOf fileTypeSource)
      (packDefines env runCheck distTag) = .ok filesNeeded)
    (hbase : ∀ f ∈ filesNeeded,
      env.base (env.join (env.join (env.join buildDir (env.base srpmFile)) "SOURCES") f) = f)
    (hok : (packSingleSPEC env runCheck specFile srpmFile signaturesFile buildDir outDir
      distTag srcConfig).err = none)
    (hwrite : ∀ wrapper, Effect.writeJSONFile signaturesFile wrapper ∈
        (packSingleSPEC env runCheck specFile srpmFile signaturesFile buildDir outDir
          distTag srcConfig).trace →
      env.writeJSONFile signaturesFile wrapper = none) :
    (∀ k, mapGet (signaturesFileAfter env signaturesFile srcConfig.signatureLookup
          (packSingleSPEC env runCheck specFile srpmFile signaturesFile buildDir outDir
            distTag srcConfig).trace) k =
        mapGet (packSingleSPEC env runCheck specFile srpmFile signaturesFile buildDir outDir
          distTag srcConfig).currentSignatures k) ∧
      (∀ k, (mapGet (signaturesFileAfter env signaturesFile srcConfig.signatureLookup
          (packSingleSPEC env runCheck specFile srpmFile signaturesFile buildDir outDir
            distTag srcConfig).trace) k).isSome = true ↔ k ∈ filesNeeded) ∧
      (∀ f ∈ filesNeeded,
        mapGet (packSingleSPEC env runCheck specFile srpmFile signaturesFile buildDir outDir
          distTag srcConfig).sourceState f = some true) ∧
      (∃ hydration rest,
        (packSingleSPEC env runCheck specFile srpmFile signaturesFile buildDir outDir
            distTag srcConfig).trace =
          hydration ++
            (updateSignaturesIfApplicable env signaturesFile srcConfig
              (packSingleSPEC env runCheck specFile srpmFile signaturesFile buildDir outDir
                distTag srcConfig).currentSignatures).2 ++
            Effect.generateSRPMFromSPEC specFile (env.join buildDir (env.base srpmFile)) ::
              rest ∧
        ∀ k digest,
          mapGet (signaturesFileAfter env signaturesFile srcConfig.signatureLookup
            (packSingleSPEC env runCheck specFile srpmFile signaturesFile buildDir outDir
              distTag srcConfig).trace) k = some digest →
          ∃ path, HydratedBy env srcConfig
              (env.join (env.join buildDir (env.base srpmFile)) "SOURCES") k path hydration ∧
            env.generateSHA256 path = .ok digest) := by
  have hns : srcConfig.signatureHandling ≠ signatureSkipCheck := by
    rw [hupd]; simp
  rcases packSingleSPEC_cases env runCheck specFile srpmFile signaturesFile buildDir outDir
    distTag srcConfig with ⟨x, h⟩ | ⟨herr, htrace, hcur, _, hsrc⟩
  · rw [h] at hok
    exact absurd hok (by simp)
  · rw [herr] at hok
    obtain ⟨_, hsok, hbcur, _, hbsrc, before, after, hbtrace, hbefore, hafter⟩ :=
      packSingleSPECBody_ok env runCheck specFile signaturesFile _ outDir distTag srcConfig hok
    obtain ⟨pre, post, hparts⟩ :=
      packSingleSPECBody_ok_trace env runCheck specFile signaturesFile _ outDir distTag
        srcConfig hok
    obtain ⟨hall, hinv⟩ := hydrateFiles_ok env fileTypeSource specFile
      (env.join buildDir (env.base srpmFile)) srcConfig []
      (packDefines env runCheck distTag) filesNeeded hq hsok
    have hcopy := hydrateFiles_copyInv env fileTypeSource specFile
      (env.join buildDir (env.base srpmFile)) srcConfig []
      (packDefines env runCheck distTag) filesNeeded hq hbase
    have h1 : (packSingleSPEC env runCheck specFile srpmFile signaturesFile buildDir outDir
        distTag srcConfig).trace =
        ([Effect.mkdirAll (env.join buildDir (env.base srpmFile))] ++ before) ++
          (updateSignaturesIfApplicable env signaturesFile srcConfig
            (hydrateFiles env fileTypeSource specFile
              (env.join buildDir (env.base srpmFile)) srcConfig []
              (packDefines env runCheck distTag)).currentSignatures).2 ++
          (after ++ [Effect.removeAll (env.join buildDir (env.base srpmFile))]) := by
      rw [htrace, hbtrace]
      simp
    have hw : Effect.writeJSONFile signaturesFile
        { FileSignatures := (hydrateFiles env fileTypeSource specFile
            (env.join buildDir (env.base srpmFile)) srcConfig []
            (packDefines env runCheck distTag)).currentSignatures } ∈
        (updateSignaturesIfApplicable env signaturesFile srcConfig
          (hydrateFiles env fileTypeSource specFile
            (env.join buildDir (env.base srpmFile)) srcConfig []
            (packDefines env runCheck distTag)).currentSignatures).2 →
        env.writeJSONFile signaturesFile
          { FileSignatures := (hydrateFiles env fileTypeSource specFile
              (env.join buildDir (env.base srpmFile)) srcConfig []
              (packDefines env runCheck distTag)).currentSignatures } = none := by
      intro hmem
      apply hwrite
      rw [h1]
      exact List.mem_append_left _ (List.mem_append_right _ hmem)
    have hfile : ∀ k, mapGet (signaturesFileAfter env signaturesFile
        srcConfig.signatureLookup
        (packSingleSPEC env runCheck specFile srpmFile signaturesFile buildDir outDir
          distTag srcConfig).trace) k =
        mapGet (hydrateFiles env fileTypeSource specFile
          (env.join buildDir (env.base srpmFile)) srcConfig []
          (packDefines env runCheck distTag)).currentSignatures k := by
      intro k
      have h2 : ∀ e ∈ [Effect.mkdirAll (env.join buildDir (env.base srpmFile))] ++ before,
          e.touchesSignatures = false := by
        intro e he
        simp only [List.singleton_append, List.mem_cons] at he
        rcases he with he | he
        · rw [he]; rfl
        · exact hbefore e he
      have h3 : ∀ e ∈ after ++ [Effect.removeAll (env.join buildDir (env.base srpmFile))],
          e.touchesSignatures = false := by
        intro e he
        simp only [List.mem_append, List.mem_singleton] at he
        rcases he with he | he
        · exact hafter e he
        · rw [he]; rfl
      rw [h1,
        signaturesFileAfter_append env signaturesFile _ _
          (after ++ [Effect.removeAll (env.join buildDir (env.base srpmFile))]),
        signaturesFileAfter_append env signaturesFile _
          ([Effect.mkdirAll (env.join buildDir (env.base srpmFile))] ++ before) _,
        signaturesFileAfter_of_untouched env signaturesFile _ _ h2,
        signaturesFileAfter_of_untouched env signaturesFile _ _ h3]
      exact signaturesFileAfter_update env signaturesFile srcConfig _ hw hupd k
    have hsig := hinv.sigs hbase rfl hns
    refine ⟨?_, ?_, ?_, ?_⟩
    · intro k
      rw [hfile k, hcur, hbcur]
    · intro k
      rw [hfile k]
      constructor
      · intro hk
        rcases hinv.curKeys hbase k hk with h | h
        · exact absurd h (by simp [mapGet])
        · exact h
      · intro hk
        obtain ⟨d, _, hd, _⟩ := hsig k (hall k hk)
        simp only at hd
        rw [hd]; rfl
    · intro f hf
      rw [hsrc, hbsrc]
      exact hall f hf
    · refine ⟨Effect.mkdirAll (env.join buildDir (env.base srpmFile)) :: pre ++
          (hydrateFiles env fileTypeSource specFile (env.join buildDir (env.base srpmFile))
            srcConfig [] (packDefines env runCheck distTag)).trace,
        post ++ [Effect.removeAll (env.join buildDir (env.base srpmFile))], ?_, ?_⟩
      · rw [htrace, hparts, hcur, hbcur]
        simp only [List.append_assoc, List.cons_append]
      · intro k digest hk
        rw [hfile k] at hk
        have hkn : k ∈ filesNeeded := by
          rcases hinv.curKeys hbase k (by simp only; rw [hk]; rfl) with h | h
          · exact absurd h (by simp [mapGet])
          · exact h
        obtain ⟨path, hby, hdig⟩ := hcopy k (hall k hkn)
        obtain ⟨d, hsha, hd, _⟩ := hdig rfl hns
        simp only at hd hby
        rw [hd] at hk
        cases hk
        refine ⟨path, ?_, hsha⟩
        have := HydratedBy_prepend env srcConfig
          (env.join (env.join buildDir (env.base srpmFile)) "SOURCES") k path
          (Effect.mkdirAll (env.join buildDir (env.base srpmFile)) :: pre) _ hby
        simpa only [List.cons_append] using this

/-- C4 instance: the packing example under Update, in which the signatures file is
written. -/
theorem update_manifest_after_pack_witness :
    (∃ wrapper, Effect.writeJSONFile "specs/bash/bash.signatures.json" wrapper ∈
        (packSingleSPEC packEnv false "specs/bash/bash.spec" "out/bash-5.1-1.cm1.src.rpm"
          "specs/bash/bash.signatures.json" "build" "out" ".cm1" updateConfig).trace) ∧
    ((∀ k, mapGet (signaturesFileAfter packEnv "specs/bash/bash.signatures.json"
          updateConfig.signatureLookup
          (packSingleSPEC packEnv false "specs/bash/bash.spec" "out/bash-5.1-1.cm1.src.rpm"
            "specs/bash/bash.signatures.json" "build" "out" ".cm1" updateConfig).trace) k =
        mapGet (packSingleSPEC packEnv false "specs/bash/bash.spec"
          "out/bash-5.1-1.cm1.src.rpm" "specs/bash/bash.signatures.json" "build" "out" ".cm1"
          updateConfig).currentSignatures k) ∧
      (∀ k, (mapGet (signaturesFileAfter packEnv "specs/bash/bash.signatures.json"
          updateConfig.signatureLookup
          (packSingleSPEC packEnv false "specs/bash/bash.spec" "out/bash-5.1-1.cm1.src.rpm"
            "specs/bash/bash.signatures.json" "build" "out" ".cm1" updateConfig).trace)
          k).isSome = true ↔ k ∈ ["bash-5.1.tar.gz"]) ∧
      (∀ f ∈ ["bash-5.1.tar.gz"],
        mapGet (packSingleSPEC packEnv false "specs/bash/bash.spec"
          "out/bash-5.1-1.cm1.src.rpm" "specs/bash/bash.signatures.json" "build" "out" ".cm1"
          updateConfig).sourceState f = some true) ∧
      (∃ hydration rest,
        (packSingleSPEC packEnv false "specs/bash/bash.spec" "out/bash-5.1-1.cm1.src.rpm"
            "specs/bash/bash.signatures.json" "build" "out" ".cm1" updateConfig).trace =
          hydration ++
            (updateSignaturesIfApplicable packEnv "specs/bash/bash.signatures.json"
              updateConfig
              (packSingleSPEC packEnv false "specs/bash/bash.spec"
                "out/bash-5.1-1.cm1.src.rpm" "specs/bash/bash.signatures.json" "build" "out"
                ".cm1" updateConfig).currentSignatures).2 ++
            Effect.generateSRPMFromSPEC "specs/bash/bash.spec"
              (packEnv.join "build" (packEnv.base "out/bash-5.1-1.cm1.src.rpm")) :: rest ∧
        ∀ k digest,
          mapGet (signaturesFileAfter packEnv "specs/bash/bash.signatures.json"
            updateConfig.signatureLookup
            (packSingleSPEC packEnv false "specs/bash/bash.spec"
              "out/bash-5.1-1.cm1.src.rpm" "specs/bash/bash.signatures.json" "build" "out"
              ".cm1" updateConfig).trace) k = some digest →
          ∃ path, HydratedBy packEnv updateConfig
              (packEnv.join (packEnv.join "build"
                (packEnv.base "out/bash-5.1-1.cm1.src.rpm")) "SOURCES") k path hydration ∧
            packEnv.generateSHA256 path = .ok digest)) :=
  ⟨⟨{ FileSignatures := [("bash-5.1.tar.gz", "ab12cd")] }, by decide⟩,
    update_manifest_after_pack packEnv false "specs/bash/bash.spec"
      "out/bash-5.1-1.cm1.src.rpm" "specs/bash/bash.signatures.json" "build" "out" ".cm1"
      updateConfig ["bash-5.1.tar.gz"] rfl rfl
      (by
        intro f hf
        simp only [List.mem_singleton] at hf
        subst hf
        decide)
      (by decide) (fun _ _ => rfl)⟩

/-! ## C5 -/

/-- C5 counterexample: a signatures file whose member `Signatures` is `null`, packed under
Update for a spec that needs no file.  The loaded lookup and `currentSignatures` are the
same map from file names to digests (both have no binding), yet
`updateSignaturesIfApplicable` writes the signatures file, and so does the pack of the spec
by `packSRPMWorker`, which succeeds. -/
theorem updateSignaturesIfApplicable_writes_equal_maps :
    (initializeSourceConfig nullManifestEnv updateTemplate
        "specs/bash/bash.signatures.json").1.signatureHandling = signatureUpdate ∧
      (initializeSourceConfig nullManifestEnv updateTemplate
        "specs/bash/bash.signatures.json").2.1 = none ∧
      (∀ k, mapGet (initializeSourceConfig nullManifestEnv updateTemplate
        "specs/bash/bash.signatures.json").1.signatureLookup k
          = mapGet ([] : GoMap String) k) ∧
      (updateSignaturesIfApplicable nullManifestEnv "specs/bash/bash.signatures.json"
        (initializeSourceConfig nullManifestEnv updateTemplate
          "specs/bash/bash.signatures.json").1 []).2 =
        [Effect.writeJSONFile "specs/bash/bash.signatures.json" { FileSignatures := [] }] ∧
      specPathToSignaturesPath nullManifestEnv "specs/bash/bash.spec" =
        "specs/bash/bash.signatures.json" ∧
      (packSingleSPEC nullManifestEnv false "specs/bash/bash.spec"
        "out/bash-5.1-1.cm1.src.rpm" "specs/bash/bash.signatures.json" "build" "out" ".cm1"
        (initializeSourceConfig nullManifestEnv updateTemplate
          "specs/bash/bash.signatures.json").1).currentSignatures = [] ∧
      (packSRPMWorker nullManifestEnv false ".cm1" "build" updateTemplate
        { specFile := "specs/bash/bash.spec", srpmFile := "out/bash-5.1-1.cm1.src.rpm",
          toPack := true, err := none }).1.err = none ∧
      Effect.writeJSONFile "specs/bash/bash.signatures.json" { FileSignatures := [] } ∈
        (packSRPMWorker nullManifestEnv false ".cm1" "build" updateTemplate
          { specFile := "specs/bash/bash.spec", srpmFile := "out/bash-5.1-1.cm1.src.rpm",
            toPack := true, err := none }).2 := by
  refine ⟨by decide, by decide, fun k => rfl, by decide, by decide, by decide, by decide,
    by decide⟩

/-- C5, amended: `updateSignaturesIfApplicable` writes the signatures file exactly when the
handling is Update and the loaded `signatureLookup` is the nil map or differs, as a map,
from `currentSignatures`; the only thing it ever writes is `currentSignatures` under the key
`Signatures`, to the signatures file; under Enforce it performs no action at all; and under
a handling other than SkipCheck the lookup that `initializeSourceConfig` loads is the nil map
exactly when the signatures file decodes with its member `Signatures` null. -/
theorem updateSignaturesIfApplicable_writes (env : Env) (signaturesFile : String)
    (srcConfig : sourceRetrievalConfiguration) (currentSignatures : GoMap String) :
    ((∃ wrapper, Effect.writeJSONFile signaturesFile wrapper ∈
          (updateSignaturesIfApplicable env signaturesFile srcConfig currentSignatures).2) ↔
        (srcConfig.signatureHandling = signatureUpdate ∧
          (srcConfig.signatureLookupNil = true ∨
            ¬ ∀ k, mapGet srcConfig.signatureLookup k = mapGet currentSignatures k))) ∧
      (∀ action ∈ (updateSignaturesIfApplicable env signaturesFile srcConfig
          currentSignatures).2,
        action = Effect.writeJSONFile signaturesFile { FileSignatures := currentSignatures }) ∧
      (srcConfig.signatureHandling = signatureEnforce →
        (updateSignaturesIfApplicable env signaturesFile srcConfig currentSignatures).2 = []) ∧
      (∀ templateSrcConfig signaturesFilePath,
        templateSrcConfig.signatureHandling ≠ signatureSkipCheck →
        ((initializeSourceConfig env templateSrcConfig
            signaturesFilePath).1.signatureLookupNil = true ↔
          env.readJSONFile signaturesFilePath = .loadedNil)) := by
  have heq := reflectDeepEqual_made srcConfig.signatureLookupNil srcConfig.signatureLookup
    currentSignatures
  have hload : ∀ (templateSrcConfig : sourceRetrievalConfiguration)
      (signaturesFilePath : String),
      templateSrcConfig.signatureHandling ≠ signatureSkipCheck →
      ((initializeSourceConfig env templateSrcConfig
          signaturesFilePath).1.signatureLookupNil = true ↔
        env.readJSONFile signaturesFilePath = .loadedNil) := by
    intro templateSrcConfig signaturesFilePath hskip
    simp only [initializeSourceConfig, hskip, ne_eq, not_false_eq_true, if_true,
      readSignatures]
    cases env.readJSONFile signaturesFilePath <;> simp
  by_cases hu : srcConfig.signatureHandling = signatureUpdate
  · by_cases hd : reflectDeepEqual srcConfig.signatureLookupNil srcConfig.signatureLookup
        false currentSignatures = true
    · have hall := heq.1 hd
      have hw : (updateSignaturesIfApplicable env signaturesFile srcConfig
          currentSignatures).2 = [] := by
        simp [updateSignaturesIfApplicable, hd]
      rw [hw]
      refine ⟨?_, ?_, ?_, hload⟩
      · simp [hall.1, hall.2]
      · simp
      · simp
    · have hd' : reflectDeepEqual srcConfig.signatureLookupNil srcConfig.signatureLookup
          false currentSignatures = false := by
        simpa using hd
      have hnall : srcConfig.signatureLookupNil = true ∨
          ¬ ∀ k, mapGet srcConfig.signatureLookup k = mapGet currentSignatures k := by
        by_cases hn : srcConfig.signatureLookupNil = true
        · exact Or.inl hn
        · right
          intro h
          exact hd (heq.2 ⟨by simpa using hn, h⟩)
      refine ⟨?_, ?_, ?_, hload⟩
      · simp only [updateSignaturesIfApplicable, hu, hd', and_self, if_true,
          List.mem_singleton, true_and]
        exact ⟨fun _ => hnall, fun _ => ⟨_, rfl⟩⟩
      · simp [updateSignaturesIfApplicable, hu, hd']
      · simp [updateSignaturesIfApplicable, hu, hd']
  · refine ⟨?_, ?_, ?_, hload⟩ <;> simp [updateSignaturesIfApplicable, hu]

/-! ## C6 -/

/-- C6: under SkipCheck, whatever the signatures file contains, the pack of one spec
performs no read and no write of a signatures file: `initializeSourceConfig` performs no
action and keeps the lookup of the template, both hydration passes return
`currentSignatures` as they got it, `updateSignaturesIfApplicable` performs no action, and
`currentSignatures` is empty when `packSingleSPEC` returns. -/
theorem skipCheck_never_touches_signatures (env : Env) (runCheck : Bool)
    (distTag buildDir : String) (templateSrcConfig : sourceRetrievalConfiguration)
    (state : specState)
    (hskip : templateSrcConfig.signatureHandling = signatureSkipCheck) :
    (∀ e ∈ (packSRPMWorker env runCheck distTag buildDir templateSrcConfig state).2,
        e.touchesSignatures = false) ∧
      (initializeSourceConfig env templateSrcConfig
        (specPathToSignaturesPath env state.specFile)).2.2 = [] ∧
      (initializeSourceConfig env templateSrcConfig
        (specPathToSignaturesPath env state.specFile)).1.signatureLookup =
          templateSrcConfig.signatureLookup ∧
      (∀ fileTypeToHydrate workingDir cur0 defines,
        (hydrateFiles env fileTypeToHydrate state.specFile workingDir
          (initializeSourceConfig env templateSrcConfig
            (specPathToSignaturesPath env state.specFile)).1 cur0 defines).currentSignatures
          = cur0) ∧
      (∀ currentSignatures,
        (updateSignaturesIfApplicable env (specPathToSignaturesPath env state.specFile)
          (initializeSourceConfig env templateSrcConfig
            (specPathToSignaturesPath env state.specFile)).1 currentSignatures).2 = []) ∧
      (packSingleSPEC env runCheck state.specFile state.srpmFile
        (specPathToSignaturesPath env state.specFile) buildDir (env.dir state.srpmFile)
        distTag
        (initializeSourceConfig env templateSrcConfig
          (specPathToSignaturesPath env state.specFile)).1).currentSignatures = [] := by
  have hinit := initializeSourceConfig_skip env templateSrcConfig
    (specPathToSignaturesPath env state.specFile) hskip
  have hcfg : ({ templateSrcConfig with
      localSourceDir := env.dir (specPathToSignaturesPath env state.specFile) } :
      sourceRetrievalConfiguration).signatureHandling = signatureSkipCheck := hskip
  rw [hinit]
  have hpack := packSingleSPEC_skip_actions env runCheck state.specFile state.srpmFile
    (specPathToSignaturesPath env state.specFile) buildDir (env.dir state.srpmFile) distTag
    { templateSrcConfig with
      localSourceDir := env.dir (specPathToSignaturesPath env state.specFile) } hcfg
  have hact := packSRPMWorker_actions env runCheck distTag buildDir templateSrcConfig state
  rw [hinit] at hact
  refine ⟨?_, rfl, rfl, ?_, ?_, hpack.2⟩
  · intro e he
    rcases hact e he with h | h | h
    · exact absurd h (by simp)
    · rw [h]; rfl
    · exact hpack.1 e h
  · intro fileTypeToHydrate workingDir cur0 defines
    exact hydrateFiles_skipped env fileTypeToHydrate state.specFile workingDir _ cur0 defines
      (Or.inr hcfg)
  · intro currentSignatures
    simp [updateSignaturesIfApplicable, hskip]

/-- C6 instance: the packing example under SkipCheck, with a signatures file on disk. -/
theorem skipCheck_never_touches_signatures_witness :
    (∀ e ∈ (packSRPMWorker packEnv false ".cm1" "build" skipTemplate
          { specFile := "specs/bash/bash.spec", srpmFile := "out/bash-5.1-1.cm1.src.rpm",
            toPack := true, err := none }).2,
        e.touchesSignatures = false) ∧
      (initializeSourceConfig packEnv skipTemplate
        (specPathToSignaturesPath packEnv "specs/bash/bash.spec")).2.2 = [] ∧
      (initializeSourceConfig packEnv skipTemplate
        (specPathToSignaturesPath packEnv "specs/bash/bash.spec")).1.signatureLookup =
          skipTemplate.signatureLookup ∧
      (∀ fileTypeToHydrate workingDir cur0 defines,
        (hydrateFiles packEnv fileTypeToHydrate "specs/bash/bash.spec" workingDir
          (initializeSourceConfig packEnv skipTemplate
            (specPathToSignaturesPath packEnv "specs/bash/bash.spec")).1 cur0
            defines).currentSignatures = cur0) ∧
      (∀ currentSignatures,
        (updateSignaturesIfApplicable packEnv
          (specPathToSignaturesPath packEnv "specs/bash/bash.spec")
          (initializeSourceConfig packEnv skipTemplate
            (specPathToSignaturesPath packEnv "specs/bash/bash.spec")).1
            currentSignatures).2 = []) ∧
      (packSingleSPEC packEnv false "specs/bash/bash.spec" "out/bash-5.1-1.cm1.src.rpm"
        (specPathToSignaturesPath packEnv "specs/bash/bash.spec") "build"
        (packEnv.dir "out/bash-5.1-1.cm1.src.rpm") ".cm1"
        (initializeSourceConfig packEnv skipTemplate
          (specPathToSignaturesPath packEnv "specs/bash/bash.spec")).1).currentSignatures
        = [] :=
  skipCheck_never_touches_signatures packEnv false ".cm1" "build" skipTemplate
    { specFile := "specs/bash/bash.spec", srpmFile := "out/bash-5.1-1.cm1.src.rpm",
      toPack := true, err := none } rfl

/-! ## C7, C8, C9 -/

/-- C7: a stage-1 result with `toPack` set carries no error, and its `srpmFile` is the output
directory joined with the single row of the query, which is not empty when rows are not. -/
theorem specsToPackWorker_toPack_invariant (env : Env) (distTag outDir : String)
    (nestedSourcesDir repackAll runCheck : Bool) (specFile : String)
    (hjoin : ∀ name, name ≠ "" → env.join outDir name ≠ "")
    (hrows : ∀ rows, env.querySPEC specFile (stage1SourceDir env nestedSourcesDir specFile)
        srpmQueryFormat (stage1Defines env distTag runCheck) = .ok rows → ∀ r ∈ rows, r ≠ "")
    (hpack : (specsToPackWorker env distTag outDir nestedSourcesDir repackAll runCheck
        specFile).toPack = true) :
    (specsToPackWorker env distTag outDir nestedSourcesDir repackAll runCheck specFile).err
        = none ∧
      (specsToPackWorker env distTag outDir nestedSourcesDir repackAll runCheck
        specFile).srpmFile ≠ "" ∧
      ∃ row, env.querySPEC specFile (stage1SourceDir env nestedSourcesDir specFile)
          srpmQueryFormat (stage1Defines env distTag runCheck) = .ok [row] ∧
        (specsToPackWorker env distTag outDir nestedSourcesDir repackAll runCheck
          specFile).srpmFile = env.join outDir row := by
  cases hq : env.querySPEC specFile (stage1SourceDir env nestedSourcesDir specFile)
      srpmQueryFormat (stage1Defines env distTag runCheck) with
  | error e =>
    exfalso
    revert hpack
    simp only [specsToPackWorker, hq]
    split <;> simp
  | ok rows =>
    match rows, hq with
    | [], hq =>
      exfalso
      revert hpack
      simp [specsToPackWorker, hq]
    | _ :: _ :: _, hq =>
      exfalso
      revert hpack
      simp [specsToPackWorker, hq]
    | [row], hq =>
      have hrow : row ≠ "" := hrows [row] hq row (by simp)
      have hfile := hjoin row hrow
      revert hpack
      simp only [specsToPackWorker, hq]
      by_cases hr : repackAll = true
      · simp [hr, hfile]
      · cases ha : env.specArchIsCompatible specFile
            (stage1SourceDir env nestedSourcesDir specFile)
            (stage1Defines env distTag runCheck) with
        | error e => simp [hr]
        | ok c =>
          cases c with
          | false => simp [hr]
          | true =>
            cases hs : env.stat (env.join outDir row) with
            | error e => simp [hr, hs, hfile]
            | ok mt =>
              cases hl : env.lastModifiedFile (env.dir specFile) with
              | error e => simp [hr, hs, hl]
              | ok tf =>
                obtain ⟨t, f⟩ := tf
                by_cases hgt : t > mt <;> simp [hr, hs, hl, hgt, hfile]

/-- C7 instance: a repack of every spec, with a query that names one SRPM. -/
theorem specsToPackWorker_toPack_invariant_witness :
    (specsToPackWorker stalenessEnv ".cm1" "out" false true false "specs/bash/bash.spec").err
        = none ∧
      (specsToPackWorker stalenessEnv ".cm1" "out" false true false
        "specs/bash/bash.spec").srpmFile ≠ "" ∧
      ∃ row, stalenessEnv.querySPEC "specs/bash/bash.spec"
          (stage1SourceDir stalenessEnv false "specs/bash/bash.spec")
          srpmQueryFormat (stage1Defines stalenessEnv ".cm1" false) = .ok [row] ∧
        (specsToPackWorker stalenessEnv ".cm1" "out" false true false
          "specs/bash/bash.spec").srpmFile = stalenessEnv.join "out" row :=
  specsToPackWorker_toPack_invariant stalenessEnv ".cm1" "out" false true false
    "specs/bash/bash.spec"
    (by
      intro name _ h
      have hl := congrArg String.length h
      simp [stalenessEnv, exampleEnv, exampleJoin, String.length_append] at hl
      exact absurd hl.1 (by decide))
    (by
      intro rows h r hr
      simp only [stalenessEnv, Except.ok.injEq] at h
      subst h
      simp only [List.mem_singleton] at hr
      subst hr
      decide)
    (by simp [specsToPackWorker, stalenessEnv])

/-- C8: when the query returns exactly one row and no answer consulted afterwards is an
error (the architecture check when `repackAll` is off, the newest file of the spec directory
when the SRPM exists), the result carries no error and `toPack` is the stage-1 decision:
`repackAll`, or the architecture is compatible and the SRPM is missing or strictly older
than the newest file under the directory of the spec; in particular a spec whose newest
file is exactly as old as its SRPM is not repacked. -/
theorem specsToPackWorker_decision (env : Env) (distTag outDir : String)
    (nestedSourcesDir repackAll runCheck : Bool) (specFile row : String)
    (hq : env.querySPEC specFile (stage1SourceDir env nestedSourcesDir specFile)
        srpmQueryFormat (stage1Defines env distTag runCheck) = .ok [row])
    (harch : repackAll = false →
      ∃ isCompatible, env.specArchIsCompatible specFile
        (stage1SourceDir env nestedSourcesDir specFile)
        (stage1Defines env distTag runCheck) = .ok isCompatible)
    (hlast : repackAll = false →
      env.specArchIsCompatible specFile (stage1SourceDir env nestedSourcesDir specFile)
        (stage1Defines env distTag runCheck) = .ok true →
      ∀ srpmModTime, env.stat (env.join outDir row) = .ok srpmModTime →
        ∃ specModTime latestFile,
          env.lastModifiedFile (env.dir specFile) = .ok (specModTime, latestFile)) :
    (specsToPackWorker env distTag outDir nestedSourcesDir repackAll runCheck specFile).err
        = none ∧
      (specsToPackWorker env distTag outDir nestedSourcesDir repackAll runCheck
        specFile).toPack
        = stage1Decision env distTag outDir nestedSourcesDir repackAll runCheck specFile row ∧
      ((specsToPackWorker env distTag outDir nestedSourcesDir repackAll runCheck
        specFile).toPack = true ↔
        (repackAll = true ∨
          (env.specArchIsCompatible specFile (stage1SourceDir env nestedSourcesDir specFile)
              (stage1Defines env distTag runCheck) = .ok true ∧
            ((∃ e, env.stat (env.join outDir row) = .error e) ∨
              ∃ srpmModTime specModTime latestFile,
                env.stat (env.join outDir row) = .ok srpmModTime ∧
                env.lastModifiedFile (env.dir specFile) = .ok (specModTime, latestFile) ∧
                specModTime > srpmModTime)))) ∧
      (∀ t latestFile, repackAll = false → env.stat (env.join outDir row) = .ok t →
        env.lastModifiedFile (env.dir specFile) = .ok (t, latestFile) →
        (specsToPackWorker env distTag outDir nestedSourcesDir repackAll runCheck
          specFile).toPack = false) := by
  have hmain : (specsToPackWorker env distTag outDir nestedSourcesDir repackAll runCheck
      specFile).err = none ∧
      (specsToPackWorker env distTag outDir nestedSourcesDir repackAll runCheck
        specFile).toPack
        = stage1Decision env distTag outDir nestedSourcesDir repackAll runCheck specFile
          row ∧
      ((specsToPackWorker env distTag outDir nestedSourcesDir repackAll runCheck
        specFile).toPack = true ↔
        (repackAll = true ∨
          (env.specArchIsCompatible specFile (stage1SourceDir env nestedSourcesDir specFile)
              (stage1Defines env distTag runCheck) = .ok true ∧
            ((∃ e, env.stat (env.join outDir row) = .error e) ∨
              ∃ srpmModTime specModTime latestFile,
                env.stat (env.join outDir row) = .ok srpmModTime ∧
                env.lastModifiedFile (env.dir specFile) = .ok (specModTime, latestFile) ∧
                specModTime > srpmModTime)))) := by
    simp only [specsToPackWorker, stage1Decision, hq]
    by_cases hr : repackAll = true
    · simp [hr]
    · have hrf : repackAll = false := by simpa using hr
      obtain ⟨c, ha⟩ := harch hrf
      cases c with
      | false => simp [hr, ha]
      | true =>
        cases hs : env.stat (env.join outDir row) with
        | error e => simp [hr, ha, hs]
        | ok mt =>
          obtain ⟨t, f, hl⟩ := hlast hrf ha mt hs
          by_cases hgt : t > mt <;> simp [hr, ha, hs, hl, hgt]
  refine ⟨hmain.1, hmain.2.1, hmain.2.2, ?_⟩
  intro t latestFile hr hs hl
  rw [hmain.2.1]
  simp only [stage1Decision, hr, hs, hl]
  simp

/-- C8 instance: the SRPM and the newest file of the spec directory have the same time. -/
theorem specsToPackWorker_decision_witness :
    (specsToPackWorker upToDateEnv ".cm1" "out" false false false
        "specs/bash/bash.spec").err = none ∧
      (specsToPackWorker upToDateEnv ".cm1" "out" false false false
        "specs/bash/bash.spec").toPack
        = stage1Decision upToDateEnv ".cm1" "out" false false false "specs/bash/bash.spec"
          "bash-5.1-1.cm1.src.rpm" ∧
      ((specsToPackWorker upToDateEnv ".cm1" "out" false false false
        "specs/bash/bash.spec").toPack = true ↔
        (false = true ∨
          (upToDateEnv.specArchIsCompatible "specs/bash/bash.spec"
              (stage1SourceDir upToDateEnv false "specs/bash/bash.spec")
              (stage1Defines upToDateEnv ".cm1" false) = .ok true ∧
            ((∃ e, upToDateEnv.stat (upToDateEnv.join "out" "bash-5.1-1.cm1.src.rpm")
                = .error e) ∨
              ∃ srpmModTime specModTime latestFile,
                upToDateEnv.stat (upToDateEnv.join "out" "bash-5.1-1.cm1.src.rpm")
                  = .ok srpmModTime ∧
                upToDateEnv.lastModifiedFile (upToDateEnv.dir "specs/bash/bash.spec")
                  = .ok (specModTime, latestFile) ∧
                specModTime > srpmModTime)))) ∧
      (∀ t latestFile, false = false →
        upToDateEnv.stat (upToDateEnv.join "out" "bash-5.1-1.cm1.src.rpm") = .ok t →
        upToDateEnv.lastModifiedFile (upToDateEnv.dir "specs/bash/bash.spec")
          = .ok (t, latestFile) →
        (specsToPackWorker upToDateEnv ".cm1" "out" false false false
          "specs/bash/bash.spec").toPack = false) :=
  specsToPackWorker_decision upToDateEnv ".cm1" "out" false false false "specs/bash/bash.spec"
    "bash-5.1-1.cm1.src.rpm" rfl (fun _ => ⟨true, rfl⟩)
    (fun _ _ _ _ => ⟨100, "specs/bash/bash.spec", rfl⟩)

/-- C9 counterexample: with `repackAll` set, a spec whose query succeeds and that
`SpecArchIsCompatible` reports as incompatible is still marked `toPack`. -/
theorem specsToPackWorker_incompatible_repackAll :
    stalenessEnv.specArchIsCompatible "specs/bash/bash.spec"
        (stage1SourceDir stalenessEnv false "specs/bash/bash.spec")
        (stage1Defines stalenessEnv ".cm1" false) = .ok false ∧
      (specsToPackWorker stalenessEnv ".cm1" "out" false true false
        "specs/bash/bash.spec").toPack = true := by
  constructor
  · rfl
  · simp [specsToPackWorker, stalenessEnv]

/-- C9 (amended): a spec whose query returns the `NoCompatibleArchError` sentinel gets
`toPack = false` and no error for every value of `repackAll`; a spec whose query returns one
row and that `SpecArchIsCompatible` reports as incompatible gets `toPack = false` and no
error when `repackAll` is not set. -/
theorem specsToPackWorker_incompatible (env : Env) (distTag outDir : String)
    (nestedSourcesDir repackAll runCheck : Bool) (specFile : String) :
    (env.querySPEC specFile (stage1SourceDir env nestedSourcesDir specFile)
          srpmQueryFormat (stage1Defines env distTag runCheck)
          = .error env.noCompatibleArchError →
        (specsToPackWorker env distTag outDir nestedSourcesDir repackAll runCheck
            specFile).toPack = false ∧
          (specsToPackWorker env distTag outDir nestedSourcesDir repackAll runCheck
            specFile).err = none) ∧
      (∀ row, repackAll = false →
        env.querySPEC specFile (stage1SourceDir env nestedSourcesDir specFile)
          srpmQueryFormat (stage1Defines env distTag runCheck) = .ok [row] →
        env.specArchIsCompatible specFile (stage1SourceDir env nestedSourcesDir specFile)
          (stage1Defines env distTag runCheck) = .ok false →
        (specsToPackWorker env distTag outDir nestedSourcesDir repackAll runCheck
            specFile).toPack = false ∧
          (specsToPackWorker env distTag outDir nestedSourcesDir repackAll runCheck
            specFile).err = none) := by
  constructor
  · intro hq
    simp [specsToPackWorker, hq]
  · intro row hr hq ha
    simp [specsToPackWorker, hq, hr, ha]

/-! ## C10 -/

theorem globMatches_of_ok (env : Env) (specsDir n : String) (ms : List String)
    (h : env.glob (specSearch env specsDir n) = .ok ms) : globMatches env specsDir n = ms := by
  simp [globMatches, h]

theorem uniqueMatch_of_length_one (env : Env) (specsDir n : String)
    (h : (globMatches env specsDir n).length = 1) :
    uniqueMatch env specsDir n = some ((globMatches env specsDir n).headD "") := by
  unfold uniqueMatch
  match hm : globMatches env specsDir n with
  | [] => simp [hm] at h
  | [m] => simp
  | _ :: _ :: _ => simp [hm] at h

theorem uniqueMatch_of_length_ne_one (env : Env) (specsDir n : String)
    (h : (globMatches env specsDir n).length ≠ 1) : uniqueMatch env specsDir n = none := by
  unfold uniqueMatch
  match hm : globMatches env specsDir n with
  | [] => rfl
  | [m] => simp [hm] at h
  | _ :: _ :: _ => rfl

theorem findSPECFilesLoop_spec (env : Env) (specsDir : String) (packList : List String) :
    ∀ specFiles : List String,
    (∀ n ∈ packList, ∃ ms, env.glob (specSearch env specsDir n) = .ok ms) →
    (((findSPECFilesLoop env specsDir packList specFiles).2 ≠ none ↔
        ∃ n ∈ packList, hasPrefix n "msopenjdk-11" = false ∧
          (globMatches env specsDir n).length ≠ 1) ∧
      ((findSPECFilesLoop env specsDir packList specFiles).2 = none →
        (findSPECFilesLoop env specsDir packList specFiles).1 =
          specFiles ++ packList.filterMap (uniqueMatch env specsDir))) := by
  induction packList with
  | nil => intro specFiles _; simp [findSPECFilesLoop]
  | cons n rest ih =>
    intro specFiles hglob
    obtain ⟨ms, hms⟩ := hglob n (List.mem_cons_self _ _)
    have hrest : ∀ n ∈ rest, ∃ ms, env.glob (specSearch env specsDir n) = .ok ms :=
      fun x hx => hglob x (List.mem_cons_of_mem _ hx)
    have hgm := globMatches_of_ok env specsDir n ms hms
    by_cases hlen : ms.length = 1
    · have hu := uniqueMatch_of_length_one env specsDir n (by rw [hgm]; exact hlen)
      rw [hgm] at hu
      have hstep : findSPECFilesLoop env specsDir (n :: rest) specFiles =
          findSPECFilesLoop env specsDir rest (specFiles ++ [ms.headD ""]) := by
        simp [findSPECFilesLoop, hms, hlen]
      rw [hstep]
      obtain ⟨h1, h2⟩ := ih (specFiles ++ [ms.headD ""]) hrest
      refine ⟨?_, ?_⟩
      · rw [h1]
        constructor
        · rintro ⟨x, hx, hb⟩
          exact ⟨x, List.mem_cons_of_mem _ hx, hb⟩
        · rintro ⟨x, hx, hp, hb⟩
          rcases List.mem_cons.1 hx with rfl | hx'
          · rw [hgm] at hb
            exact absurd hlen hb
          · exact ⟨x, hx', hp, hb⟩
      · intro hnone
        rw [h2 hnone]
        simp [List.filterMap_cons, hu]
    · have hu := uniqueMatch_of_length_ne_one env specsDir n (by rw [hgm]; exact hlen)
      by_cases hp : hasPrefix n "msopenjdk-11" = true
      · have hstep : findSPECFilesLoop env specsDir (n :: rest) specFiles =
            findSPECFilesLoop env specsDir rest specFiles := by
          simp [findSPECFilesLoop, hms, hlen, hp]
        rw [hstep]
        obtain ⟨h1, h2⟩ := ih specFiles hrest
        refine ⟨?_, ?_⟩
        · rw [h1]
          constructor
          · rintro ⟨x, hx, hb⟩
            exact ⟨x, List.mem_cons_of_mem _ hx, hb⟩
          · rintro ⟨x, hx, hpx, hb⟩
            rcases List.mem_cons.1 hx with rfl | hx'
            · rw [hp] at hpx
              exact absurd hpx (by simp)
            · exact ⟨x, hx', hpx, hb⟩
        · intro hnone
          rw [h2 hnone]
          simp [List.filterMap_cons, hu]
      · have hp' : hasPrefix n "msopenjdk-11" = false := by simpa using hp
        have hstep : (findSPECFilesLoop env specsDir (n :: rest) specFiles).2 ≠ none := by
          simp [findSPECFilesLoop, hms, hlen, hp']
        refine ⟨?_, fun hnone => absurd hnone hstep⟩
        constructor
        · intro _
          exact ⟨n, List.mem_cons_self _ _, hp', by rw [hgm]; exact hlen⟩
        · intro _
          exact hstep

/-- C10: for a non-empty pack list whose globs all return their matches, `findSPECFiles`
fails exactly when some entry that does not begin with `msopenjdk-11` has a number of matches
other than one; when it succeeds the result is, in pack-list order, the unique match of each
entry that has exactly one match, the other entries being left out. -/
theorem findSPECFiles_packList (env : Env) (specsDir : String) (packList : List String)
    (hne : packList ≠ [])
    (hglob : ∀ n ∈ packList, ∃ ms, env.glob (specSearch env specsDir n) = .ok ms) :
    ((findSPECFiles env specsDir packList).2 ≠ none ↔
        ∃ n ∈ packList, hasPrefix n "msopenjdk-11" = false ∧
          (globMatches env specsDir n).length ≠ 1) ∧
      ((findSPECFiles env specsDir packList).2 = none →
        (findSPECFiles env specsDir packList).1 =
          packList.filterMap (uniqueMatch env specsDir)) := by
  have hlen : packList.length ≠ 0 := by
    intro h
    exact hne (List.length_eq_zero.1 h)
  have hfind : findSPECFiles env specsDir packList =
      findSPECFilesLoop env specsDir packList [] := by
    simp [findSPECFiles, hlen]
  rw [hfind]
  simpa using findSPECFilesLoop_spec env specsDir packList [] hglob

/-- C10 instance: a pack list with one spec present once and one absent `msopenjdk-11` entry. -/
theorem findSPECFiles_packList_witness :
    ((findSPECFiles discoveryEnv "specs" ["bash", "msopenjdk-11-jdk"]).2 ≠ none ↔
        ∃ n ∈ ["bash", "msopenjdk-11-jdk"], hasPrefix n "msopenjdk-11" = false ∧
          (globMatches discoveryEnv "specs" n).length ≠ 1) ∧
      ((findSPECFiles discoveryEnv "specs" ["bash", "msopenjdk-11-jdk"]).2 = none →
        (findSPECFiles discoveryEnv "specs" ["bash", "msopenjdk-11-jdk"]).1 =
          ["bash", "msopenjdk-11-jdk"].filterMap (uniqueMatch discoveryEnv "specs")) :=
  findSPECFiles_packList discoveryEnv "specs" ["bash", "msopenjdk-11-jdk"] (by simp)
    (by
      intro n _
      simp only [discoveryEnv]
      split <;> exact ⟨_, rfl⟩)

/-! ## C11 -/

/-- C11 counterexample: the pack succeeds, yet the file copied out and reported is not
named after `srpmFile` when the builder names its SRPM otherwise, and nothing is copied out
and the reported path is empty when the builder leaves no file. -/
theorem packSingleSPEC_output_not_srpmFile :
    (packSingleSPEC renamedOutputEnv false "specs/bash/bash.spec" "out/bash-5.1-1.cm1.src.rpm"
        "specs/bash/bash.signatures.json" "build" "out" ".cm1" enforceConfig).err = none ∧
      (packSingleSPEC renamedOutputEnv false "specs/bash/bash.spec"
        "out/bash-5.1-1.cm1.src.rpm" "specs/bash/bash.signatures.json" "build" "out" ".cm1"
        enforceConfig).outputPath = "out/bash-5.1-1.cm2.src.rpm" ∧
      renamedOutputEnv.join "out" (renamedOutputEnv.base "out/bash-5.1-1.cm1.src.rpm") =
        "out/bash-5.1-1.cm1.src.rpm" ∧
      (∀ e ∈ (packSingleSPEC renamedOutputEnv false "specs/bash/bash.spec"
          "out/bash-5.1-1.cm1.src.rpm" "specs/bash/bash.signatures.json" "build" "out" ".cm1"
          enforceConfig).trace, e.copiesTo "out/bash-5.1-1.cm1.src.rpm" = false) ∧
      (packSingleSPEC noOutputEnv false "specs/bash/bash.spec" "out/bash-5.1-1.cm1.src.rpm"
        "specs/bash/bash.signatures.json" "build" "out" ".cm1" enforceConfig).err = none ∧
      (packSingleSPEC noOutputEnv false "specs/bash/bash.spec" "out/bash-5.1-1.cm1.src.rpm"
        "specs/bash/bash.signatures.json" "build" "out" ".cm1" enforceConfig).outputPath = "" ∧
      (∀ e ∈ (packSingleSPEC noOutputEnv false "specs/bash/bash.spec"
          "out/bash-5.1-1.cm1.src.rpm" "specs/bash/bash.signatures.json" "build" "out" ".cm1"
          enforceConfig).trace, e.copiesTo "out/bash-5.1-1.cm1.src.rpm" = false) := by
  refine ⟨by decide, by decide, by decide, by decide, by decide, by decide, by decide⟩

/-- C11 (amended): after a successful `packSingleSPEC` the builder has run with success and
every regular file met by the walk of the SRPMS directory of the working directory has been
copied into the output directory under its own base name; the reported path is the
destination of one of them, or empty when there is none.  When the builder left at least one
regular file there and all of them are named after `srpmFile`, the reported path is the
output directory joined with the base name of `srpmFile`, and a file was copied to it. -/
theorem packSingleSPEC_output (env : Env) (runCheck : Bool)
    (specFile srpmFile signaturesFile buildDir outDir distTag : String)
    (srcConfig : sourceRetrievalConfiguration)
    (hok : (packSingleSPEC env runCheck specFile srpmFile signaturesFile buildDir outDir
      distTag srcConfig).err = none) :
    (env.generateSRPMFromSPEC specFile (env.join buildDir (env.base srpmFile))
        (packDefines env runCheck distTag) = none ∧
      Effect.generateSRPMFromSPEC specFile (env.join buildDir (env.base srpmFile)) ∈
        (packSingleSPEC env runCheck specFile srpmFile signaturesFile buildDir outDir
          distTag srcConfig).trace) ∧
    (∀ p ∈ env.walk (env.join (env.join buildDir (env.base srpmFile)) "SRPMS"),
      env.isFile p = true →
        env.copy p (env.join outDir (env.base p)) = none ∧
        Effect.copy p (env.join outDir (env.base p)) ∈
          (packSingleSPEC env runCheck specFile srpmFile signaturesFile buildDir outDir
            distTag srcConfig).trace) ∧
    (((packSingleSPEC env runCheck specFile srpmFile signaturesFile buildDir outDir
          distTag srcConfig).outputPath = "" ∧
        ∀ p ∈ env.walk (env.join (env.join buildDir (env.base srpmFile)) "SRPMS"),
          env.isFile p = false) ∨
      ∃ p ∈ env.walk (env.join (env.join buildDir (env.base srpmFile)) "SRPMS"),
        env.isFile p = true ∧
        (packSingleSPEC env runCheck specFile srpmFile signaturesFile buildDir outDir
          distTag srcConfig).outputPath = env.join outDir (env.base p)) ∧
    ((∃ p ∈ env.walk (env.join (env.join buildDir (env.base srpmFile)) "SRPMS"),
        env.isFile p = true) →
      (∀ p ∈ env.walk (env.join (env.join buildDir (env.base srpmFile)) "SRPMS"),
        env.isFile p = true → env.base p = env.base srpmFile) →
      (packSingleSPEC env runCheck specFile srpmFile signaturesFile buildDir outDir
          distTag srcConfig).outputPath = env.join outDir (env.base srpmFile) ∧
        ∃ p ∈ env.walk (env.join (env.join buildDir (env.base srpmFile)) "SRPMS"),
          env.isFile p = true ∧
          env.copy p (env.join outDir (env.base srpmFile)) = none ∧
          Effect.copy p (env.join outDir (env.base srpmFile)) ∈
            (packSingleSPEC env runCheck specFile srpmFile signaturesFile buildDir outDir
              distTag srcConfig).trace) := by
  obtain ⟨hbody, hout, htrace⟩ := packSingleSPEC_ok env runCheck specFile srpmFile
    signaturesFile buildDir outDir distTag srcConfig hok
  obtain ⟨hgen, hcopy, hpath, hgenmem, hcopymem⟩ := packSingleSPECBody_output env runCheck
    specFile signaturesFile _ outDir distTag srcConfig hbody
  obtain ⟨_, hall, hlast⟩ := copyOutputFile_walk env outDir
    (env.walk (env.join (env.join buildDir (env.base srpmFile)) "SRPMS")) ("", [])
  have hcopied : ∀ p ∈ env.walk (env.join (env.join buildDir (env.base srpmFile)) "SRPMS"),
      env.isFile p = true →
        env.copy p (env.join outDir (env.base p)) = none ∧
        Effect.copy p (env.join outDir (env.base p)) ∈
          (packSingleSPEC env runCheck specFile srpmFile signaturesFile buildDir outDir
            distTag srcConfig).trace := by
    intro p hp hpf
    obtain ⟨h1, h2⟩ := hall hcopy p hp hpf
    exact ⟨h1, htrace _ (hcopymem _ h2)⟩
  have hreported : ((packSingleSPEC env runCheck specFile srpmFile signaturesFile buildDir
        outDir distTag srcConfig).outputPath = "" ∧
        ∀ p ∈ env.walk (env.join (env.join buildDir (env.base srpmFile)) "SRPMS"),
          env.isFile p = false) ∨
      ∃ p ∈ env.walk (env.join (env.join buildDir (env.base srpmFile)) "SRPMS"),
        env.isFile p = true ∧
        (packSingleSPEC env runCheck specFile srpmFile signaturesFile buildDir outDir
          distTag srcConfig).outputPath = env.join outDir (env.base p) := by
    rw [hout, hpath]
    exact hlast
  refine ⟨⟨hgen, htrace _ hgenmem⟩, hcopied, hreported, ?_⟩
  rintro ⟨q, hq, hqf⟩ hnames
  rcases hreported with ⟨_, hnone⟩ | ⟨p, hp, hpf, hpath'⟩
  · rw [hnone q hq] at hqf
    exact absurd hqf (by simp)
  · rw [hnames p hp hpf] at hpath'
    refine ⟨hpath', p, hp, hpf, ?_⟩
    have h := hcopied p hp hpf
    rw [hnames p hp hpf] at h
    exact h

/-- C11 instance: the packing example, whose builder leaves the SRPM the query named. -/
theorem packSingleSPEC_output_witness :
    (packEnv.generateSRPMFromSPEC "specs/bash/bash.spec"
        (packEnv.join "build" (packEnv.base "out/bash-5.1-1.cm1.src.rpm"))
        (packDefines packEnv false ".cm1") = none ∧
      Effect.generateSRPMFromSPEC "specs/bash/bash.spec"
          (packEnv.join "build" (packEnv.base "out/bash-5.1-1.cm1.src.rpm")) ∈
        (packSingleSPEC packEnv false "specs/bash/bash.spec" "out/bash-5.1-1.cm1.src.rpm"
          "specs/bash/bash.signatures.json" "build" "out" ".cm1" enforceConfig).trace) ∧
    (∀ p ∈ packEnv.walk (packEnv.join (packEnv.join "build"
          (packEnv.base "out/bash-5.1-1.cm1.src.rpm")) "SRPMS"),
      packEnv.isFile p = true →
        packEnv.copy p (packEnv.join "out" (packEnv.base p)) = none ∧
        Effect.copy p (packEnv.join "out" (packEnv.base p)) ∈
          (packSingleSPEC packEnv false "specs/bash/bash.spec" "out/bash-5.1-1.cm1.src.rpm"
            "specs/bash/bash.signatures.json" "build" "out" ".cm1" enforceConfig).trace) ∧
    (((packSingleSPEC packEnv false "specs/bash/bash.spec" "out/bash-5.1-1.cm1.src.rpm"
          "specs/bash/bash.signatures.json" "build" "out" ".cm1"
          enforceConfig).outputPath = "" ∧
        ∀ p ∈ packEnv.walk (packEnv.join (packEnv.join "build"
            (packEnv.base "out/bash-5.1-1.cm1.src.rpm")) "SRPMS"),
          packEnv.isFile p = false) ∨
      ∃ p ∈ packEnv.walk (packEnv.join (packEnv.join "build"
          (packEnv.base "out/bash-5.1-1.cm1.src.rpm")) "SRPMS"),
        packEnv.isFile p = true ∧
        (packSingleSPEC packEnv false "specs/bash/bash.spec" "out/bash-5.1-1.cm1.src.rpm"
          "specs/bash/bash.signatures.json" "build" "out" ".cm1"
          enforceConfig).outputPath = packEnv.join "out" (packEnv.base p)) ∧
    ((∃ p ∈ packEnv.walk (packEnv.join (packEnv.join "build"
          (packEnv.base "out/bash-5.1-1.cm1.src.rpm")) "SRPMS"),
        packEnv.isFile p = true) →
      (∀ p ∈ packEnv.walk (packEnv.join (packEnv.join "build"
          (packEnv.base "out/bash-5.1-1.cm1.src.rpm")) "SRPMS"),
        packEnv.isFile p = true → packEnv.base p = packEnv.base "out/bash-5.1-1.cm1.src.rpm") →
      (packSingleSPEC packEnv false "specs/bash/bash.spec" "out/bash-5.1-1.cm1.src.rpm"
          "specs/bash/bash.signatures.json" "build" "out" ".cm1"
          enforceConfig).outputPath =
          packEnv.join "out" (packEnv.base "out/bash-5.1-1.cm1.src.rpm") ∧
        ∃ p ∈ packEnv.walk (packEnv.join (packEnv.join "build"
            (packEnv.base "out/bash-5.1-1.cm1.src.rpm")) "SRPMS"),
          packEnv.isFile p = true ∧
          packEnv.copy p (packEnv.join "out" (packEnv.base "out/bash-5.1-1.cm1.src.rpm"))
            = none ∧
          Effect.copy p (packEnv.join "out" (packEnv.base "out/bash-5.1-1.cm1.src.rpm")) ∈
            (packSingleSPEC packEnv false "specs/bash/bash.spec" "out/bash-5.1-1.cm1.src.rpm"
              "specs/bash/bash.signatures.json" "build" "out" ".cm1" enforceConfig).trace) :=
  packSingleSPEC_output packEnv false "specs/bash/bash.spec" "out/bash-5.1-1.cm1.src.rpm"
    "specs/bash/bash.signatures.json" "build" "out" ".cm1" enforceConfig (by decide)

/-! ## C12 -/

/-- C12: for a state that is not to be packed the worker sends a result with the spec file
of the state, an empty `srpmFile` and no error, and performs no action at all. -/
theorem packSRPMWorker_not_toPack (env : Env) (runCheck : Bool) (distTag buildDir : String)
    (templateSrcConfig : sourceRetrievalConfiguration) (state : specState)
    (h : state.toPack = false) :
    (packSRPMWorker env runCheck distTag buildDir templateSrcConfig state).1.specFile =
        state.specFile ∧
      (packSRPMWorker env runCheck distTag buildDir templateSrcConfig state).1.srpmFile = "" ∧
      (packSRPMWorker env runCheck distTag buildDir templateSrcConfig state).1.err = none ∧
      (packSRPMWorker env runCheck distTag buildDir templateSrcConfig state).2 = [] := by
  simp [packSRPMWorker, h]

/-- C12 instance: a spec that stage 1 found up to date. -/
theorem packSRPMWorker_not_toPack_witness :
    (packSRPMWorker packEnv false ".cm1" "build" enforceConfig
        { specFile := "specs/bash/bash.spec", srpmFile := "out/bash-5.1-1.cm1.src.rpm",
          toPack := false, err := none }).1.specFile = "specs/bash/bash.spec" ∧
      (packSRPMWorker packEnv false ".cm1" "build" enforceConfig
        { specFile := "specs/bash/bash.spec", srpmFile := "out/bash-5.1-1.cm1.src.rpm",
          toPack := false, err := none }).1.srpmFile = "" ∧
      (packSRPMWorker packEnv false ".cm1" "build" enforceConfig
        { specFile := "specs/bash/bash.spec", srpmFile := "out/bash-5.1-1.cm1.src.rpm",
          toPack := false, err := none }).1.err = none ∧
      (packSRPMWorker packEnv false ".cm1" "build" enforceConfig
        { specFile := "specs/bash/bash.spec", srpmFile := "out/bash-5.1-1.cm1.src.rpm",
          toPack := false, err := none }).2 = [] :=
  packSRPMWorker_not_toPack packEnv false ".cm1" "build" enforceConfig
    { specFile := "specs/bash/bash.spec", srpmFile := "out/bash-5.1-1.cm1.src.rpm",
      toPack := false, err := none } rfl

/-! ## C13 -/

/-- C13: for every list and every order in which Go ranges over the set,
`removeDuplicateStrings` returns a list without repeated element that has the elements of
the input; so the results for `[a, b, a]` and `[a, b]` are rearrangements of each other, and
a second application returns a rearrangement of the result of the first. -/
theorem removeDuplicateStrings_set (env env' : Env) (packList : List String) (a b : String) :
    (removeDuplicateStrings env packList).Nodup ∧
      (∀ x, x ∈ removeDuplicateStrings env packList ↔ x ∈ packList) ∧
      (removeDuplicateStrings env [a, b, a]).Perm (removeDuplicateStrings env' [a, b]) ∧
      (∀ x, x ∈ removeDuplicateStrings env' (removeDuplicateStrings env packList) ↔
        x ∈ removeDuplicateStrings env packList) ∧
      (removeDuplicateStrings env' (removeDuplicateStrings env packList)).Perm
        (removeDuplicateStrings env packList) := by
  refine ⟨removeDuplicateStrings_nodup env packList,
    mem_removeDuplicateStrings env packList, ?_,
    fun x => mem_removeDuplicateStrings env' _ x, ?_⟩
  · rw [List.perm_ext_iff_of_nodup (removeDuplicateStrings_nodup env _)
      (removeDuplicateStrings_nodup env' _)]
    intro x
    rw [mem_removeDuplicateStrings, mem_removeDuplicateStrings]
    simp only [List.mem_cons, List.mem_singleton, List.not_mem_nil, or_false]
    constructor
    · rintro (h | h | h)
      · exact Or.inl h
      · exact Or.inr h
      · exact Or.inl h
    · rintro (h | h)
      · exact Or.inl h
      · exact Or.inr (Or.inl h)
  · rw [List.perm_ext_iff_of_nodup (removeDuplicateStrings_nodup env' _)
      (removeDuplicateStrings_nodup env _)]
    intro x
    exact mem_removeDuplicateStrings env' _ x

/-! ## C14 -/

/-- Pack list of a file whose lines all fit the buffer of the scanner: with an empty path
`parsePackListFile` returns an empty list and no error; with a file that opens and has no
line of `maxScanTokenSize` bytes or more, it returns without repetition exactly the trimmed
lines that are not empty, and an error exactly when every line is empty once trimmed. -/
theorem parsePackListFile_short_lines (env : Env)
    (openLines : String → Except Err (List String)) (trimSpace : String → String) :
    parsePackListFile env openLines trimSpace "" = ([], none) ∧
      ∀ packListFile lines, packListFile ≠ "" → openLines packListFile = .ok lines →
        (∀ text ∈ lines, text.utf8ByteSize < maxScanTokenSize) →
        (parsePackListFile env openLines trimSpace packListFile).1.Nodup ∧
        (∀ x, x ∈ (parsePackListFile env openLines trimSpace packListFile).1 ↔
          (x ≠ "" ∧ ∃ text ∈ lines, trimSpace text = x)) ∧
        ((parsePackListFile env openLines trimSpace packListFile).2 ≠ none ↔
          ∀ text ∈ lines, trimSpace text = "") := by
  refine ⟨by simp [parsePackListFile], ?_⟩
  intro packListFile lines hne hopen hshort
  have hscan := scanPackList_eq trimSpace lines []
  simp only [List.nil_append] at hscan
  have hlines := scannerLines_of_short lines hshort
  have hfst : (parsePackListFile env openLines trimSpace packListFile).1 =
      removeDuplicateStrings env ((lines.map trimSpace).filter (fun line => line ≠ "")) := by
    simp [parsePackListFile, hne, hopen, hscan, hlines]
  have hsnd : (parsePackListFile env openLines trimSpace packListFile).2 =
      if ((lines.map trimSpace).filter (fun line => line ≠ "")).length = 0 then
        some ("cannot have empty pack list (" ++ packListFile ++ ")")
      else none := by
    simp [parsePackListFile, hne, hopen, hscan, hlines]
  rw [hfst, hsnd]
  refine ⟨removeDuplicateStrings_nodup env _, ?_, ?_⟩
  · intro x
    rw [mem_removeDuplicateStrings]
    simp only [List.mem_filter, List.mem_map, decide_eq_true_eq]
    constructor
    · rintro ⟨⟨text, ht, rfl⟩, hx⟩
      exact ⟨hx, text, ht, rfl⟩
    · rintro ⟨hx, text, ht, rfl⟩
      exact ⟨⟨text, ht, rfl⟩, hx⟩
  · by_cases hlen : ((lines.map trimSpace).filter (fun line => line ≠ "")).length = 0
    · simp only [hlen, if_true]
      have hnil := List.length_eq_zero.1 hlen
      refine ⟨fun _ => ?_, fun _ => by simp⟩
      intro text ht
      by_contra hx
      have hmem : trimSpace text ∈ (lines.map trimSpace).filter (fun line => line ≠ "") := by
        simp only [List.mem_filter, List.mem_map, decide_eq_true_eq]
        exact ⟨⟨text, ht, rfl⟩, hx⟩
      rw [hnil] at hmem
      exact absurd hmem (by simp)
    · simp only [hlen, if_false]
      refine ⟨fun h => absurd rfl h, fun hall => ?_⟩
      exfalso
      apply hlen
      rw [List.length_eq_zero, List.filter_eq_nil_iff]
      intro x hx
      obtain ⟨text, ht, rfl⟩ := List.mem_map.1 hx
      simp [hall text ht]

/-- C14: a pack-list file with the lines `bash`, a line of 70000 bytes and `zlib`.  The long
line is not empty once trimmed and `zlib` is a line of the file, yet `parsePackListFile`
returns the list with the entry `bash` alone and no error; for the file whose only line is
the long one it returns the error of the empty pack list. -/
theorem parsePackListFile_long_line :
    longPackListFile "long.list" = .ok ["bash", longLine, "zlib"] ∧
      longPackListFile "one.list" = .ok [longLine] ∧
      longLine.utf8ByteSize = 70000 ∧
      exampleTrimSpace longLine = longLine ∧
      longLine ≠ "" ∧
      exampleTrimSpace "zlib" = "zlib" ∧
      parsePackListFile exampleEnv longPackListFile exampleTrimSpace "long.list" =
        (["bash"], none) ∧
      parsePackListFile exampleEnv longPackListFile exampleTrimSpace "one.list" =
        ([], some "cannot have empty pack list (one.list)") := by
  have hsize : maxScanTokenSize ≤ longLine.utf8ByteSize := by
    rw [longLine_utf8ByteSize]
    decide
  have h3 : scannerLines ["bash", longLine, "zlib"] = ["bash"] :=
    scannerLines_append_long ["bash"] ["zlib"] longLine (by decide) hsize
  have h1 : scannerLines [longLine] = [] :=
    scannerLines_append_long [] [] longLine (by simp) hsize
  have hlong : parsePackListFile exampleEnv longPackListFile exampleTrimSpace "long.list" =
      (removeDuplicateStrings exampleEnv
          (scanPackList exampleTrimSpace (scannerLines ["bash", longLine, "zlib"]) []),
        if (scanPackList exampleTrimSpace
            (scannerLines ["bash", longLine, "zlib"]) []).length = 0 then
          some ("cannot have empty pack list (" ++ "long.list" ++ ")")
        else none) := rfl
  have hone : parsePackListFile exampleEnv longPackListFile exampleTrimSpace "one.list" =
      (removeDuplicateStrings exampleEnv
          (scanPackList exampleTrimSpace (scannerLines [longLine]) []),
        if (scanPackList exampleTrimSpace (scannerLines [longLine]) []).length = 0 then
          some ("cannot have empty pack list (" ++ "one.list" ++ ")")
        else none) := rfl
  refine ⟨rfl, rfl, longLine_utf8ByteSize, exampleTrimSpace_replicate 69999, ?_, by decide,
    ?_, ?_⟩
  · intro h
    have hz := congrArg String.utf8ByteSize h
    rw [longLine_utf8ByteSize] at hz
    exact absurd hz (by decide)
  · rw [hlong, h3]
    decide
  · rw [hone, h1]
    decide

/-- Example for the pack list: a file with a repeated entry, an empty line and blanks around an
entry. -/
theorem parsePackListFile_example :
    parsePackListFile exampleEnv examplePackListFile exampleTrimSpace "pack.list" =
      (["bash", "zlib"], none) := by
  decide

/-! ## C15 -/

/-- C15: with at least one worker and a successful discovery, `calculateSPECsToRepack`
returns; an error carried by a state it read is the error it returns, and `createAllSRPMs`
returns that error without calling `packSRPMs`; when no state read carries an error it
returns none, `packSRPMs` is called and returns, an error carried by a result it read is the
error `packSRPMs` and `createAllSRPMs` return, and both return none when no result read
carries an error. -/
theorem pipeline_error_propagation (env : Env) (sched : Scheduler)
    (specsDir distTag buildDir outDir : String) (workers : Int)
    (nestedSourcesDir repackAll runCheck : Bool) (packList : List String)
    (templateSrcConfig : sourceRetrievalConfiguration)
    (hw : 0 < workers) (hfind : (findSPECFiles env specsDir packList).2 = none) :
    ∃ states err1,
      calculateSPECsToRepack env sched (findSPECFiles env specsDir packList).1 distTag outDir
        nestedSourcesDir repackAll runCheck workers = some (states, err1) ∧
      (∀ r ∈ states, ∀ e, r.err = some e →
        err1 = some e ∧
        createAllSRPMs env sched specsDir distTag buildDir outDir workers nestedSourcesDir
          repackAll runCheck packList templateSrcConfig =
          some { err := some e, states := states, packed := none }) ∧
      ((∀ r ∈ states, r.err = none) →
        err1 = none ∧
        ∃ results err2,
          packSRPMs env sched runCheck states distTag buildDir templateSrcConfig workers =
            some (results, err2) ∧
          createAllSRPMs env sched specsDir distTag buildDir outDir workers nestedSourcesDir
            repackAll runCheck packList templateSrcConfig =
            some { err := err2, states := states, packed := some results } ∧
          (∀ r ∈ results, ∀ e, r.err = some e → err2 = some e) ∧
          ((∀ r ∈ results, r.err = none) → err2 = none)) := by
  have hlen1 := poolResults_length sched workers
    (specsToPackWorkerSends env distTag outDir nestedSourcesDir repackAll runCheck)
    (specsToPackWorker env distTag outDir nestedSourcesDir repackAll runCheck)
    (specsToPackWorkerSends_eq env distTag outDir nestedSourcesDir repackAll runCheck) hw
    (findSPECFiles env specsDir packList).1
  obtain ⟨states, err1, hcalc, h1, h2⟩ := drainResults_spec specState.err
    (findSPECFiles env specsDir packList).1.length
    (poolResults sched workers
      (specsToPackWorkerSends env distTag outDir nestedSourcesDir repackAll runCheck)
      (findSPECFiles env specsDir packList).1) (by rw [hlen1])
  have hcalc' : calculateSPECsToRepack env sched (findSPECFiles env specsDir packList).1
      distTag outDir nestedSourcesDir repackAll runCheck workers = some (states, err1) := hcalc
  refine ⟨states, err1, hcalc', ?_, ?_⟩
  · intro r hr e he
    have herr := h1 r hr e he
    refine ⟨herr, ?_⟩
    rw [herr] at hcalc'
    simp [createAllSRPMs, hfind, hcalc']
  · intro hall
    have herr := h2 hall
    refine ⟨herr, ?_⟩
    rw [herr] at hcalc'
    have hlen2 := poolResults_length sched workers
      (packSRPMWorkerSends env runCheck distTag buildDir templateSrcConfig)
      (fun state => (packSRPMWorker env runCheck distTag buildDir templateSrcConfig state).1)
      (packSRPMWorkerSends_eq env runCheck distTag buildDir templateSrcConfig) hw states
    obtain ⟨results, err2, hpack, h3, h4⟩ := drainResults_spec packResult.err states.length
      (poolResults sched workers
        (packSRPMWorkerSends env runCheck distTag buildDir templateSrcConfig) states)
      (by rw [hlen2])
    have hpack' : packSRPMs env sched runCheck states distTag buildDir templateSrcConfig
        workers = some (results, err2) := hpack
    refine ⟨results, err2, hpack', ?_, h3, h4⟩
    simp [createAllSRPMs, hfind, hcalc', hpack']

/-- C15 instance: two specs are found and the query of one of them fails. -/
theorem pipeline_error_propagation_witness :
    ∃ states err1,
      calculateSPECsToRepack brokenSpecEnv fifoScheduler
        (findSPECFiles brokenSpecEnv "specs" []).1 ".cm1" "out" false false false 2
        = some (states, err1) ∧
      (∀ r ∈ states, ∀ e, r.err = some e →
        err1 = some e ∧
        createAllSRPMs brokenSpecEnv fifoScheduler "specs" ".cm1" "build" "out" 2 false false
          false [] enforceConfig =
          some { err := some e, states := states, packed := none }) ∧
      ((∀ r ∈ states, r.err = none) →
        err1 = none ∧
        ∃ results err2,
          packSRPMs brokenSpecEnv fifoScheduler false states ".cm1" "build" enforceConfig 2 =
            some (results, err2) ∧
          createAllSRPMs brokenSpecEnv fifoScheduler "specs" ".cm1" "build" "out" 2 false false
            false [] enforceConfig =
            some { err := err2, states := states, packed := some results } ∧
          (∀ r ∈ results, ∀ e, r.err = some e → err2 = some e) ∧
          ((∀ r ∈ results, r.err = none) → err2 = none)) :=
  pipeline_error_propagation brokenSpecEnv fifoScheduler "specs" ".cm1" "build" "out" 2 false
    false false [] enforceConfig (by decide) rfl

/-- Example for C15: the error of the failing query is the error of the pipeline, and the
pack stage is not started. -/
theorem pipeline_error_example :
    createAllSRPMs brokenSpecEnv fifoScheduler "specs" ".cm1" "build" "out" 2 false false
        false [] enforceConfig =
      some { err := some "error: bad spec",
             states := [{ specFile := "specs/bash/bash.spec",
                          srpmFile := "out/bash-5.1-1.cm1.src.rpm", toPack := true,
                          err := none },
                        { specFile := "specs/zlib/zlib.spec", srpmFile := "", toPack := false,
                          err := some "error: bad spec" }],
             packed := none } := by
  decide

/-! ## C16 -/

/-- C16: for every configuration the patch pass of `hydrateFiles` performs copies only (no
download attempt, no removal), returns `currentSignatures` as it got it, and gives the same
result whatever the signature handling, the lookup, the source URL and the digests are; a
patch is hydrated only when a regular file of that base name met by the walk of the local
source directory was copied; and a needed patch without such a file makes the pass fail,
whatever the source URL. -/
theorem patch_pass_local_only (env : Env) (specFile workingDir : String)
    (srcConfig : sourceRetrievalConfiguration) (currentSignatures defines : GoMap String) :
    (∀ e ∈ (hydrateFiles env fileTypePatch specFile workingDir srcConfig currentSignatures
        defines).trace, ∃ src dst, e = Effect.copy src dst) ∧
      (hydrateFiles env fileTypePatch specFile workingDir srcConfig currentSignatures
        defines).currentSignatures = currentSignatures ∧
      (∀ srcConfig' : sourceRetrievalConfiguration,
        srcConfig'.localSourceDir = srcConfig.localSourceDir →
        hydrateFiles env fileTypePatch specFile workingDir srcConfig' currentSignatures
            defines =
          hydrateFiles env fileTypePatch specFile workingDir srcConfig currentSignatures
            defines) ∧
      (∀ digest fold,
        hydrateFiles { env with generateSHA256 := digest, equalFold := fold } fileTypePatch
            specFile workingDir srcConfig currentSignatures defines =
          hydrateFiles env fileTypePatch specFile workingDir srcConfig currentSignatures
            defines) ∧
      (∀ f, mapGet (hydrateFiles env fileTypePatch specFile workingDir srcConfig
          currentSignatures defines).fileHydrationState f = some true →
        ∃ p ∈ env.walk srcConfig.localSourceDir, env.isFile p = true ∧ env.base p = f ∧
          env.copy p (env.join (env.join workingDir "SOURCES") f) = none ∧
          Effect.copy p (env.join (env.join workingDir "SOURCES") f) ∈
            (hydrateFiles env fileTypePatch specFile workingDir srcConfig currentSignatures
              defines).trace) ∧
      (∀ filesNeeded,
        readSPECTagArray env specFile srcConfig.localSourceDir (specTagOf fileTypePatch)
          defines = .ok filesNeeded →
        ∀ f ∈ filesNeeded,
          (∀ p ∈ env.walk srcConfig.localSourceDir, env.isFile p = true → env.base p ≠ f) →
          (hydrateFiles env fileTypePatch specFile workingDir srcConfig currentSignatures
            defines).err ≠ none) := by
  have hstate : ∀ f, mapGet (hydrateFiles env fileTypePatch specFile workingDir srcConfig
      currentSignatures defines).fileHydrationState f = some true →
      ∃ p ∈ env.walk srcConfig.localSourceDir, env.isFile p = true ∧ env.base p = f ∧
        env.copy p (env.join (env.join workingDir "SOURCES") f) = none ∧
        Effect.copy p (env.join (env.join workingDir "SOURCES") f) ∈
          (hydrateFiles env fileTypePatch specFile workingDir srcConfig currentSignatures
            defines).trace := by
    cases hq : readSPECTagArray env specFile srcConfig.localSourceDir
        (specTagOf fileTypePatch) defines with
    | error x =>
      intro f hf
      simp [hydrateFiles, hq, mapGet] at hf
    | ok filesNeeded =>
      simp only [hydrateFiles, hq]
      exact (hydratePasses_patch_inv env workingDir srcConfig currentSignatures
        filesNeeded).2
  have htrace : ∀ e ∈ (hydrateFiles env fileTypePatch specFile workingDir srcConfig
      currentSignatures defines).trace, ∃ src dst, e = Effect.copy src dst := by
    cases hq : readSPECTagArray env specFile srcConfig.localSourceDir
        (specTagOf fileTypePatch) defines with
    | error x =>
      intro e he
      simp [hydrateFiles, hq] at he
    | ok filesNeeded =>
      simp only [hydrateFiles, hq]
      exact (hydratePasses_patch_inv env workingDir srcConfig currentSignatures
        filesNeeded).1
  refine ⟨htrace,
    hydrateFiles_patch_currentSignatures env specFile workingDir srcConfig currentSignatures
      defines,
    fun srcConfig' h => hydrateFiles_patch_config env specFile workingDir srcConfig srcConfig'
      currentSignatures defines h,
    fun digest fold => hydrateFiles_patch_digest env specFile workingDir srcConfig
      currentSignatures defines digest fold,
    hstate, ?_⟩
  intro filesNeeded hq f hf hmissing
  rw [hydrateFiles_err_iff env fileTypePatch specFile workingDir srcConfig currentSignatures
    defines filesNeeded hq]
  have hinv := (hydratePasses_inv env fileTypePatch workingDir srcConfig currentSignatures
    filesNeeded).2
  have hsome := (hinv.keys f).2 hf
  have hfields : (hydrateFiles env fileTypePatch specFile workingDir srcConfig
      currentSignatures defines).fileHydrationState =
      (hydratePasses env fileTypePatch workingDir srcConfig currentSignatures
        filesNeeded).2.fileHydrationState := by
    simp [hydrateFiles, hq]
  refine ⟨f, hf, ?_⟩
  cases hg : mapGet (hydratePasses env fileTypePatch workingDir srcConfig currentSignatures
      filesNeeded).2.fileHydrationState f with
  | none => rw [hg] at hsome; exact absurd hsome (by simp)
  | some b =>
    cases b with
    | false => rfl
    | true =>
      exfalso
      rw [← hfields] at hg
      obtain ⟨p, hp, hpf, hb, _, _⟩ := hstate f hg
      exact hmissing p hp hpf hb

/-- Example for C16: a patch that is not on disk is not fetched from the source server, and
the pass fails without any action. -/
theorem patch_missing_example :
    (hydrateFiles missingPatchEnv fileTypePatch "specs/bash/bash.spec"
        "build/bash-5.1-1.cm1.src.rpm" remoteConfig [] []).err ≠ none ∧
      (hydrateFiles missingPatchEnv fileTypePatch "specs/bash/bash.spec"
        "build/bash-5.1-1.cm1.src.rpm" remoteConfig [] []).trace = [] ∧
      (hydrateFiles missingPatchEnv fileTypeSource "specs/bash/bash.spec"
        "build/bash-5.1-1.cm1.src.rpm" remoteConfig [] []).err = none := by
  decide

/-! ## C17 -/

/-- C17: for a spec whose tags the query returns, the three checks return without error;
all three return true when ExclusiveArch includes the host and ExcludeArch does not, and
when the spec declares neither tag; all three return false when ExclusiveArch is declared
without the host and ExcludeArch includes the host. -/
theorem arch_gating (host : String)
    (queryTags : String → String → GoMap String → Except Err ArchTags)
    (specFile sourceDir : String) (defines : GoMap String) (tags : ArchTags)
    (hq : queryTags specFile sourceDir defines = .ok tags) :
    (host ∈ tags.exclusiveArch → host ∉ tags.excludeArch →
      SpecExclusiveArchIsCompatible host queryTags specFile sourceDir defines = .ok true ∧
      SpecExcludeArchIsCompatible host queryTags specFile sourceDir defines = .ok true ∧
      SpecArchIsCompatible host queryTags specFile sourceDir defines = .ok true) ∧
    (tags.exclusiveArch = [] → tags.excludeArch = [] →
      SpecExclusiveArchIsCompatible host queryTags specFile sourceDir defines = .ok true ∧
      SpecExcludeArchIsCompatible host queryTags specFile sourceDir defines = .ok true ∧
      SpecArchIsCompatible host queryTags specFile sourceDir defines = .ok true) ∧
    (tags.exclusiveArch ≠ [] → host ∉ tags.exclusiveArch → host ∈ tags.excludeArch →
      SpecExclusiveArchIsCompatible host queryTags specFile sourceDir defines = .ok false ∧
      SpecExcludeArchIsCompatible host queryTags specFile sourceDir defines = .ok false ∧
      SpecArchIsCompatible host queryTags specFile sourceDir defines = .ok false) := by
  refine ⟨?_, ?_, ?_⟩
  · intro h1 h2
    simp [SpecArchIsCompatible, SpecExclusiveArchIsCompatible, SpecExcludeArchIsCompatible,
      hq, h1, h2]
  · intro h1 h2
    simp [SpecArchIsCompatible, SpecExclusiveArchIsCompatible, SpecExcludeArchIsCompatible,
      hq, h1, h2]
  · intro h1 h2 h3
    have he : tags.exclusiveArch.isEmpty = false := by
      cases hx : tags.exclusiveArch with
      | nil => exact absurd hx h1
      | cons _ _ => rfl
    simp [SpecArchIsCompatible, SpecExclusiveArchIsCompatible, SpecExcludeArchIsCompatible,
      hq, he, h2, h3]

/-- C17 instance: a spec shaped like `supported_unsupported_architectures.spec`. -/
theorem arch_gating_witness :
    ("x86_64" ∈ ["x86_64", "aarch64"] → "x86_64" ∉ ["ppc64le"] →
      SpecExclusiveArchIsCompatible "x86_64" testdataTags
        "testdata/supported_unsupported_architectures.spec" "testdata" testDefines
        = .ok true ∧
      SpecExcludeArchIsCompatible "x86_64" testdataTags
        "testdata/supported_unsupported_architectures.spec" "testdata" testDefines
        = .ok true ∧
      SpecArchIsCompatible "x86_64" testdataTags
        "testdata/supported_unsupported_architectures.spec" "testdata" testDefines
        = .ok true) ∧
    (["x86_64", "aarch64"] = [] → ["ppc64le"] = [] →
      SpecExclusiveArchIsCompatible "x86_64" testdataTags
        "testdata/supported_unsupported_architectures.spec" "testdata" testDefines
        = .ok true ∧
      SpecExcludeArchIsCompatible "x86_64" testdataTags
        "testdata/supported_unsupported_architectures.spec" "testdata" testDefines
        = .ok true ∧
      SpecArchIsCompatible "x86_64" testdataTags
        "testdata/supported_unsupported_architectures.spec" "testdata" testDefines
        = .ok true) ∧
    (["x86_64", "aarch64"] ≠ [] → "x86_64" ∉ ["x86_64", "aarch64"] → "x86_64" ∈ ["ppc64le"] →
      SpecExclusiveArchIsCompatible "x86_64" testdataTags
        "testdata/supported_unsupported_architectures.spec" "testdata" testDefines
        = .ok false ∧
      SpecExcludeArchIsCompatible "x86_64" testdataTags
        "testdata/supported_unsupported_architectures.spec" "testdata" testDefines
        = .ok false ∧
      SpecArchIsCompatible "x86_64" testdataTags
        "testdata/supported_unsupported_architectures.spec" "testdata" testDefines
        = .ok false) :=
  arch_gating "x86_64" testdataTags "testdata/supported_unsupported_architectures.spec"
    "testdata" testDefines { exclusiveArch := ["x86_64", "aarch64"], excludeArch := ["ppc64le"] }
    rfl

/-- Example for C17: the nine tests of rpm_test.go on specs shaped like the fixtures. -/
theorem rpm_tests_example :
    SpecExclusiveArchIsCompatible "x86_64" testdataTags
        "testdata/supported_unsupported_architectures.spec" "testdata" testDefines
        = .ok true ∧
      SpecExclusiveArchIsCompatible "x86_64" testdataTags
        "testdata/no_exclusive_architecture.spec" "testdata" testDefines = .ok true ∧
      SpecExclusiveArchIsCompatible "x86_64" testdataTags
        "testdata/unsupported_architectures.spec" "testdata" testDefines = .ok false ∧
      SpecExcludeArchIsCompatible "x86_64" testdataTags
        "testdata/supported_unsupported_architectures.spec" "testdata" testDefines
        = .ok true ∧
      SpecExcludeArchIsCompatible "x86_64" testdataTags
        "testdata/no_exclusive_architecture.spec" "testdata" testDefines = .ok true ∧
      SpecExcludeArchIsCompatible "x86_64" testdataTags
        "testdata/unsupported_architectures.spec" "testdata" testDefines = .ok false ∧
      SpecArchIsCompatible "x86_64" testdataTags
        "testdata/supported_unsupported_architectures.spec" "testdata" testDefines
        = .ok true ∧
      SpecArchIsCompatible "x86_64" testdataTags
        "testdata/no_exclusive_architecture.spec" "testdata" testDefines = .ok true ∧
      SpecArchIsCompatible "x86_64" testdataTags
        "testdata/unsupported_architectures.spec" "testdata" testDefines = .ok false := by
  refine ⟨rfl, rfl, rfl, rfl, rfl, rfl, rfl, rfl, rfl⟩

/-! ## C18 -/

/-- C18: in both worker bodies every branch sends exactly one result, whose spec file is
that of the request; so a worker sends one result for each request it takes without
observing the cancellation, in order, with the spec files of these requests; with at least
one worker the pool delivers as many results as there is work, and a drain that ends
without error has read that many. -/
theorem drain_exact_count (env : Env) (sched : Scheduler) (distTag outDir buildDir : String)
    (nestedSourcesDir repackAll runCheck : Bool)
    (templateSrcConfig : sourceRetrievalConfiguration) (workers : Int) :
    (∀ specFile,
      specsToPackWorkerSends env distTag outDir nestedSourcesDir repackAll runCheck specFile =
        [specsToPackWorker env distTag outDir nestedSourcesDir repackAll runCheck specFile] ∧
      (specsToPackWorker env distTag outDir nestedSourcesDir repackAll runCheck
        specFile).specFile = specFile) ∧
    (∀ state,
      packSRPMWorkerSends env runCheck distTag buildDir templateSrcConfig state =
        [(packSRPMWorker env runCheck distTag buildDir templateSrcConfig state).1] ∧
      (packSRPMWorker env runCheck distTag buildDir templateSrcConfig state).1.specFile =
        state.specFile) ∧
    (∀ cancelled requests,
      (workerLoop (specsToPackWorkerSends env distTag outDir nestedSourcesDir repackAll
          runCheck) cancelled requests 0).map specState.specFile =
        servedRequests cancelled requests 0) ∧
    (∀ cancelled states,
      (workerLoop (packSRPMWorkerSends env runCheck distTag buildDir templateSrcConfig)
          cancelled states 0).map packResult.specFile =
        (servedRequests cancelled states 0).map specState.specFile) ∧
    (∀ specFiles,
      (0 < workers →
        (poolResults sched workers
          (specsToPackWorkerSends env distTag outDir nestedSourcesDir repackAll runCheck)
          specFiles).length = specFiles.length) ∧
      ∀ states,
        calculateSPECsToRepack env sched specFiles distTag outDir nestedSourcesDir repackAll
          runCheck workers = some (states, none) → states.length = specFiles.length) ∧
    (∀ specStates,
      (0 < workers →
        (poolResults sched workers
          (packSRPMWorkerSends env runCheck distTag buildDir templateSrcConfig)
          specStates).length = specStates.length) ∧
      ∀ results,
        packSRPMs env sched runCheck specStates distTag buildDir templateSrcConfig workers =
          some (results, none) → results.length = specStates.length) := by
  have hs1 := specsToPackWorkerSends_eq env distTag outDir nestedSourcesDir repackAll runCheck
  have hs2 := packSRPMWorkerSends_eq env runCheck distTag buildDir templateSrcConfig
  refine ⟨?_, ?_, ?_, ?_, ?_, ?_⟩
  · intro specFile
    exact ⟨hs1 specFile, specsToPackWorker_specFile env distTag outDir nestedSourcesDir
      repackAll runCheck specFile⟩
  · intro state
    exact ⟨hs2 state, packSRPMWorker_specFile env runCheck distTag buildDir templateSrcConfig
      state⟩
  · intro cancelled requests
    rw [workerLoop_single _ _ hs1 cancelled requests 0, List.map_map]
    have hid : (specState.specFile ∘
        specsToPackWorker env distTag outDir nestedSourcesDir repackAll runCheck) = id := by
      funext specFile
      exact specsToPackWorker_specFile env distTag outDir nestedSourcesDir repackAll runCheck
        specFile
    rw [hid, List.map_id]
  · intro cancelled states
    rw [workerLoop_single _ _ hs2 cancelled states 0, List.map_map]
    have hcomp : (packResult.specFile ∘ fun state =>
        (packSRPMWorker env runCheck distTag buildDir templateSrcConfig state).1) =
        specState.specFile := by
      funext state
      exact packSRPMWorker_specFile env runCheck distTag buildDir templateSrcConfig state
    rw [hcomp]
  · intro specFiles
    refine ⟨fun hw => poolResults_length sched workers _ _ hs1 hw specFiles, ?_⟩
    intro states h
    exact drainResults_length specState.err _ _ states h
  · intro specStates
    refine ⟨fun hw => poolResults_length sched workers _ _ hs2 hw specStates, ?_⟩
    intro results h
    exact drainResults_length packResult.err _ _ results h

end SrpmPacker
